import Mathlib

/-!
The package gohbv: a shallow embedding of the HBV simulation engine.

The Go sources `gohbv.go`, `hbv_io.go` and `hbv_routines.go` are embedded as Lean
definitions over exact rational arithmetic:

* `float64` is read as `ℚ`: no rounding, no NaN, no infinities.  Division is the
  division of `ℚ`, so `x / 0 = 0` where IEEE arithmetic yields an infinity or NaN;
  every theorem whose content depends on a divisor says so in its statement.
* a Go slice is a `List`; an index out of range (a run-time panic in Go) is the
  `none` of `Option`, and so is `make` with a negative length.
* `math.Pow` lies outside the repository and is not rational valued in general; the
  routines that call it take it as the argument `Pow`.
* the in-place mutation of `mState` is explicit state passing: every routine
  returns the new slice.
-/

namespace Gohbv

/-! ## Data model (`gohbv.go`, `hbv_io.go`) -/

/-- Model state and fluxes of one time step (`ModelState` in `gohbv.go`). -/
structure ModelState where
  AET : ℚ
  Q_gw : ℚ
  Q_sim : ℚ
  Snowfall : ℚ
  Rainfall : ℚ
  S_snow : ℚ
  Snow_solid : ℚ
  Snow_liquid : ℚ
  Snow_cover : ℤ
  Snow_melt : ℚ
  Liquid_in : ℚ
  S_soil : ℚ
  S_gw_suz : ℚ
  S_gw_slz : ℚ
  Recharge_sm : ℚ
  Recharge_gwuz : ℚ
  deriving DecidableEq, Repr

/-- The sixteen calibration constants (`Parameters` in `hbv_io.go`). -/
structure Parameters where
  TT : ℚ
  CFMAX : ℚ
  SFCF : ℚ
  CFR : ℚ
  CWH : ℚ
  FC : ℚ
  LP : ℚ
  BETA : ℚ
  PERC : ℚ
  UZL : ℚ
  K0 : ℚ
  K1 : ℚ
  K2 : ℚ
  MAXBAS : ℚ
  PCALT : ℚ
  TCALT : ℚ
  deriving DecidableEq, Repr

/-- Input forcing and observations of one time step (`InputData` in `hbv_io.go`). -/
structure InputData where
  Date : String
  Precipitation : ℚ
  Temperature : ℚ
  Discharge : ℚ
  PotentialET : ℚ
  deriving DecidableEq, Repr

/-- The value of a Go `error`; `RunModel` only ever returns `nil`, here `none`. -/
abbrev GoError := String

/-- The zero value of `ModelState`, as `make` allocates it. -/
def ModelState.zero : ModelState :=
  { AET := 0, Q_gw := 0, Q_sim := 0, Snowfall := 0, Rainfall := 0, S_snow := 0,
    Snow_solid := 0, Snow_liquid := 0, Snow_cover := 0, Snow_melt := 0, Liquid_in := 0,
    S_soil := 0, S_gw_suz := 0, S_gw_slz := 0, Recharge_sm := 0, Recharge_gwuz := 0 }

/-! ## Library functions used by the kernel generator -/

/-- Library function `floats.Span` of gonum, which is outside the repository: the
`n` evenly spaced values `l + step * k`, `k < n`, with `step = (u - l) / (n - 1)`. -/
def floatsSpan (n : ℕ) (l u : ℚ) : List ℚ :=
  let step := (u - l) / ((n : ℚ) - 1)
  (List.range n).map fun k => l + step * (k : ℚ)

/-- The accumulation loop of `integrate.Trapezoidal`:
`integral += 0.5 * (x[i+1] - x[i]) * (f[i+1] + f[i])` for `i` from `0`. -/
def trapezoidalLoop : ℚ → List ℚ → List ℚ → ℚ
  | integral, x0 :: x1 :: xs, f0 :: f1 :: fs =>
      trapezoidalLoop (integral + (1 / 2) * (x1 - x0) * (f1 + f0)) (x1 :: xs) (f1 :: fs)
  | integral, _, _ => integral

/-- Library function `integrate.Trapezoidal` of gonum, which is outside the
repository: the trapezoidal rule over the samples `f` at the abscissas `x`. -/
def integrateTrapezoidal (x f : List ℚ) : ℚ :=
  trapezoidalLoop 0 x f

/-! ## MAXBAS weights (`hbv_routines.go`, lines 18-55) -/

/-- The helper `routingMaxbas`: the values that are integrated in
`RoutingMaxbasWeights`. -/
def routingMaxbas (x : List ℚ) (p_maxbas : ℚ) : List ℚ :=
  let a := 2 / p_maxbas
  let c := 4 / (p_maxbas ^ 2)
  x.map fun xi => a - |xi - p_maxbas / 2| * c

/-- The first loop of `RoutingMaxbasWeights`: bin `i` holds the trapezoidal
integral over `[i, i+1]`, sampled at `int(1.0/dx)+1` points with `dx = 0.1`. -/
def maxbasBins (mPars : Parameters) (len : ℕ) : List ℚ :=
  let dx : ℚ := 1 / 10
  (List.range len).map fun i =>
    let x := floatsSpan (⌊(1 : ℚ) / dx⌋.toNat + 1) (i : ℚ) ((i : ℚ) + 1)
    let y := routingMaxbas x mPars.MAXBAS
    integrateTrapezoidal x y

/-- The function `RoutingMaxbasWeights`: the bins, divided by their total.  The
slice has `int(math.Ceil(MAXBAS))` entries; `make` panics on a negative length. -/
def RoutingMaxbasWeights (mPars : Parameters) : Option (List ℚ) :=
  let len : ℤ := ⌈mPars.MAXBAS⌉
  if len < 0 then none
  else
    let maxbas := maxbasBins mPars len.toNat
    let maxbas_sum := maxbas.foldl (fun acc v => acc + v) 0
    let adj_mb_factor := 1 / maxbas_sum
    some (maxbas.map fun v => v * adj_mb_factor)

/-! ## Snow routine (`hbv_routines.go`, lines 59-111) -/

/-- The body of `SnowRoutine` on the records it touches: `prev` is `mState[i-1]`,
`cur` is `mState[i]` on entry, `inp` is `inData[i]`; the result is `mState[i]` on
exit.  The assignments are kept in source order. -/
def snowStep (mPars : Parameters) (prev cur : ModelState) (inp : InputData) : ModelState :=
  let s := { cur with Snow_solid := prev.Snow_solid }
  let s := { s with Snow_cover := if s.Snow_solid > 0 then 1 else 0 }
  let s :=
    if inp.Temperature ≤ mPars.TT then
      let s := { s with Snowfall := inp.Precipitation * mPars.SFCF }
      let s := { s with Rainfall := 0 }
      let s := { s with Snow_solid := s.Snow_solid + s.Snowfall }
      let pot_refreeze := mPars.CFMAX * mPars.CFR * (mPars.TT - inp.Temperature)
      let refreezing := min pot_refreeze prev.Snow_liquid
      let s := { s with Snow_solid := s.Snow_solid + refreezing }
      let s := { s with Snow_liquid := prev.Snow_liquid - refreezing }
      let s := { s with Snow_melt := 0 }
      { s with Liquid_in := 0 }
    else
      let s := { s with Rainfall := inp.Precipitation }
      let s := { s with Snowfall := 0 }
      let snowmelt_potential := max (mPars.CFMAX * (inp.Temperature - mPars.TT)) 0
      let s := { s with Snow_melt := min snowmelt_potential s.Snow_solid }
      let s := { s with Snow_solid := max (s.Snow_solid - s.Snow_melt) 0 }
      let pot_liqwater_snow := s.Snow_solid * mPars.CWH
      let s := { s with Snow_liquid := prev.Snow_liquid + inp.Precipitation + s.Snow_melt }
      let s := { s with Liquid_in := max (s.Snow_liquid - pot_liqwater_snow) 0 }
      { s with Snow_liquid := s.Snow_liquid - s.Liquid_in }
  { s with S_snow := s.Snow_solid + s.Snow_liquid }

/-- The function `SnowRoutine`: reads `mState[i-1]`, `mState[i]` and `inData[i]`,
writes `mState[i]`.  An index out of range (also `i - 1 = -1`) is `none`. -/
def SnowRoutine (mState : List ModelState) (mPars : Parameters) (inData : List InputData)
    (i : ℕ) : Option (List ModelState) :=
  if i = 0 then none
  else
    match mState[i - 1]?, mState[i]?, inData[i]? with
    | some prev, some cur, some inp => some (mState.set i (snowStep mPars prev cur inp))
    | _, _, _ => none

/-! ## Soil routine (`hbv_routines.go`, lines 113-156) -/

/-- The inner loop of `SoilRoutine`, `for i := 1; i <= liquid_in_int; i++`, on the
pair `(soil_s_current, recharge_gw_in_total)`: 1 mm is split at each pass. -/
def soilLoop (Pow : ℚ → ℚ → ℚ) (mPars : Parameters) : ℕ → ℚ × ℚ → ℚ × ℚ
  | 0, acc => acc
  | k + 1, (soil_s_current, recharge_gw_in_total) =>
      let recharge_gw_in := 1 * Pow (soil_s_current / mPars.FC) mPars.BETA
      let soil_s_in := 1 - recharge_gw_in
      soilLoop Pow mPars k (soil_s_current + soil_s_in, recharge_gw_in_total + recharge_gw_in)

/-- The first half of `SoilRoutine` (lines 117-145): from `mState[i-1].S_soil` and
`mState[i].Liquid_in` to `(soil_s_current, Recharge_sm, Recharge_gwuz)`. -/
def soilRecharge (Pow : ℚ → ℚ → ℚ) (mPars : Parameters) (prev_S_soil liquid_in : ℚ) :
    ℚ × ℚ × ℚ :=
  let soil_s_current := prev_S_soil
  if liquid_in > 0 then
    let liquid_in_last := liquid_in - (⌊liquid_in⌋ : ℚ)
    let liquid_in_int := ⌊liquid_in⌋.toNat
    let acc := soilLoop Pow mPars liquid_in_int (soil_s_current, 0)
    let soil_s_current := acc.1
    let recharge_gw_in_total := acc.2
    let recharge_gw_in := liquid_in_last * Pow (soil_s_current / mPars.FC) mPars.BETA
    let soil_s_in := liquid_in_last - recharge_gw_in
    let soil_s_current := soil_s_current + soil_s_in
    let recharge_gw_in_total := recharge_gw_in_total + recharge_gw_in
    (soil_s_current, soil_s_current - prev_S_soil, recharge_gw_in_total)
  else
    (soil_s_current, 0, 0)

/-- The body of `SoilRoutine` on the records it touches: `prev` is `mState[i-1]`,
`cur` is `mState[i]` on entry, `inp` is `inData[i]` when that index exists.  The
source reads `inData[i]` only when there is no snow cover, so the result is `none`
(an index out of range) only in that branch. -/
def soilStep (Pow : ℚ → ℚ → ℚ) (mPars : Parameters) (prev cur : ModelState)
    (inp : Option InputData) : Option ModelState :=
  let r := soilRecharge Pow mPars prev.S_soil cur.Liquid_in
  let soil_s_current := r.1
  let s := { cur with Recharge_sm := r.2.1 }
  let s := { s with Recharge_gwuz := r.2.2 }
  let sm_aet := (soil_s_current - prev.S_soil) / 2 + prev.S_soil
  let aet : Option ℚ :=
    if s.Snow_cover = (1 : ℤ) then some 0
    else
      match inp with
      | some d => some (d.PotentialET * min 1 (sm_aet * (1 / (mPars.LP * mPars.FC))))
      | none => none
  match aet with
  | some a =>
      let s := { s with AET := a }
      some { s with S_soil := prev.S_soil - s.AET + s.Recharge_sm }
  | none => none

/-- The function `SoilRoutine`: reads `mState[i-1]` and `mState[i]`, and `inData[i]`
only when there is no snow cover; writes `mState[i]`. -/
def SoilRoutine (Pow : ℚ → ℚ → ℚ) (mState : List ModelState) (mPars : Parameters)
    (inData : List InputData) (i : ℕ) : Option (List ModelState) :=
  if i = 0 then none
  else
    match mState[i - 1]?, mState[i]? with
    | some prev, some cur =>
        match soilStep Pow mPars prev cur inData[i]? with
        | some s => some (mState.set i s)
        | none => none
    | _, _ => none

/-! ## Response routine (`hbv_routines.go`, lines 158-175) -/

/-- The body of `ResponseRoutine` on the records it touches: `prev` is
`mState[i-1]`, `cur` is `mState[i]` on entry; the result is `mState[i]` on exit. -/
def responseStep (mPars : Parameters) (prev cur : ModelState) : ModelState :=
  let s := { cur with S_gw_suz := prev.S_gw_suz + cur.Recharge_gwuz }
  let percolation := min mPars.PERC s.S_gw_suz
  let s := { s with S_gw_suz := s.S_gw_suz - percolation }
  let s := { s with S_gw_slz := prev.S_gw_slz + percolation }
  let q_lz := mPars.K2 * s.S_gw_slz
  let q_uz := mPars.K1 * s.S_gw_suz
  let q_uzt := mPars.K0 * max (s.S_gw_suz - mPars.UZL) 0
  let s := { s with Q_gw := q_lz + q_uz + q_uzt }
  let s := { s with S_gw_slz := s.S_gw_slz - q_lz }
  { s with S_gw_suz := s.S_gw_suz - q_uz - q_uzt }

/-- The function `ResponseRoutine`: reads `mState[i-1]` and `mState[i]`, writes
`mState[i]`. -/
def ResponseRoutine (mState : List ModelState) (mPars : Parameters) (i : ℕ) :
    Option (List ModelState) :=
  if i = 0 then none
  else
    match mState[i - 1]?, mState[i]? with
    | some prev, some cur => some (mState.set i (responseStep mPars prev cur))
    | _, _ => none

/-! ## Routing routine (`hbv_routines.go`, lines 177-188) -/

/-- The loop of `RoutingRoutine`, `for j := 0; j < len(maxbas); j++`, from index `j`
on; the first argument is `maxbas[j:]`, so its head is `maxbas[j]`.  The loop
breaks when `i + j >= len(inData)`. -/
def routingLoop (inData : List InputData) (i : ℕ) :
    List ℚ → ℕ → List ModelState → Option (List ModelState)
  | [], _, mState => some mState
  | w :: ws, j, mState =>
      let ij := i + j
      if ij ≥ inData.length then some mState
      else
        match mState[ij]?, mState[i]? with
        | some sij, some si =>
            routingLoop inData i ws (j + 1)
              (mState.set ij { sij with Q_sim := sij.Q_sim + si.Q_gw * w })
        | _, _ => none

/-- The function `RoutingRoutine`: applies the maxbas weights to the groundwater
response of step `i`. -/
def RoutingRoutine (mState : List ModelState) (_mPars : Parameters) (inData : List InputData)
    (i : ℕ) (maxbas : List ℚ) : Option (List ModelState) :=
  routingLoop inData i maxbas 0 mState

/-! ## Driver (`gohbv.go`, lines 32-53) -/

/-- One pass of the forward Euler loop of `RunModel`: Snow, Soil, Response,
Routing at step `i`. -/
def RunModel.step (Pow : ℚ → ℚ → ℚ) (mPars : Parameters) (inData : List InputData)
    (maxbas : List ℚ) (mState : List ModelState) (i : ℕ) : Option (List ModelState) :=
  (SnowRoutine mState mPars inData i).bind fun s1 =>
  (SoilRoutine Pow s1 mPars inData i).bind fun s2 =>
  (ResponseRoutine s2 mPars i).bind fun s3 =>
  RoutingRoutine s3 mPars inData i maxbas

/-- The seeding of `mState[0]` in `RunModel` (lines 35-40).  The lower zone is
seeded with the quotient `PERC / K2`: at `K2 = 0` the quotient of `ℚ` is 0 where
`float64` yields an infinity or NaN, so a theorem that rests on the value of the
seed assumes `K2 ≠ 0`. -/
def RunModel.seed (mPars : Parameters) (inData : List InputData) : Option (List ModelState) :=
  let mState := List.replicate inData.length ModelState.zero
  match mState[0]? with
  | none => none
  | some s0 =>
      let mState := mState.set 0 { s0 with S_soil := mPars.FC * mPars.LP }
      match mState[0]? with
      | none => none
      | some s0 => some (mState.set 0 { s0 with S_gw_slz := mPars.PERC / mPars.K2 })

/-- The loop `for i := 1; i < len(inData); i++` of `RunModel`, over the indices
`1, ..., len(inData) - 1` in order. -/
def RunModel.loop (Pow : ℚ → ℚ → ℚ) (mPars : Parameters) (inData : List InputData)
    (maxbas : List ℚ) : List ℕ → List ModelState → Option (List ModelState)
  | [], mState => some mState
  | i :: is, mState =>
      (RunModel.step Pow mPars inData maxbas mState i).bind fun s =>
        RunModel.loop Pow mPars inData maxbas is s

/-- The function `RunModel`: `none` is a run-time panic, `some (mState, err)` is the
pair the function returns. -/
def RunModel (Pow : ℚ → ℚ → ℚ) (mPars : Parameters) (inData : List InputData) :
    Option (List ModelState × Option GoError) :=
  (RunModel.seed mPars inData).bind fun mState =>
  (RoutingMaxbasWeights mPars).bind fun maxbas =>
  (RunModel.loop Pow mPars inData maxbas (List.range' 1 (inData.length - 1)) mState).bind
    fun mState => some (mState, none)

/-! ## Goodness of fit (`hbv_fit_measures.go`, lines 44-70) -/

/-- The function `PowArray`: `arr_pow` is made with `len(arr)` zero entries, and the
loop appends `math.Pow(value, y)` to it for every `value` of `arr`. -/
def PowArray (Pow : ℚ → ℚ → ℚ) (arr : List ℚ) (y : ℚ) : List ℚ :=
  let arr_pow := List.replicate arr.length (0 : ℚ)
  arr.foldl (fun acc value => acc ++ [Pow value y]) arr_pow

/-- Library function `stat.Mean` of gonum with `nil` weights, which is outside the
repository: the sum of the entries over their number. -/
def statMean (x : List ℚ) : ℚ :=
  x.sum / (x.length : ℚ)

/-- Library function `floats.AddConst` of gonum, which is outside the repository:
it adds `c` to every entry of `dst` in place; the result is the new content of the
backing array of `dst`. -/
def floatsAddConst (c : ℚ) (dst : List ℚ) : List ℚ :=
  dst.map fun v => v + c

/-- Library function `floats.SubTo` of gonum, which is outside the repository:
`dst[i] = s[i] - t[i]`; it panics when the lengths differ. -/
def floatsSubTo (dst s t : List ℚ) : Option (List ℚ) :=
  if s.length ≠ t.length ∨ dst.length ≠ s.length then none
  else some (List.zipWith (fun a b => a - b) s t)

/-- Library function `floats.Sum` of gonum, which is outside the repository. -/
def floatsSum (x : List ℚ) : ℚ :=
  x.foldl (fun acc v => acc + v) 0

/-- The function `NashSutcliffeEfficiency`.  The assignment `obs_sub_mean := obs`
copies the slice header only, so `floats.AddConst(-obs_mean, obs_sub_mean)` writes
into the backing array of `obs`: from there on `obs` and `obs_sub_mean` both hold
the centred values, and `floats.SubTo` reads them. -/
def NashSutcliffeEfficiency (Pow : ℚ → ℚ → ℚ) (sim obs : List ℚ) : Option ℚ :=
  let obs_mean := statMean obs
  let obs_sub_mean := floatsAddConst (-obs_mean) obs
  let obs := obs_sub_mean
  match floatsSubTo (List.replicate obs.length 0) obs sim with
  | none => none
  | some obs_sub_sim =>
      some (1 - floatsSum (PowArray Pow obs_sub_sim 2) / floatsSum (PowArray Pow obs_sub_mean 2))

/-! ## Concrete inputs -/

/-- The parameter set of the golden scenario of the specification, with the routing
length `MAXBAS` left open. -/
def exampleParameters (maxbas : ℚ) : Parameters :=
  { TT := 0, CFMAX := 3, SFCF := 1, CFR := 1 / 20, CWH := 1 / 10, FC := 200, LP := 7 / 10,
    BETA := 2, PERC := 1, UZL := 20, K0 := 3 / 10, K1 := 1 / 10, K2 := 1 / 100,
    MAXBAS := maxbas, PCALT := 0, TCALT := 0 }

/-- The value of `math.Pow` at an integral exponent, where it is rational:
`x` to the power `⌊y⌋`.  It stands for `Pow` in concrete runs, all of which have an
integral `BETA`. -/
def powIntegral (x y : ℚ) : ℚ := x ^ ⌊y⌋

/-- An input record with the given precipitation, temperature and potential
evapotranspiration. -/
def exampleInput (precipitation temperature potentialET : ℚ) : InputData :=
  { Date := "", Precipitation := precipitation, Temperature := temperature, Discharge := 0,
    PotentialET := potentialET }

/-- The three-record series of the golden scenario: precipitation 0, 10, 0,
temperature -5, 5, 5, potential evapotranspiration 0, 2, 2. -/
def exampleSeries : List InputData :=
  [exampleInput 0 (-5) 0, exampleInput 10 5 2, exampleInput 0 5 2]

/-- A three-record series without precipitation. -/
def drySeries : List InputData :=
  [exampleInput 0 (-5) 0, exampleInput 0 5 2, exampleInput 0 (-5) 2]

/-- The golden parameter set with fast recession in the upper zone:
`K0 = K1 = 9/10`, `UZL = 0` and `PERC = 0`; each coefficient lies in `[0, 1)`. -/
def fastParameters : Parameters :=
  { exampleParameters 2 with K0 := 9 / 10, K1 := 9 / 10, UZL := 0, PERC := 0 }

/-- A record that holds the two groundwater storages and is zero elsewhere. -/
def groundwaterState (suz slz : ℚ) : ModelState :=
  { ModelState.zero with S_gw_suz := suz, S_gw_slz := slz }

/-- A record that holds a groundwater discharge and a simulated runoff and is
zero elsewhere. -/
def dischargeState (q_gw q_sim : ℚ) : ModelState :=
  { ModelState.zero with Q_gw := q_gw, Q_sim := q_sim }

/-- A record that holds the two snow storages and is zero elsewhere. -/
def snowState (solid liquid : ℚ) : ModelState :=
  { ModelState.zero with Snow_solid := solid, Snow_liquid := liquid }

/-- A record that holds a soil storage and is zero elsewhere. -/
def soilState (s_soil : ℚ) : ModelState :=
  { ModelState.zero with S_soil := s_soil }

/-- A record that holds an infiltration input and is zero elsewhere. -/
def infiltrationState (liquid_in : ℚ) : ModelState :=
  { ModelState.zero with Liquid_in := liquid_in }

/-- A two-record series without precipitation whose second record has a potential
evapotranspiration of 1000 mm. -/
def thirstySeries : List InputData :=
  [exampleInput 0 5 0, exampleInput 0 5 1000]

/-- The golden parameter set with a shallow soil: FC = 1/2 and LP = 1/2. -/
def shallowParameters : Parameters :=
  { exampleParameters 2 with FC := 1 / 2, LP := 1 / 2 }

/-- A three-record series with 1 mm of rain at 5 degrees at steps 1 and 2 and no
potential evapotranspiration. -/
def showerSeries : List InputData :=
  [exampleInput 0 5 0, exampleInput 1 5 0, exampleInput 1 5 0]

/-! ## The kernel generator -/

theorem toNat_ten : (10 : ℤ).toNat = 10 := rfl

theorem ceil_two : ⌈(2 : ℚ)⌉ = 2 := by
  rw [Int.ceil_eq_iff]; norm_num

theorem ceil_thirtyfour_twentyninths : ⌈(34 / 29 : ℚ)⌉ = 2 := by
  rw [Int.ceil_eq_iff]; norm_num

theorem ceil_nine_quarters : ⌈(9 / 4 : ℚ)⌉ = 3 := by
  rw [Int.ceil_eq_iff]; norm_num

theorem foldl_add_eq_sum (l : List ℚ) : l.foldl (fun acc v => acc + v) 0 = l.sum := by
  rw [List.sum_eq_foldl]

theorem sum_map_mul_const (l : List ℚ) (c : ℚ) : (l.map fun v => v * c).sum = l.sum * c := by
  induction l with
  | nil => simp
  | cons a t ih => simp [ih, add_mul]

/-- Whenever the length is not negative, `RoutingMaxbasWeights` returns the bins
scaled by the inverse of their total. -/
theorem RoutingMaxbasWeights_eq (mPars : Parameters) (h : 0 ≤ ⌈mPars.MAXBAS⌉) :
    RoutingMaxbasWeights mPars =
      some ((maxbasBins mPars ⌈mPars.MAXBAS⌉.toNat).map fun v =>
        v * (1 / (maxbasBins mPars ⌈mPars.MAXBAS⌉.toNat).sum)) := by
  simp only [RoutingMaxbasWeights, foldl_add_eq_sum]
  rw [if_neg (not_lt.mpr h)]

theorem RoutingMaxbasWeights_eq_none (mPars : Parameters) (h : ⌈mPars.MAXBAS⌉ < 0) :
    RoutingMaxbasWeights mPars = none := by
  simp only [RoutingMaxbasWeights]
  rw [if_pos h]

theorem RoutingMaxbasWeights_isSome (mPars : Parameters) (h : 0 ≤ ⌈mPars.MAXBAS⌉) :
    ∃ w, RoutingMaxbasWeights mPars = some w :=
  ⟨_, RoutingMaxbasWeights_eq mPars h⟩

theorem maxbasBins_two : maxbasBins (exampleParameters 2) 2 = [1 / 2, 1 / 2] := by
  simp only [maxbasBins, floatsSpan, routingMaxbas, integrateTrapezoidal, exampleParameters]
  norm_num [List.range, List.range.loop, trapezoidalLoop, abs_eq_max_neg, max_def, toNat_ten]

theorem maxbasBins_thirtyfour_twentyninths :
    maxbasBins (exampleParameters (34 / 29)) 2 = [551 / 578, -551 / 578] := by
  simp only [maxbasBins, floatsSpan, routingMaxbas, integrateTrapezoidal, exampleParameters]
  norm_num [List.range, List.range.loop, trapezoidalLoop, abs_eq_max_neg, max_def, toNat_ten]

theorem maxbasBins_nine_quarters :
    maxbasBins (exampleParameters (9 / 4)) 3 = [32 / 81, 1172 / 2025, -16 / 81] := by
  simp only [maxbasBins, floatsSpan, routingMaxbas, integrateTrapezoidal, exampleParameters]
  norm_num [List.range, List.range.loop, trapezoidalLoop, abs_eq_max_neg, max_def, toNat_ten]

/-- Whenever the total of the trapezoid-integrated bins is not zero,
`RoutingMaxbasWeights` returns a vector whose entries sum to exactly 1. -/
theorem RoutingMaxbasWeights_sum_of_total (mPars : Parameters) (hpos : 0 < mPars.MAXBAS)
    (htotal : (maxbasBins mPars ⌈mPars.MAXBAS⌉.toNat).sum ≠ 0) :
    ∃ w, RoutingMaxbasWeights mPars = some w ∧ w.sum = 1 := by
  have hc : 0 ≤ ⌈mPars.MAXBAS⌉ := Int.ceil_nonneg hpos.le
  refine ⟨_, RoutingMaxbasWeights_eq mPars hc, ?_⟩
  rw [sum_map_mul_const, mul_one_div, div_self htotal]

/-! ## The total of the bins -/

/-- A list of naturals read as a list of rationals, entry by entry. -/
theorem natList_cast (l : List ℕ) :
    (l >>= fun a => (pure (a : ℚ) : List ℚ)) = l.map (fun a : ℕ => (a : ℚ)) := by
  induction l with
  | nil => rfl
  | cons a t ih =>
    rw [List.map_cons, ← ih]
    rfl

/-- The list that `floats.Span` returns, over the natural index. -/
theorem floatsSpan_eq (n : ℕ) (l u : ℚ) :
    floatsSpan n l u = (List.range n).map fun k : ℕ => l + (u - l) / ((n : ℚ) - 1) * (k : ℚ) := by
  unfold floatsSpan
  show List.map _ (List.range n >>= fun a => (pure (a : ℚ) : List ℚ)) = _
  rw [natList_cast, List.map_map]
  rfl

/-- The loop of `integrate.Trapezoidal` over `n + 1` samples adds up the `n`
trapezoids. -/
theorem trapezoidalLoop_map (x f : ℕ → ℚ) : ∀ (n s : ℕ) (acc : ℚ),
    trapezoidalLoop acc ((List.range' s (n + 1)).map x) ((List.range' s (n + 1)).map f) =
      acc + ∑ k ∈ Finset.range n,
        (1 / 2) * (x (s + k + 1) - x (s + k)) * (f (s + k + 1) + f (s + k)) := by
  intro n
  induction n with
  | zero =>
    intro s acc
    simp [List.range', trapezoidalLoop]
  | succ n ih =>
    intro s acc
    have h := ih (s + 1) (acc + (1 / 2) * (x (s + 1) - x s) * (f (s + 1) + f s))
    rw [Finset.sum_range_succ', ← add_assoc]
    have e : ∀ g : ℕ → ℚ, (List.range' s (n + 1 + 1)).map g =
        g s :: (List.range' (s + 1) (n + 1)).map g := fun g => rfl
    have e2 : ∀ g : ℕ → ℚ, (List.range' (s + 1) (n + 1)).map g =
        g (s + 1) :: (List.range' (s + 1 + 1) n).map g := fun g => rfl
    rw [e x, e f]
    conv_lhs => rw [e2 x, e2 f]
    rw [trapezoidalLoop, ← e2 x, ← e2 f, h]
    simp only [add_zero]
    have : ∀ k, s + 1 + k = s + (k + 1) := fun k => by ring
    simp only [this]
    ring

/-- The integrand of `routingMaxbas` at `x`, in tenths: with `D = 5 * MAXBAS` it
is `2 / (5 * MAXBAS ^ 2) * (D - |10 * x - D|)`. -/
theorem routingMaxbas_sample (M x : ℚ) (hM : M ≠ 0) :
    2 / M - |x - M / 2| * (4 / M ^ 2) = 2 / (5 * M ^ 2) * (5 * M - |10 * x - 5 * M|) := by
  have h : |10 * x - 5 * M| = 10 * |x - M / 2| := by
    rw [show 10 * x - 5 * M = 10 * (x - M / 2) by ring, abs_mul]
    norm_num
  rw [h]
  field_simp
  ring

theorem samples_count : ⌊(1 : ℚ) / (1 / 10)⌋.toNat + 1 = 10 + 1 := by
  have h : (1 : ℚ) / (1 / 10) = ((10 : ℤ) : ℚ) := by norm_num
  rw [h, Int.floor_intCast]
  rfl

/-- Bin `i` of `RoutingMaxbasWeights`: the ten trapezoids over `[i, i + 1]`. -/
theorem maxbasBin_eq (M : ℚ) (hM : M ≠ 0) (i : ℕ) :
    integrateTrapezoidal (floatsSpan (10 + 1) i (i + 1))
        (routingMaxbas (floatsSpan (10 + 1) i (i + 1)) M) =
      1 / (50 * M ^ 2) * ∑ k ∈ Finset.range 10,
        ((5 * M - |((10 * i + k + 1 : ℕ) : ℚ) - 5 * M|) +
          (5 * M - |((10 * i + k : ℕ) : ℚ) - 5 * M|)) := by
  have hspan : floatsSpan (10 + 1) i (i + 1) =
      (List.range' 0 (10 + 1)).map (fun k : ℕ => (i : ℚ) + (k : ℚ) / 10) := by
    rw [floatsSpan_eq, List.range_eq_range']
    apply List.map_congr_left
    intro k _
    push_cast
    ring
  rw [hspan]
  unfold routingMaxbas integrateTrapezoidal
  rw [List.map_map, trapezoidalLoop_map, Finset.mul_sum, zero_add]
  apply Finset.sum_congr rfl
  intro k _
  simp only [Function.comp]
  rw [routingMaxbas_sample _ _ hM, routingMaxbas_sample _ _ hM]
  have e1 : 10 * ((i : ℚ) + ((0 + k + 1 : ℕ) : ℚ) / 10) = ((10 * i + k + 1 : ℕ) : ℚ) := by
    push_cast; ring
  have e2 : 10 * ((i : ℚ) + ((0 + k : ℕ) : ℚ) / 10) = ((10 * i + k : ℕ) : ℚ) := by
    push_cast; ring
  rw [e1, e2]
  push_cast
  field_simp
  ring

/-- The bins of `RoutingMaxbasWeights` as a list over the bin index. -/
theorem maxbasBins_map (mPars : Parameters) (len : ℕ) :
    maxbasBins mPars len = (List.range len).map fun i : ℕ =>
      integrateTrapezoidal (floatsSpan (10 + 1) i (i + 1))
        (routingMaxbas (floatsSpan (10 + 1) i (i + 1)) mPars.MAXBAS) := by
  unfold maxbasBins
  show List.map _ (List.range len >>= fun a => (pure (a : ℚ) : List ℚ)) = _
  rw [natList_cast, List.map_map, samples_count]
  rfl

/-- The total of the first `n` bins is the composite trapezoidal sum over the
`10 * n` intervals of width 1/10. -/
theorem maxbasBins_sum (mPars : Parameters) (hM : mPars.MAXBAS ≠ 0) (n : ℕ) :
    (maxbasBins mPars n).sum =
      1 / (50 * mPars.MAXBAS ^ 2) * ∑ j ∈ Finset.range (10 * n),
        ((5 * mPars.MAXBAS - |((j + 1 : ℕ) : ℚ) - 5 * mPars.MAXBAS|) +
          (5 * mPars.MAXBAS - |((j : ℕ) : ℚ) - 5 * mPars.MAXBAS|)) := by
  rw [maxbasBins_map]
  induction n with
  | zero => simp
  | succ n ih =>
    rw [List.range_succ, List.map_append, List.sum_append, ih, List.map_singleton,
      List.sum_singleton, maxbasBin_eq _ hM, show 10 * (n + 1) = 10 * n + 10 by ring,
      Finset.sum_range_add, mul_add]

/-- The composite trapezoidal sum of the triangle `D - |j - D|` over the first `N`
unit intervals, once `N` lies past the peak: `p` is the last grid point at or
before `D`. -/
theorem triangle_sum (D : ℚ) (p : ℕ) (hp : (p : ℚ) ≤ D) (hp1 : D ≤ (p : ℚ) + 1) :
    ∀ N : ℕ, (N ≤ p → ∑ j ∈ Finset.range N,
        ((D - |((j + 1 : ℕ) : ℚ) - D|) + (D - |((j : ℕ) : ℚ) - D|)) = (N : ℚ) ^ 2) ∧
      (p + 1 ≤ N → ∑ j ∈ Finset.range N,
        ((D - |((j + 1 : ℕ) : ℚ) - D|) + (D - |((j : ℕ) : ℚ) - D|)) =
          2 * p * (p + 1) + 2 * D * (2 * ((N : ℚ) - p) - 1) - (N : ℚ) ^ 2) := by
  have hlow : ∀ j : ℕ, j ≤ p → D - |((j : ℕ) : ℚ) - D| = j := by
    intro j hj
    have : (j : ℚ) ≤ p := by exact_mod_cast hj
    rw [abs_of_nonpos (by linarith)]
    ring
  have hhigh : ∀ j : ℕ, p + 1 ≤ j → D - |((j : ℕ) : ℚ) - D| = 2 * D - j := by
    intro j hj
    have : (p : ℚ) + 1 ≤ j := by exact_mod_cast hj
    rw [abs_of_nonneg (by linarith)]
    ring
  intro N
  induction N with
  | zero =>
    refine ⟨fun _ => by simp, fun h => ?_⟩
    omega
  | succ N ih =>
    constructor
    · intro h
      rw [Finset.sum_range_succ, ih.1 (by omega), hlow (N + 1) h, hlow N (by omega)]
      push_cast
      ring
    · intro h
      rw [Finset.sum_range_succ, hhigh (N + 1) h]
      rcases Nat.eq_or_lt_of_le h with heq | hlt
      · have hN : N = p := by omega
        rw [ih.1 (by omega), hlow N (by omega)]
        subst hN
        push_cast
        ring
      · rw [ih.2 (by omega), hhigh N (by omega)]
        push_cast
        ring

/-- For a positive MAXBAS that is a binary fraction (its denominator in lowest
terms is a power of two, as with every `float64`), the bins of
`RoutingMaxbasWeights` do not add up to zero. -/
theorem maxbasBins_sum_ne_zero (mPars : Parameters) (hpos : 0 < mPars.MAXBAS)
    (hbin : ∃ e : ℕ, mPars.MAXBAS.den = 2 ^ e) :
    (maxbasBins mPars ⌈mPars.MAXBAS⌉.toNat).sum ≠ 0 := by
  obtain ⟨e, he⟩ := hbin
  have hM : mPars.MAXBAS ≠ 0 := hpos.ne.symm
  intro hzero
  rw [maxbasBins_sum mPars hM] at hzero
  have hc : 0 < ⌈mPars.MAXBAS⌉ := Int.ceil_pos.mpr hpos
  have hf : 0 ≤ ⌊5 * mPars.MAXBAS⌋ := Int.floor_nonneg.mpr (by linarith)
  obtain ⟨n, hn⟩ := Int.eq_ofNat_of_zero_le hc.le
  obtain ⟨p, hp⟩ := Int.eq_ofNat_of_zero_le hf
  have hn1 : 1 ≤ n := by omega
  have hnM : mPars.MAXBAS ≤ n := by
    have := Int.le_ceil mPars.MAXBAS
    rw [hn] at this
    exact_mod_cast this
  have hpD : (p : ℚ) ≤ 5 * mPars.MAXBAS := by
    have := Int.floor_le (5 * mPars.MAXBAS)
    rw [hp] at this
    exact_mod_cast this
  have hpD1 : 5 * mPars.MAXBAS ≤ (p : ℚ) + 1 := by
    have := (Int.lt_floor_add_one (5 * mPars.MAXBAS)).le
    rw [hp] at this
    exact_mod_cast this
  have hpn : p + 1 ≤ 10 * n := by
    have h1 : (p : ℚ) ≤ 5 * n := by linarith
    have h2 : p ≤ 5 * n := by exact_mod_cast h1
    omega
  have htn : ⌈mPars.MAXBAS⌉.toNat = n := by rw [hn]; rfl
  rw [htn, (triangle_sum (5 * mPars.MAXBAS) p hpD hpD1 (10 * n)).2 hpn] at hzero
  have hfac : 1 / (50 * mPars.MAXBAS ^ 2) ≠ 0 := by positivity
  have hsum := (mul_eq_zero.mp hzero).resolve_left hfac
  have hden : (mPars.MAXBAS.den : ℚ) ≠ 0 := by exact_mod_cast mPars.MAXBAS.den_nz
  have hnum : (mPars.MAXBAS.num : ℚ) = mPars.MAXBAS * mPars.MAXBAS.den :=
    (Rat.mul_den_eq_num mPars.MAXBAS).symm
  have hq : (mPars.MAXBAS.den : ℚ) * ((p : ℚ) * (p + 1) - 50 * (n : ℚ) ^ 2) +
      5 * (mPars.MAXBAS.num : ℚ) * (2 * (10 * (n : ℚ) - p) - 1) = 0 := by
    rw [hnum]
    push_cast at hsum
    linear_combination (mPars.MAXBAS.den : ℚ) / 2 * hsum
  have hz : (mPars.MAXBAS.den : ℤ) * ((p : ℤ) * (p + 1) - 50 * (n : ℤ) ^ 2) +
      5 * mPars.MAXBAS.num * (2 * (10 * (n : ℤ) - p) - 1) = 0 := by
    exact_mod_cast hq
  rcases Nat.eq_zero_or_pos e with h0 | hepos
  · have hd1 : mPars.MAXBAS.den = 1 := by rw [he, h0, pow_zero]
    have hMint : mPars.MAXBAS = (mPars.MAXBAS.num : ℚ) := by
      rw [hnum, hd1]; simp
    have hnz : (n : ℤ) = mPars.MAXBAS.num := by
      have h := hn
      rw [hMint, Int.ceil_intCast] at h
      simpa using h.symm
    have hpz : (p : ℤ) = 5 * mPars.MAXBAS.num := by
      have h := hp
      have h5 : (5 : ℚ) * mPars.MAXBAS = ((5 * mPars.MAXBAS.num : ℤ) : ℚ) := by
        push_cast
        rw [← hMint]
      rw [h5, Int.floor_intCast] at h
      simpa using h.symm
    rw [hd1, hnz, hpz] at hz
    have h25 : 25 * (mPars.MAXBAS.num * mPars.MAXBAS.num) = 0 := by
      push_cast at hz
      linear_combination hz
    have hsq : mPars.MAXBAS.num * mPars.MAXBAS.num = 0 := by omega
    have hnum0 : mPars.MAXBAS.num = 0 := mul_self_eq_zero.mp hsq
    have : 0 < mPars.MAXBAS.num := Rat.num_pos.mpr hpos
    omega
  · have hdeven : Even (mPars.MAXBAS.den : ℤ) := by
      rw [he]
      push_cast
      exact (Int.even_pow.mpr ⟨even_two, hepos.ne.symm⟩)
    have hnumodd : Odd mPars.MAXBAS.num := by
      have hcop := mPars.MAXBAS.reduced
      rw [he] at hcop
      have h2 : Nat.Coprime mPars.MAXBAS.num.natAbs 2 :=
        Nat.Coprime.coprime_dvd_right (dvd_pow_self 2 hepos.ne.symm) hcop
      have : Odd mPars.MAXBAS.num.natAbs := Nat.Coprime.odd_of_right h2
      exact Int.natAbs_odd.mp this
    have hodd : Odd (5 * mPars.MAXBAS.num * (2 * (10 * (n : ℤ) - p) - 1)) := by
      refine Odd.mul (Odd.mul (by decide) hnumodd) ?_
      exact ⟨10 * (n : ℤ) - p - 1, by ring⟩
    have hsumodd := Even.add_odd (hdeven.mul_right ((p : ℤ) * (p + 1) - 50 * (n : ℤ) ^ 2)) hodd
    rw [hz] at hsumodd
    exact absurd hsumodd (by decide)

/-- C1: for every MAXBAS > 0 that is a binary fraction (its denominator in lowest
terms is a power of two, which holds of every `float64`), the total of the
trapezoid-integrated bins is not zero, and `RoutingMaxbasWeights` returns a vector
whose entries sum to exactly 1, hence to 1 within 1e-9. -/
theorem RoutingMaxbasWeights_sum_eq_one (mPars : Parameters) (hpos : 0 < mPars.MAXBAS)
    (hbin : ∃ e : ℕ, mPars.MAXBAS.den = 2 ^ e) :
    (maxbasBins mPars ⌈mPars.MAXBAS⌉.toNat).sum ≠ 0 ∧
      ∃ w, RoutingMaxbasWeights mPars = some w ∧ w.sum = 1 ∧ |w.sum - 1| ≤ 1 / 10 ^ 9 := by
  have htotal := maxbasBins_sum_ne_zero mPars hpos hbin
  obtain ⟨w, hw, hsum⟩ := RoutingMaxbasWeights_sum_of_total mPars hpos htotal
  refine ⟨htotal, w, hw, hsum, ?_⟩
  rw [hsum]
  norm_num

/-- C1, witness: MAXBAS = 9/4 has the denominator 2 ^ 2; the bins 32/81, 1172/2025
and -16/81 have a non-zero total and the weights sum to 1. -/
theorem RoutingMaxbasWeights_sum_eq_one_witness :
    0 < (exampleParameters (9 / 4)).MAXBAS ∧
      (exampleParameters (9 / 4)).MAXBAS.den = 2 ^ 2 ∧
      (maxbasBins (exampleParameters (9 / 4))
        ⌈(exampleParameters (9 / 4)).MAXBAS⌉.toNat).sum ≠ 0 ∧
      ∃ w, RoutingMaxbasWeights (exampleParameters (9 / 4)) = some w ∧ w.sum = 1 ∧
        |w.sum - 1| ≤ 1 / 10 ^ 9 :=
  have hden : (exampleParameters (9 / 4)).MAXBAS.den = 2 ^ 2 := by
    show ((9 : ℚ) / 4).den = 2 ^ 2
    norm_num
  ⟨by norm_num [exampleParameters], hden,
    RoutingMaxbasWeights_sum_eq_one (exampleParameters (9 / 4))
      (by norm_num [exampleParameters]) ⟨2, hden⟩⟩

/-- Outside the binary fractions the total of the bins can vanish in exact
arithmetic: at MAXBAS = 34/29, which no `float64` equals, the two bins are 551/578
and -551/578 and the normalising factor is `1 / 0`. -/
theorem RoutingMaxbasWeights_zero_total :
    0 < (exampleParameters (34 / 29)).MAXBAS ∧
      (maxbasBins (exampleParameters (34 / 29)) 2).sum = 0 ∧
      RoutingMaxbasWeights (exampleParameters (34 / 29)) = some [0, 0] := by
  have hc : ⌈(exampleParameters (34 / 29)).MAXBAS⌉ = 2 := ceil_thirtyfour_twentyninths
  have h2 : (2 : ℤ).toNat = 2 := rfl
  refine ⟨by norm_num [exampleParameters], ?_, ?_⟩
  · rw [maxbasBins_thirtyfour_twentyninths]; norm_num
  · rw [RoutingMaxbasWeights_eq _ (by rw [hc]; norm_num), hc, h2,
      maxbasBins_thirtyfour_twentyninths]
    norm_num

/-- C9, evaluation at the failing input: at MAXBAS = 9/4 the third bin, which runs
from 2 to 3 past the base of the triangle, integrates to -16/81, and the returned
weights are 200/393, 293/393 and -100/393: the last entry is negative. -/
theorem RoutingMaxbasWeights_nine_quarters :
    0 < (exampleParameters (9 / 4)).MAXBAS ∧
      RoutingMaxbasWeights (exampleParameters (9 / 4)) =
        some [200 / 393, 293 / 393, -100 / 393] ∧
      (-100 / 393 : ℚ) < 0 := by
  have hc : ⌈(exampleParameters (9 / 4)).MAXBAS⌉ = 3 := ceil_nine_quarters
  have h3 : (3 : ℤ).toNat = 3 := rfl
  refine ⟨by norm_num [exampleParameters], ?_, by norm_num⟩
  rw [RoutingMaxbasWeights_eq _ (by rw [hc]; norm_num), hc, h3, maxbasBins_nine_quarters]
  norm_num

/-! ## The routines on a slice -/

theorem SnowRoutine_eq {mState : List ModelState} {mPars : Parameters}
    {inData : List InputData} {i : ℕ} {prev cur : ModelState} {inp : InputData}
    (hi : 1 ≤ i) (hprev : mState[i - 1]? = some prev) (hcur : mState[i]? = some cur)
    (hinp : inData[i]? = some inp) :
    SnowRoutine mState mPars inData i = some (mState.set i (snowStep mPars prev cur inp)) := by
  have h0 : i ≠ 0 := by omega
  simp [SnowRoutine, h0, hprev, hcur, hinp]

theorem ResponseRoutine_eq {mState : List ModelState} {mPars : Parameters}
    {i : ℕ} {prev cur : ModelState}
    (hi : 1 ≤ i) (hprev : mState[i - 1]? = some prev) (hcur : mState[i]? = some cur) :
    ResponseRoutine mState mPars i = some (mState.set i (responseStep mPars prev cur)) := by
  have h0 : i ≠ 0 := by omega
  simp [ResponseRoutine, h0, hprev, hcur]

theorem SoilRoutine_eq {Pow : ℚ → ℚ → ℚ} {mState : List ModelState} {mPars : Parameters}
    {inData : List InputData} {i : ℕ} {prev cur s : ModelState}
    (hi : 1 ≤ i) (hprev : mState[i - 1]? = some prev) (hcur : mState[i]? = some cur)
    (hs : soilStep Pow mPars prev cur inData[i]? = some s) :
    SoilRoutine Pow mState mPars inData i = some (mState.set i s) := by
  have h0 : i ≠ 0 := by omega
  simp [SoilRoutine, h0, hprev, hcur, hs]

/-- The record that `soilStep` writes when `inData[i]` exists. -/
theorem soilStep_some (Pow : ℚ → ℚ → ℚ) (mPars : Parameters) (prev cur : ModelState)
    (inp : InputData) :
    soilStep Pow mPars prev cur (some inp) =
      some { cur with
        Recharge_sm := (soilRecharge Pow mPars prev.S_soil cur.Liquid_in).2.1
        Recharge_gwuz := (soilRecharge Pow mPars prev.S_soil cur.Liquid_in).2.2
        AET :=
          if cur.Snow_cover = 1 then 0
          else inp.PotentialET * min 1
            ((((soilRecharge Pow mPars prev.S_soil cur.Liquid_in).1 - prev.S_soil) / 2
              + prev.S_soil) * (1 / (mPars.LP * mPars.FC)))
        S_soil := prev.S_soil -
          (if cur.Snow_cover = 1 then 0
          else inp.PotentialET * min 1
            ((((soilRecharge Pow mPars prev.S_soil cur.Liquid_in).1 - prev.S_soil) / 2
              + prev.S_soil) * (1 / (mPars.LP * mPars.FC))))
          + (soilRecharge Pow mPars prev.S_soil cur.Liquid_in).2.1 } := by
  unfold soilStep
  by_cases h : cur.Snow_cover = 1 <;> simp [h]

theorem routingLoop_spec (inData : List InputData) (i : ℕ) :
    ∀ (ws : List ℚ) (j : ℕ) (mState : List ModelState) (si : ModelState),
      mState.length = inData.length → mState[i]? = some si →
      ∃ st', routingLoop inData i ws j mState = some st' ∧ st'.length = mState.length ∧
        ∀ k, st'[k]? = (mState[k]?).map fun r =>
          if i + j ≤ k ∧ k < i + j + ws.length then
            { r with Q_sim := r.Q_sim + si.Q_gw * ws.getD (k - (i + j)) 0 }
          else r := by
  intro ws
  induction ws with
  | nil =>
    intro j mState si _ _
    refine ⟨mState, rfl, rfl, fun k => ?_⟩
    have hfalse : ¬ (i + j ≤ k ∧ k < i + j + ([] : List ℚ).length) := by
      simp only [List.length_nil]; omega
    simp only [if_neg hfalse]
    cases mState[k]? <;> rfl
  | cons w ws ih =>
    intro j mState si hlen hsi
    by_cases hge : i + j ≥ inData.length
    · refine ⟨mState, by simp [routingLoop, hge], rfl, fun k => ?_⟩
      by_cases hk : k < mState.length
      · have hfalse : ¬ (i + j ≤ k ∧ k < i + j + (w :: ws).length) := by omega
        simp only [if_neg hfalse]
        cases mState[k]? <;> rfl
      · rw [List.getElem?_eq_none (by omega)]; rfl
    · have hij : i + j < mState.length := by omega
      obtain ⟨sij, hsij⟩ : ∃ sij, mState[i + j]? = some sij :=
        ⟨_, List.getElem?_eq_getElem hij⟩
      obtain ⟨si', hsi', hq⟩ : ∃ si',
          (mState.set (i + j) { sij with Q_sim := sij.Q_sim + si.Q_gw * w })[i]? = some si' ∧
            si'.Q_gw = si.Q_gw := by
        by_cases hj : j = 0
        · subst hj
          simp only [Nat.add_zero] at hsij ⊢
          rw [hsi] at hsij
          cases hsij
          exact ⟨_, List.getElem?_set_self (by simpa using hij), rfl⟩
        · exact ⟨si, by rw [List.getElem?_set_ne (by omega)]; exact hsi, rfl⟩
      obtain ⟨st', hst', hlen', hspec⟩ := ih (j + 1) _ si' (by simpa using hlen) hsi'
      refine ⟨st', ?_, by simpa using hlen', fun k => ?_⟩
      · simp only [routingLoop, hsij, hsi]
        rw [if_neg hge]
        exact hst'
      · rw [hspec k, hq]
        by_cases hk : k = i + j
        · subst hk
          rw [List.getElem?_set_self hij, hsij]
          simp
        · rw [List.getElem?_set_ne (Ne.symm hk)]
          cases hk' : mState[k]? with
          | none => rfl
          | some r =>
            simp only [Option.map_some', List.length_cons]
            by_cases hc : i + (j + 1) ≤ k ∧ k < i + (j + 1) + ws.length
            · have hc' : i + j ≤ k ∧ k < i + j + (ws.length + 1) := by omega
              have hidx : k - (i + j) = (k - (i + (j + 1))) + 1 := by omega
              simp only [if_pos hc, if_pos hc', hidx, List.getD_cons_succ]
            · have hc' : ¬ (i + j ≤ k ∧ k < i + j + (ws.length + 1)) := by omega
              simp only [if_neg hc, if_neg hc']

/-! ## One pass of the driver loop -/

theorem RunModel.step_spec (Pow : ℚ → ℚ → ℚ) (mPars : Parameters) (inData : List InputData)
    (maxbas : List ℚ) (mState : List ModelState) (i : ℕ)
    (h1 : 1 ≤ i) (hi : i < mState.length) (hlen : mState.length = inData.length) :
    ∃ prev cur inp s2 st', mState[i - 1]? = some prev ∧ mState[i]? = some cur ∧
      inData[i]? = some inp ∧
      soilStep Pow mPars prev (snowStep mPars prev cur inp) (some inp) = some s2 ∧
      RunModel.step Pow mPars inData maxbas mState i = some st' ∧
      st'.length = mState.length ∧
      ∀ k, st'[k]? = ((mState.set i (responseStep mPars prev s2))[k]?).map fun r =>
        if i ≤ k ∧ k < i + maxbas.length then
          { r with Q_sim := r.Q_sim + (responseStep mPars prev s2).Q_gw * maxbas.getD (k - i) 0 }
        else r := by
  have hprev : mState[i - 1]? = some mState[i - 1] := List.getElem?_eq_getElem (by omega)
  have hcur : mState[i]? = some mState[i] := List.getElem?_eq_getElem hi
  have hinp : inData[i]? = some inData[i] := List.getElem?_eq_getElem (by omega)
  generalize mState[i - 1] = prev at hprev
  generalize mState[i] = cur at hcur
  generalize inData[i] = inp at hinp
  have hne : i ≠ i - 1 := by omega
  have hs2 := soilStep_some Pow mPars prev (snowStep mPars prev cur inp) inp
  generalize hs2def : ({ snowStep mPars prev cur inp with
      Recharge_sm := _, Recharge_gwuz := _, AET := _, S_soil := _ } : ModelState) = s2 at hs2
  have e1 : SnowRoutine mState mPars inData i =
      some (mState.set i (snowStep mPars prev cur inp)) := SnowRoutine_eq h1 hprev hcur hinp
  have hprev1 : (mState.set i (snowStep mPars prev cur inp))[i - 1]? = some prev := by
    rw [List.getElem?_set_ne hne]; exact hprev
  have hcur1 : (mState.set i (snowStep mPars prev cur inp))[i]? =
      some (snowStep mPars prev cur inp) := List.getElem?_set_self hi
  have e2 : SoilRoutine Pow (mState.set i (snowStep mPars prev cur inp)) mPars inData i =
      some ((mState.set i (snowStep mPars prev cur inp)).set i s2) :=
    SoilRoutine_eq h1 hprev1 hcur1 (by rw [hinp]; exact hs2)
  rw [List.set_set] at e2
  have hprev2 : (mState.set i s2)[i - 1]? = some prev := by
    rw [List.getElem?_set_ne hne]; exact hprev
  have hcur2 : (mState.set i s2)[i]? = some s2 := List.getElem?_set_self hi
  have e3 : ResponseRoutine (mState.set i s2) mPars i =
      some ((mState.set i s2).set i (responseStep mPars prev s2)) :=
    ResponseRoutine_eq h1 hprev2 hcur2
  rw [List.set_set] at e3
  have hcur3 : (mState.set i (responseStep mPars prev s2))[i]? =
      some (responseStep mPars prev s2) := List.getElem?_set_self hi
  obtain ⟨st', hst', hlen', hspec⟩ := routingLoop_spec inData i maxbas 0
    (mState.set i (responseStep mPars prev s2)) (responseStep mPars prev s2)
    (by simpa using hlen) hcur3
  refine ⟨prev, cur, inp, s2, st', hprev, hcur, hinp, hs2, ?_, by simpa using hlen', ?_⟩
  · simp only [RunModel.step, e1, e2, e3, Option.bind_some, Option.some_bind, RoutingRoutine]
    exact hst'
  · intro k
    rw [hspec k]
    simp only [Nat.add_zero]

/-- The loop of `RunModel` over indices within range runs to its end, keeps the
length and record 0, and keeps every property of records that each pass
establishes for record `i` from record `i - 1` and that does not depend on
`Q_sim`. -/
theorem RunModel.loop_invariant (Pow : ℚ → ℚ → ℚ) (mPars : Parameters)
    (inData : List InputData) (maxbas : List ℚ) (P : ModelState → Prop)
    (hQ : ∀ r q, P r → P { r with Q_sim := q })
    (hstep : ∀ prev cur inp s2, P prev → inp ∈ inData →
      soilStep Pow mPars prev (snowStep mPars prev cur inp) (some inp) = some s2 →
      P (responseStep mPars prev s2)) :
    ∀ (is : List ℕ) (mState : List ModelState),
      (∀ i ∈ is, 1 ≤ i ∧ i < mState.length) → mState.length = inData.length →
      (∀ r ∈ mState, P r) →
      ∃ st', RunModel.loop Pow mPars inData maxbas is mState = some st' ∧
        st'.length = mState.length ∧ (∀ r ∈ st', P r) ∧ st'[0]? = mState[0]? := by
  intro is
  induction is with
  | nil =>
    intro mState _ _ hP
    exact ⟨mState, rfl, rfl, hP, rfl⟩
  | cons i is ih =>
    intro mState hidx hlen hP
    obtain ⟨h1, hi⟩ := hidx i (List.mem_cons_self _ _)
    obtain ⟨prev, cur, inp, s2, st1, hprev, hcur, hinp, hs2, hst1, hlen1, hspec⟩ :=
      RunModel.step_spec Pow mPars inData maxbas mState i h1 hi hlen
    have hPprev : P prev := hP prev (List.mem_iff_getElem?.mpr ⟨_, hprev⟩)
    have hPs3 : P (responseStep mPars prev s2) :=
      hstep prev cur inp s2 hPprev (List.mem_iff_getElem?.mpr ⟨_, hinp⟩) hs2
    have hP1 : ∀ r ∈ st1, P r := by
      intro r hr
      obtain ⟨k, hk⟩ := List.mem_iff_getElem?.mp hr
      rw [hspec k] at hk
      have hbase : ∀ r0, (mState.set i (responseStep mPars prev s2))[k]? = some r0 → P r0 := by
        intro r0 hr0
        by_cases hki : i = k
        · subst hki
          rw [List.getElem?_set_self hi] at hr0
          cases hr0
          exact hPs3
        · rw [List.getElem?_set_ne hki] at hr0
          exact hP r0 (List.mem_iff_getElem?.mpr ⟨_, hr0⟩)
      cases hr0 : (mState.set i (responseStep mPars prev s2))[k]? with
      | none => rw [hr0] at hk; cases hk
      | some r0 =>
        rw [hr0] at hk
        simp only [Option.map_some', Option.some.injEq] at hk
        subst hk
        split_ifs
        · exact hQ _ _ (hbase r0 hr0)
        · exact hbase r0 hr0
    have h01 : st1[0]? = mState[0]? := by
      rw [hspec 0, List.getElem?_set_ne (by omega)]
      have hfalse : ¬ (i ≤ 0 ∧ 0 < i + maxbas.length) := by omega
      simp only [if_neg hfalse]
      cases mState[0]? <;> rfl
    obtain ⟨st', hst', hlen', hP', h0'⟩ := ih st1
      (fun j hj => by
        obtain ⟨a, b⟩ := hidx j (List.mem_cons_of_mem _ hj)
        exact ⟨a, by omega⟩)
      (by omega) hP1
    refine ⟨st', ?_, by omega, hP', by rw [h0', h01]⟩
    simp only [RunModel.loop, hst1, Option.some_bind]
    exact hst'

/-! ## The driver -/

/-- Record 0 as `RunModel` seeds it. -/
theorem RunModel.seed_eq (mPars : Parameters) (inData : List InputData) (hne : inData ≠ []) :
    RunModel.seed mPars inData =
      some ((List.replicate inData.length ModelState.zero).set 0
        { ModelState.zero with
          S_soil := mPars.FC * mPars.LP, S_gw_slz := mPars.PERC / mPars.K2 }) := by
  have hpos : 0 < inData.length := List.length_pos.mpr hne
  simp only [RunModel.seed]
  rw [List.getElem?_replicate_of_lt hpos]
  simp only
  rw [List.getElem?_set_self (by simpa using hpos)]
  simp only [List.set_set]

theorem RunModel.seed_nil (mPars : Parameters) : RunModel.seed mPars [] = none := by
  simp [RunModel.seed]

theorem RunModel_eq_none (Pow : ℚ → ℚ → ℚ) (mPars : Parameters) (inData : List InputData)
    (h : inData = [] ∨ ⌈mPars.MAXBAS⌉ < 0) : RunModel Pow mPars inData = none := by
  rcases h with h | h
  · subst h
    simp [RunModel, RunModel.seed_nil]
  · simp only [RunModel, RoutingMaxbasWeights_eq_none mPars h]
    cases RunModel.seed mPars inData <;> rfl

/-- On a non-empty input and with a length `⌈MAXBAS⌉` that is not negative,
`RunModel` returns a trajectory and the `nil` error.  The trajectory has the length
of the input, its record 0 is the seeded one, and every record has each property
`P` that holds of the zero record and of the seeded record, that a pass establishes
for record `i` from record `i - 1`, and that does not depend on `Q_sim`. -/
theorem RunModel_invariant (Pow : ℚ → ℚ → ℚ) (mPars : Parameters) (inData : List InputData)
    (P : ModelState → Prop)
    (hQ : ∀ r q, P r → P { r with Q_sim := q })
    (hstep : ∀ prev cur inp s2, P prev → inp ∈ inData →
      soilStep Pow mPars prev (snowStep mPars prev cur inp) (some inp) = some s2 →
      P (responseStep mPars prev s2))
    (hzero : P ModelState.zero)
    (hseed : P { ModelState.zero with
      S_soil := mPars.FC * mPars.LP, S_gw_slz := mPars.PERC / mPars.K2 })
    (hne : inData ≠ []) (hceil : 0 ≤ ⌈mPars.MAXBAS⌉) :
    ∃ st, RunModel Pow mPars inData = some (st, none) ∧ st.length = inData.length ∧
      (∀ r ∈ st, P r) ∧
      st[0]? = some { ModelState.zero with
        S_soil := mPars.FC * mPars.LP, S_gw_slz := mPars.PERC / mPars.K2 } := by
  have hpos : 0 < inData.length := List.length_pos.mpr hne
  obtain ⟨w, hw⟩ := RoutingMaxbasWeights_isSome mPars hceil
  obtain ⟨st, hst, hlen, hP, h0⟩ := RunModel.loop_invariant Pow mPars inData w P hQ hstep
    (List.range' 1 (inData.length - 1))
    ((List.replicate inData.length ModelState.zero).set 0
      { ModelState.zero with
        S_soil := mPars.FC * mPars.LP, S_gw_slz := mPars.PERC / mPars.K2 })
    (by
      intro i hi
      rw [List.mem_range'_1] at hi
      simp only [List.length_set, List.length_replicate]
      omega)
    (by simp)
    (by
      intro r hr
      rcases List.mem_or_eq_of_mem_set hr with h | h
      · rw [(List.mem_replicate.mp h).2]; exact hzero
      · rw [h]; exact hseed)
  refine ⟨st, ?_, by simpa using hlen, hP, ?_⟩
  · simp only [RunModel, RunModel.seed_eq mPars inData hne, hw, Option.some_bind, hst]
  · rw [h0, List.getElem?_set_self (by simpa using hpos)]

theorem RunModel_returns (Pow : ℚ → ℚ → ℚ) (mPars : Parameters) (inData : List InputData)
    (hne : inData ≠ []) (hceil : 0 ≤ ⌈mPars.MAXBAS⌉) :
    ∃ st, RunModel Pow mPars inData = some (st, none) ∧ st.length = inData.length :=
  let ⟨st, h, hlen, _, _⟩ := RunModel_invariant Pow mPars inData (fun _ => True)
    (fun _ _ _ => trivial) (fun _ _ _ _ _ _ _ => trivial) trivial trivial hne hceil
  ⟨st, h, hlen⟩

/-- Whatever `RunModel` returns is obtained on a non-empty input with a length
`⌈MAXBAS⌉` that is not negative. -/
theorem RunModel_some_cases {Pow : ℚ → ℚ → ℚ} {mPars : Parameters} {inData : List InputData}
    {res : List ModelState × Option GoError} (h : RunModel Pow mPars inData = some res) :
    inData ≠ [] ∧ 0 ≤ ⌈mPars.MAXBAS⌉ := by
  constructor
  · intro hnil
    rw [RunModel_eq_none Pow mPars inData (Or.inl hnil)] at h
    cases h
  · by_contra hneg
    rw [RunModel_eq_none Pow mPars inData (Or.inr (not_le.mp hneg))] at h
    cases h

/-! ## Snow -/

/-- The record written by `snowStep` in the freezing branch. -/
theorem snowStep_freezing (mPars : Parameters) (prev cur : ModelState) (inp : InputData)
    (hT : inp.Temperature ≤ mPars.TT) :
    snowStep mPars prev cur inp =
      { cur with
        Snow_cover := if prev.Snow_solid > 0 then 1 else 0
        Snowfall := inp.Precipitation * mPars.SFCF
        Rainfall := 0
        Snow_solid := prev.Snow_solid + inp.Precipitation * mPars.SFCF +
          min (mPars.CFMAX * mPars.CFR * (mPars.TT - inp.Temperature)) prev.Snow_liquid
        Snow_liquid := prev.Snow_liquid -
          min (mPars.CFMAX * mPars.CFR * (mPars.TT - inp.Temperature)) prev.Snow_liquid
        Snow_melt := 0
        Liquid_in := 0
        S_snow := prev.Snow_solid + inp.Precipitation * mPars.SFCF +
          min (mPars.CFMAX * mPars.CFR * (mPars.TT - inp.Temperature)) prev.Snow_liquid +
          (prev.Snow_liquid -
            min (mPars.CFMAX * mPars.CFR * (mPars.TT - inp.Temperature)) prev.Snow_liquid) } := by
  simp only [snowStep, if_pos hT]

/-- The solid and liquid storages and their total written by `snowStep` in the
melting branch, with `melt = min (max (CFMAX * (T - TT)) 0) Snow_solid[i-1]`. -/
theorem snowStep_melting (mPars : Parameters) (prev cur : ModelState) (inp : InputData)
    (hT : ¬ inp.Temperature ≤ mPars.TT) :
    (snowStep mPars prev cur inp).Snow_solid =
        max (prev.Snow_solid -
          min (max (mPars.CFMAX * (inp.Temperature - mPars.TT)) 0) prev.Snow_solid) 0 ∧
      (snowStep mPars prev cur inp).Snow_liquid =
        prev.Snow_liquid + inp.Precipitation +
            min (max (mPars.CFMAX * (inp.Temperature - mPars.TT)) 0) prev.Snow_solid -
          max (prev.Snow_liquid + inp.Precipitation +
              min (max (mPars.CFMAX * (inp.Temperature - mPars.TT)) 0) prev.Snow_solid -
            max (prev.Snow_solid -
              min (max (mPars.CFMAX * (inp.Temperature - mPars.TT)) 0) prev.Snow_solid) 0 *
              mPars.CWH) 0 ∧
      (snowStep mPars prev cur inp).S_snow =
        (snowStep mPars prev cur inp).Snow_solid + (snowStep mPars prev cur inp).Snow_liquid := by
  simp only [snowStep, if_neg hT, and_self]

/-- One pass of the snow routine keeps both snow storages non-negative. -/
theorem snowStep_nonneg (mPars : Parameters) (prev cur : ModelState) (inp : InputData)
    (hP : 0 ≤ inp.Precipitation) (hSFCF : 0 ≤ mPars.SFCF) (hCFMAX : 0 ≤ mPars.CFMAX)
    (hCFR : 0 ≤ mPars.CFR) (hCWH : 0 ≤ mPars.CWH)
    (hs : 0 ≤ prev.Snow_solid) (hl : 0 ≤ prev.Snow_liquid) :
    0 ≤ (snowStep mPars prev cur inp).Snow_solid ∧
      0 ≤ (snowStep mPars prev cur inp).Snow_liquid := by
  by_cases hT : inp.Temperature ≤ mPars.TT
  · rw [snowStep_freezing mPars prev cur inp hT]
    have hpot : 0 ≤ mPars.CFMAX * mPars.CFR * (mPars.TT - inp.Temperature) :=
      mul_nonneg (mul_nonneg hCFMAX hCFR) (sub_nonneg.mpr hT)
    have hmin : 0 ≤ min (mPars.CFMAX * mPars.CFR * (mPars.TT - inp.Temperature))
        prev.Snow_liquid := le_min hpot hl
    have hle : min (mPars.CFMAX * mPars.CFR * (mPars.TT - inp.Temperature))
        prev.Snow_liquid ≤ prev.Snow_liquid := min_le_right _ _
    have hsf : 0 ≤ inp.Precipitation * mPars.SFCF := mul_nonneg hP hSFCF
    constructor
    · show 0 ≤ prev.Snow_solid + inp.Precipitation * mPars.SFCF +
        min (mPars.CFMAX * mPars.CFR * (mPars.TT - inp.Temperature)) prev.Snow_liquid
      linarith
    · show 0 ≤ prev.Snow_liquid -
        min (mPars.CFMAX * mPars.CFR * (mPars.TT - inp.Temperature)) prev.Snow_liquid
      linarith
  · obtain ⟨h1, h2, _⟩ := snowStep_melting mPars prev cur inp hT
    rw [h1, h2]
    have hmelt : 0 ≤ min (max (mPars.CFMAX * (inp.Temperature - mPars.TT)) 0)
        prev.Snow_solid := le_min (le_max_right _ _) hs
    refine ⟨le_max_right _ _, ?_⟩
    have hcap : 0 ≤ max (prev.Snow_solid -
        min (max (mPars.CFMAX * (inp.Temperature - mPars.TT)) 0) prev.Snow_solid) 0 *
        mPars.CWH := mul_nonneg (le_max_right _ _) hCWH
    rcases max_cases (prev.Snow_liquid + inp.Precipitation +
        min (max (mPars.CFMAX * (inp.Temperature - mPars.TT)) 0) prev.Snow_solid -
        max (prev.Snow_solid -
          min (max (mPars.CFMAX * (inp.Temperature - mPars.TT)) 0) prev.Snow_solid) 0 *
          mPars.CWH) 0 with ⟨he, _⟩ | ⟨he, _⟩ <;> rw [he] <;> linarith

/-- With no precipitation, one pass of the snow routine keeps the solid storage
at or below zero and the liquid storage its opposite, so that the total is zero. -/
theorem snowStep_zero (mPars : Parameters) (prev cur : ModelState) (inp : InputData)
    (hP : inp.Precipitation = 0)
    (hs : prev.Snow_solid ≤ 0) (hl : prev.Snow_solid + prev.Snow_liquid = 0) :
    (snowStep mPars prev cur inp).Snow_solid ≤ 0 ∧
      (snowStep mPars prev cur inp).Snow_solid + (snowStep mPars prev cur inp).Snow_liquid = 0 ∧
      (snowStep mPars prev cur inp).S_snow = 0 := by
  by_cases hT : inp.Temperature ≤ mPars.TT
  · rw [snowStep_freezing mPars prev cur inp hT]
    have hle : min (mPars.CFMAX * mPars.CFR * (mPars.TT - inp.Temperature))
        prev.Snow_liquid ≤ prev.Snow_liquid := min_le_right _ _
    simp only [hP, zero_mul, add_zero]
    refine ⟨by linarith, by linarith, by linarith⟩
  · obtain ⟨h1, h2, h3⟩ := snowStep_melting mPars prev cur inp hT
    have hmelt : min (max (mPars.CFMAX * (inp.Temperature - mPars.TT)) 0) prev.Snow_solid =
        prev.Snow_solid := min_eq_right (le_trans hs (le_max_right _ _))
    rw [hmelt] at h1 h2
    simp only [sub_self, max_self, zero_mul, sub_zero, hP, add_zero] at h1 h2
    have hliq : prev.Snow_liquid + prev.Snow_solid = 0 := by linarith
    rw [hliq] at h2
    simp only [max_self, sub_zero] at h2
    rw [h3, h1, h2]
    simp

/-- The snow fields of the record that a pass writes are those of `snowStep`:
the soil and response bodies leave them as they are. -/
theorem pass_snow_fields {Pow : ℚ → ℚ → ℚ} {mPars : Parameters} {prev s1 s2 : ModelState}
    {inp : InputData} (hs2 : soilStep Pow mPars prev s1 (some inp) = some s2) :
    (responseStep mPars prev s2).Snow_solid = s1.Snow_solid ∧
      (responseStep mPars prev s2).Snow_liquid = s1.Snow_liquid ∧
      (responseStep mPars prev s2).S_snow = s1.S_snow := by
  rw [soilStep_some] at hs2
  cases hs2
  exact ⟨rfl, rfl, rfl⟩

/-- C3: with non-negative precipitation and non-negative SFCF, CFMAX, CFR and
CWH, every record of the trajectory that `RunModel` returns has `Snow_solid ≥ 0`
and `Snow_liquid ≥ 0`; and one pass of `SnowRoutine` keeps both storages
non-negative from step `i - 1` to step `i`, in the freezing and in the melting
branch alike. -/
theorem RunModel_snow_nonneg (Pow : ℚ → ℚ → ℚ) (mPars : Parameters) (inData : List InputData)
    (hP : ∀ d ∈ inData, 0 ≤ d.Precipitation) (hSFCF : 0 ≤ mPars.SFCF)
    (hCFMAX : 0 ≤ mPars.CFMAX) (hCFR : 0 ≤ mPars.CFR) (hCWH : 0 ≤ mPars.CWH) :
    (∀ st err, RunModel Pow mPars inData = some (st, err) →
        ∀ r ∈ st, 0 ≤ r.Snow_solid ∧ 0 ≤ r.Snow_liquid) ∧
      (∀ prev cur inp, inp ∈ inData → 0 ≤ prev.Snow_solid → 0 ≤ prev.Snow_liquid →
        0 ≤ (snowStep mPars prev cur inp).Snow_solid ∧
          0 ≤ (snowStep mPars prev cur inp).Snow_liquid) := by
  refine ⟨?_, fun prev cur inp hinp hs hl =>
    snowStep_nonneg mPars prev cur inp (hP inp hinp) hSFCF hCFMAX hCFR hCWH hs hl⟩
  intro st err hrun
  obtain ⟨hne, hceil⟩ := RunModel_some_cases hrun
  obtain ⟨st', hst', _, hall, _⟩ := RunModel_invariant Pow mPars inData
    (fun r => 0 ≤ r.Snow_solid ∧ 0 ≤ r.Snow_liquid)
    (fun _ _ h => h)
    (fun prev cur inp s2 hprev hinp hs2 => by
      obtain ⟨e1, e2, _⟩ := pass_snow_fields hs2
      rw [e1, e2]
      exact snowStep_nonneg mPars prev cur inp (hP inp hinp) hSFCF hCFMAX hCFR hCWH
        hprev.1 hprev.2)
    ⟨le_refl _, le_refl _⟩ ⟨le_refl _, le_refl _⟩ hne hceil
  rw [hst'] at hrun
  cases hrun
  exact hall

/-- C8: with zero precipitation at every step, every record of the trajectory
that `RunModel` returns has `S_snow = 0`, whatever the temperatures and the
parameters. -/
theorem RunModel_snow_zero (Pow : ℚ → ℚ → ℚ) (mPars : Parameters) (inData : List InputData)
    (hP : ∀ d ∈ inData, d.Precipitation = 0) :
    ∀ st err, RunModel Pow mPars inData = some (st, err) → ∀ r ∈ st, r.S_snow = 0 := by
  intro st err hrun
  obtain ⟨hne, hceil⟩ := RunModel_some_cases hrun
  obtain ⟨st', hst', _, hall, _⟩ := RunModel_invariant Pow mPars inData
    (fun r => r.Snow_solid ≤ 0 ∧ r.Snow_solid + r.Snow_liquid = 0 ∧ r.S_snow = 0)
    (fun _ _ h => h)
    (fun prev cur inp s2 hprev hinp hs2 => by
      obtain ⟨e1, e2, e3⟩ := pass_snow_fields hs2
      rw [e1, e2, e3]
      exact snowStep_zero mPars prev cur inp (hP inp hinp) hprev.1 hprev.2.1)
    ⟨le_refl _, add_zero _, rfl⟩ ⟨le_refl _, add_zero _, rfl⟩ hne hceil
  rw [hst'] at hrun
  cases hrun
  exact fun r hr => (hall r hr).2.2

/-- C4: at a step `i ≥ 1` with `Temperature[i] ≤ TT`, `SnowRoutine` returns and
writes into record `i`: `Snow_solid = Snow_solid[i-1] + P * SFCF + refreeze` with
`refreeze = min (CFMAX * CFR * (TT - Temperature[i])) Snow_liquid[i-1]`,
`Snow_liquid = Snow_liquid[i-1] - refreeze`, and `Rainfall`, `Snow_melt` and
`Liquid_in` all 0. -/
theorem SnowRoutine_freezing (mState : List ModelState) (mPars : Parameters)
    (inData : List InputData) (i : ℕ) (prev cur : ModelState) (inp : InputData)
    (hi : 1 ≤ i) (hprev : mState[i - 1]? = some prev) (hcur : mState[i]? = some cur)
    (hinp : inData[i]? = some inp) (hT : inp.Temperature ≤ mPars.TT) :
    ∃ st' r, SnowRoutine mState mPars inData i = some st' ∧ st'[i]? = some r ∧
      r.Snow_solid = prev.Snow_solid + inp.Precipitation * mPars.SFCF +
        min (mPars.CFMAX * mPars.CFR * (mPars.TT - inp.Temperature)) prev.Snow_liquid ∧
      r.Snow_liquid = prev.Snow_liquid -
        min (mPars.CFMAX * mPars.CFR * (mPars.TT - inp.Temperature)) prev.Snow_liquid ∧
      r.Rainfall = 0 ∧ r.Snow_melt = 0 ∧ r.Liquid_in = 0 := by
  have hlt : i < mState.length := (List.getElem?_eq_some.mp hcur).1
  refine ⟨_, _, SnowRoutine_eq hi hprev hcur hinp, List.getElem?_set_self hlt, ?_⟩
  rw [snowStep_freezing mPars prev cur inp hT]
  exact ⟨rfl, rfl, rfl, rfl, rfl⟩

/-- C3, witness: on the golden scenario `RunModel` returns a trajectory, and every
record of it has non-negative snow storages. -/
theorem RunModel_snow_nonneg_witness :
    ∃ st, RunModel powIntegral (exampleParameters 2) exampleSeries = some (st, none) ∧
      st.length = 3 ∧ ∀ r ∈ st, 0 ≤ r.Snow_solid ∧ 0 ≤ r.Snow_liquid := by
  obtain ⟨st, hst, hlen⟩ := RunModel_returns powIntegral (exampleParameters 2) exampleSeries
    (by simp [exampleSeries]) (by rw [show (exampleParameters 2).MAXBAS = 2 from rfl, ceil_two]
                                  norm_num)
  refine ⟨st, hst, hlen, ?_⟩
  exact (RunModel_snow_nonneg powIntegral (exampleParameters 2) exampleSeries
    (by
      intro d hd
      simp only [exampleSeries, exampleInput, List.mem_cons, List.mem_singleton,
        List.mem_nil_iff, or_false] at hd
      rcases hd with rfl | rfl | rfl <;> norm_num)
    (by norm_num [exampleParameters]) (by norm_num [exampleParameters])
    (by norm_num [exampleParameters]) (by norm_num [exampleParameters])).1 st none hst

/-- C8, witness: on a series without precipitation, with freezing and melting
steps, `RunModel` returns a trajectory, and every record of it has `S_snow = 0`. -/
theorem RunModel_snow_zero_witness :
    ∃ st, RunModel powIntegral (exampleParameters 2) drySeries = some (st, none) ∧
      st.length = 3 ∧ ∀ r ∈ st, r.S_snow = 0 := by
  obtain ⟨st, hst, hlen⟩ := RunModel_returns powIntegral (exampleParameters 2) drySeries
    (by simp [drySeries]) (by rw [show (exampleParameters 2).MAXBAS = 2 from rfl, ceil_two]
                              norm_num)
  refine ⟨st, hst, hlen, ?_⟩
  exact RunModel_snow_zero powIntegral (exampleParameters 2) drySeries
    (by
      intro d hd
      simp only [drySeries, exampleInput, List.mem_cons, List.mem_singleton,
        List.mem_nil_iff, or_false] at hd
      rcases hd with h | h | h <;> rw [h])
    st none hst

/-- C4, witness: a freezing step at -5 degrees with 4 mm of precipitation on a
snowpack of 2 mm solid and 1 mm liquid: the potential refreeze is 3/4, so the
solid storage becomes 2 + 4 + 3/4 and the liquid storage 1 - 3/4. -/
theorem SnowRoutine_freezing_witness :
    ∃ st' r, SnowRoutine [snowState 2 1, ModelState.zero] (exampleParameters 2)
        [exampleInput 0 0 0, exampleInput 4 (-5) 0] 1 = some st' ∧ st'[1]? = some r ∧
      r.Snow_solid = 27 / 4 ∧ r.Snow_liquid = 1 / 4 ∧
      r.Rainfall = 0 ∧ r.Snow_melt = 0 ∧ r.Liquid_in = 0 := by
  obtain ⟨st', r, h, hr, h1, h2, h3, h4, h5⟩ :=
    SnowRoutine_freezing [snowState 2 1, ModelState.zero] (exampleParameters 2)
      [exampleInput 0 0 0, exampleInput 4 (-5) 0] 1 (snowState 2 1) ModelState.zero
      (exampleInput 4 (-5) 0) (le_refl 1) rfl rfl rfl
      (by norm_num [exampleInput, exampleParameters])
  refine ⟨st', r, h, hr, ?_, ?_, h3, h4, h5⟩
  · rw [h1]; norm_num [snowState, exampleInput, exampleParameters]
  · rw [h2]; norm_num [snowState, exampleInput, exampleParameters]

/-! ## The outcome of `RunModel` -/

theorem ceil_nonneg_of_gt_neg_one {a : ℚ} (h : -1 < a) : 0 ≤ ⌈a⌉ := by
  have h1 : ((-1 : ℤ) : ℚ) < a := by simpa using h
  have h2 : (-1 : ℤ) < ⌈a⌉ := Int.lt_ceil.mpr h1
  omega

theorem ceil_neg_of_le_neg_one {a : ℚ} (h : a ≤ -1) : ⌈a⌉ < 0 := by
  have h1 : a ≤ ((-1 : ℤ) : ℚ) := by simpa using h
  have h2 : ⌈a⌉ ≤ -1 := Int.ceil_le.mpr h1
  omega

/-- C2 (as amended): `RunModel` validates nothing and never returns an error.
Whatever it returns carries the `nil` error and a trajectory of the length of the
input; it returns so on every non-empty input, one record included, and for every
MAXBAS above -1, the values in (-1, 0] included; on an empty input or with
MAXBAS ≤ -1 it does not return at all (a run-time panic). -/
theorem RunModel_no_validation (Pow : ℚ → ℚ → ℚ) (mPars : Parameters)
    (inData : List InputData) :
    (∀ res, RunModel Pow mPars inData = some res →
        res.2 = none ∧ res.1.length = inData.length) ∧
      (inData ≠ [] → -1 < mPars.MAXBAS →
        ∃ st, RunModel Pow mPars inData = some (st, none) ∧ st.length = inData.length) ∧
      (inData = [] ∨ mPars.MAXBAS ≤ -1 → RunModel Pow mPars inData = none) := by
  refine ⟨?_, ?_, ?_⟩
  · intro res hres
    obtain ⟨hne, hceil⟩ := RunModel_some_cases hres
    obtain ⟨st, hst, hlen⟩ := RunModel_returns Pow mPars inData hne hceil
    rw [hst] at hres
    cases hres
    exact ⟨rfl, hlen⟩
  · intro hne hM
    exact RunModel_returns Pow mPars inData hne (ceil_nonneg_of_gt_neg_one hM)
  · intro h
    rcases h with h | h
    · exact RunModel_eq_none Pow mPars inData (Or.inl h)
    · exact RunModel_eq_none Pow mPars inData (Or.inr (ceil_neg_of_le_neg_one h))

/-- C2, witness: with MAXBAS = 0 and three records `RunModel` returns a
trajectory of three records and the `nil` error. -/
theorem RunModel_no_validation_witness :
    drySeries ≠ [] ∧ -1 < (exampleParameters 0).MAXBAS ∧
      ∃ st, RunModel powIntegral (exampleParameters 0) drySeries = some (st, none) ∧
        st.length = drySeries.length :=
  ⟨by simp [drySeries], by norm_num [exampleParameters],
    (RunModel_no_validation powIntegral (exampleParameters 0) drySeries).2.1
      (by simp [drySeries]) (by norm_num [exampleParameters])⟩

/-- C2, counterexample: with MAXBAS = 0 and three records, and with MAXBAS = 2
and a single record, `RunModel` returns a trajectory together with the `nil`
error; in the second case the trajectory is the seeded record alone. -/
theorem RunModel_no_validation_counterexample :
    (exampleParameters 0).MAXBAS ≤ 0 ∧
      (∃ st, RunModel powIntegral (exampleParameters 0) drySeries = some (st, none) ∧
        st.length = 3) ∧
      [exampleInput 0 0 0].length < 2 ∧
      RunModel powIntegral (exampleParameters 2) [exampleInput 0 0 0] =
        some ([{ ModelState.zero with S_soil := 140, S_gw_slz := 100 }], none) := by
  refine ⟨by norm_num [exampleParameters], ?_, by simp, ?_⟩
  · exact RunModel_returns powIntegral (exampleParameters 0) drySeries (by simp [drySeries])
      (ceil_nonneg_of_gt_neg_one (by norm_num [exampleParameters]))
  · obtain ⟨st, hst, hlen, _, h0⟩ := RunModel_invariant powIntegral (exampleParameters 2)
      [exampleInput 0 0 0] (fun _ => True) (fun _ _ _ => trivial)
      (fun _ _ _ _ _ _ _ => trivial) trivial trivial (by simp)
      (ceil_nonneg_of_gt_neg_one (by norm_num [exampleParameters]))
    have hlen1 : st.length = 1 := by simpa using hlen
    obtain ⟨x, hx⟩ := List.length_eq_one.mp hlen1
    subst hx
    simp only [List.getElem?_cons_zero, Option.some.injEq] at h0
    have hseed : ({ ModelState.zero with
        S_soil := (exampleParameters 2).FC * (exampleParameters 2).LP,
        S_gw_slz := (exampleParameters 2).PERC / (exampleParameters 2).K2 } : ModelState) =
        { ModelState.zero with S_soil := 140, S_gw_slz := 100 } := by
      have e1 : (exampleParameters 2).FC * (exampleParameters 2).LP = 140 := by
        norm_num [exampleParameters]
      have e2 : (exampleParameters 2).PERC / (exampleParameters 2).K2 = 100 := by
        norm_num [exampleParameters]
      rw [e1, e2]
    rw [hst, h0, hseed]

/-- C10 (as amended): for every input of length N ≥ 2 and every parameter set
with MAXBAS > -1, `RunModel` returns a state sequence of exactly length N whose
record 0 is the seeded one, `S_soil = FC * LP`, `S_gw_slz = PERC / K2` and every
other field 0; and no pass of the loop at a step 1 ≤ i < N modifies record 0. -/
theorem RunModel_seed_record (Pow : ℚ → ℚ → ℚ) (mPars : Parameters) (inData : List InputData)
    (hN : 2 ≤ inData.length) (hM : -1 < mPars.MAXBAS) :
    (∃ st, RunModel Pow mPars inData = some (st, none) ∧ st.length = inData.length ∧
        st[0]? = some { ModelState.zero with
          S_soil := mPars.FC * mPars.LP, S_gw_slz := mPars.PERC / mPars.K2 }) ∧
      (∀ (maxbas : List ℚ) (mState : List ModelState) (i : ℕ),
        mState.length = inData.length → 1 ≤ i → i < inData.length →
        ∃ st', RunModel.step Pow mPars inData maxbas mState i = some st' ∧
          st'[0]? = mState[0]?) := by
  have hne : inData ≠ [] := by
    intro h
    rw [h] at hN
    simp at hN
  constructor
  · obtain ⟨st, hst, hlen, _, h0⟩ := RunModel_invariant Pow mPars inData (fun _ => True)
      (fun _ _ _ => trivial) (fun _ _ _ _ _ _ _ => trivial) trivial trivial hne
      (ceil_nonneg_of_gt_neg_one hM)
    exact ⟨st, hst, hlen, h0⟩
  · intro maxbas mState i hlen h1 hi
    obtain ⟨prev, cur, inp, s2, st', _, _, _, _, hst', _, hspec⟩ :=
      RunModel.step_spec Pow mPars inData maxbas mState i h1 (by omega) hlen
    refine ⟨st', hst', ?_⟩
    rw [hspec 0, List.getElem?_set_ne (by omega)]
    have hfalse : ¬ (i ≤ 0 ∧ 0 < i + maxbas.length) := by omega
    simp only [if_neg hfalse]
    cases mState[0]? <;> rfl

/-- C10, witness: on the golden scenario the returned sequence has three records
and record 0 holds `S_soil = 200 * (7/10)` and `S_gw_slz = 1 / (1/100)`. -/
theorem RunModel_seed_record_witness :
    ∃ st, RunModel powIntegral (exampleParameters 2) exampleSeries = some (st, none) ∧
      st.length = exampleSeries.length ∧
      st[0]? = some { ModelState.zero with
        S_soil := (exampleParameters 2).FC * (exampleParameters 2).LP,
        S_gw_slz := (exampleParameters 2).PERC / (exampleParameters 2).K2 } :=
  (RunModel_seed_record powIntegral (exampleParameters 2) exampleSeries
    (by simp [exampleSeries]) (by norm_num [exampleParameters])).1

/-- C10, counterexample: with MAXBAS = -2 and three records `RunModel` returns
nothing: `make` is called with the length -2. -/
theorem RunModel_seed_record_counterexample :
    2 ≤ exampleSeries.length ∧ ⌈(exampleParameters (-2)).MAXBAS⌉ = -2 ∧
      RunModel powIntegral (exampleParameters (-2)) exampleSeries = none := by
  refine ⟨by simp [exampleSeries], ?_, ?_⟩
  · rw [Int.ceil_eq_iff]; norm_num [exampleParameters]
  · exact RunModel_eq_none _ _ _
      (Or.inr (ceil_neg_of_le_neg_one (by norm_num [exampleParameters])))

/-! ## Groundwater response -/

/-- The two storages that `responseStep` writes, with
`percolation = min PERC (S_gw_suz[i-1] + Recharge_gwuz[i])`. -/
theorem responseStep_storages (mPars : Parameters) (prev cur : ModelState) :
    (responseStep mPars prev cur).S_gw_suz =
        prev.S_gw_suz + cur.Recharge_gwuz - min mPars.PERC (prev.S_gw_suz + cur.Recharge_gwuz) -
          mPars.K1 * (prev.S_gw_suz + cur.Recharge_gwuz -
            min mPars.PERC (prev.S_gw_suz + cur.Recharge_gwuz)) -
          mPars.K0 * max (prev.S_gw_suz + cur.Recharge_gwuz -
            min mPars.PERC (prev.S_gw_suz + cur.Recharge_gwuz) - mPars.UZL) 0 ∧
      (responseStep mPars prev cur).S_gw_slz =
        prev.S_gw_slz + min mPars.PERC (prev.S_gw_suz + cur.Recharge_gwuz) -
          mPars.K2 * (prev.S_gw_slz + min mPars.PERC (prev.S_gw_suz + cur.Recharge_gwuz)) :=
  ⟨rfl, rfl⟩

/-- Without inflow and with `K0 + K1 ≤ 1`, one pass of the response routine keeps
both groundwater storages non-negative. -/
theorem responseStep_nonneg (mPars : Parameters) (prev cur : ModelState)
    (hK0 : 0 ≤ mPars.K0) (hK01 : mPars.K0 + mPars.K1 ≤ 1)
    (hK2 : mPars.K2 < 1) (hPERC : 0 ≤ mPars.PERC) (hUZL : 0 ≤ mPars.UZL)
    (hR : cur.Recharge_gwuz = 0) (hsuz : 0 ≤ prev.S_gw_suz) (hslz : 0 ≤ prev.S_gw_slz) :
    0 ≤ (responseStep mPars prev cur).S_gw_suz ∧ 0 ≤ (responseStep mPars prev cur).S_gw_slz := by
  obtain ⟨e1, e2⟩ := responseStep_storages mPars prev cur
  rw [e1, e2, hR, add_zero]
  have hperc : 0 ≤ min mPars.PERC prev.S_gw_suz := le_min hPERC hsuz
  have hu : 0 ≤ prev.S_gw_suz - min mPars.PERC prev.S_gw_suz :=
    sub_nonneg.mpr (min_le_right _ _)
  have hmax : max (prev.S_gw_suz - min mPars.PERC prev.S_gw_suz - mPars.UZL) 0 ≤
      prev.S_gw_suz - min mPars.PERC prev.S_gw_suz := max_le (by linarith) hu
  have hfast : mPars.K0 * max (prev.S_gw_suz - min mPars.PERC prev.S_gw_suz - mPars.UZL) 0 ≤
      mPars.K0 * (prev.S_gw_suz - min mPars.PERC prev.S_gw_suz) :=
    mul_le_mul_of_nonneg_left hmax hK0
  constructor
  · have hprod : 0 ≤ (1 - mPars.K0 - mPars.K1) *
        (prev.S_gw_suz - min mPars.PERC prev.S_gw_suz) := mul_nonneg (by linarith) hu
    nlinarith
  · have hprod : 0 ≤ (1 - mPars.K2) * (prev.S_gw_slz + min mPars.PERC prev.S_gw_suz) :=
      mul_nonneg (by linarith) (by linarith)
    nlinarith

/-- Any number of consecutive passes of the response routine without inflow keep
both groundwater storages non-negative when `K0 + K1 ≤ 1`. -/
theorem responseStep_foldl_nonneg (mPars : Parameters)
    (hK0 : 0 ≤ mPars.K0) (hK01 : mPars.K0 + mPars.K1 ≤ 1)
    (hK2 : mPars.K2 < 1) (hPERC : 0 ≤ mPars.PERC) (hUZL : 0 ≤ mPars.UZL) :
    ∀ (curs : List ModelState) (prev : ModelState), (∀ c ∈ curs, c.Recharge_gwuz = 0) →
      0 ≤ prev.S_gw_suz → 0 ≤ prev.S_gw_slz →
      0 ≤ (curs.foldl (responseStep mPars) prev).S_gw_suz ∧
        0 ≤ (curs.foldl (responseStep mPars) prev).S_gw_slz := by
  intro curs
  induction curs with
  | nil => intro prev _ hsuz hslz; exact ⟨hsuz, hslz⟩
  | cons c cs ih =>
    intro prev hcs hsuz hslz
    obtain ⟨h1, h2⟩ := responseStep_nonneg mPars prev c hK0 hK01 hK2 hPERC hUZL
      (hcs c (List.mem_cons_self _ _)) hsuz hslz
    simp only [List.foldl_cons]
    exact ih (responseStep mPars prev c) (fun c' hc' => hcs c' (List.mem_cons_of_mem _ hc'))
      h1 h2

/-- C5 (as amended): for K0, K1, K2 each in [0, 1) with K0 + K1 ≤ 1, PERC ≥ 0 and
UZL ≥ 0, if `Recharge_gwuz[i] = 0` and both storages of step `i - 1` are
non-negative, then `ResponseRoutine` returns and both storages of step `i` are
non-negative; and so they are after any number of consecutive passes without
inflow. -/
theorem ResponseRoutine_nonneg (mState : List ModelState) (mPars : Parameters) (i : ℕ)
    (prev cur : ModelState)
    (hi : 1 ≤ i) (hprev : mState[i - 1]? = some prev) (hcur : mState[i]? = some cur)
    (hK0 : 0 ≤ mPars.K0 ∧ mPars.K0 < 1) (_hK1 : 0 ≤ mPars.K1 ∧ mPars.K1 < 1)
    (hK2 : 0 ≤ mPars.K2 ∧ mPars.K2 < 1) (hK01 : mPars.K0 + mPars.K1 ≤ 1)
    (hPERC : 0 ≤ mPars.PERC) (hUZL : 0 ≤ mPars.UZL)
    (hR : cur.Recharge_gwuz = 0) (hsuz : 0 ≤ prev.S_gw_suz) (hslz : 0 ≤ prev.S_gw_slz) :
    (∃ st' r, ResponseRoutine mState mPars i = some st' ∧ st'[i]? = some r ∧
        0 ≤ r.S_gw_suz ∧ 0 ≤ r.S_gw_slz) ∧
      (∀ curs : List ModelState, (∀ c ∈ curs, c.Recharge_gwuz = 0) →
        0 ≤ (curs.foldl (responseStep mPars) prev).S_gw_suz ∧
          0 ≤ (curs.foldl (responseStep mPars) prev).S_gw_slz) := by
  have hlt : i < mState.length := (List.getElem?_eq_some.mp hcur).1
  constructor
  · obtain ⟨h1, h2⟩ := responseStep_nonneg mPars prev cur hK0.1 hK01 hK2.2 hPERC hUZL
      hR hsuz hslz
    exact ⟨_, _, ResponseRoutine_eq hi hprev hcur, List.getElem?_set_self hlt, h1, h2⟩
  · intro curs hcs
    exact responseStep_foldl_nonneg mPars hK0.1 hK01 hK2.2 hPERC hUZL curs prev hcs hsuz hslz

/-- C5, witness: with the golden parameters, no inflow and the storages 10 and 5,
the response routine returns and leaves both storages non-negative. -/
theorem ResponseRoutine_nonneg_witness :
    ∃ st' r, ResponseRoutine [groundwaterState 10 5, ModelState.zero] (exampleParameters 2) 1 =
        some st' ∧ st'[1]? = some r ∧ 0 ≤ r.S_gw_suz ∧ 0 ≤ r.S_gw_slz :=
  (ResponseRoutine_nonneg [groundwaterState 10 5, ModelState.zero] (exampleParameters 2) 1
    (groundwaterState 10 5) ModelState.zero (le_refl 1) rfl rfl
    (by norm_num [exampleParameters]) (by norm_num [exampleParameters])
    (by norm_num [exampleParameters]) (by norm_num [exampleParameters])
    (by norm_num [exampleParameters]) (by norm_num [exampleParameters])
    rfl (by norm_num [groundwaterState]) (by norm_num [groundwaterState])).1

/-- C5, counterexample: with K0 = K1 = 9/10, K2 = 1/100, PERC = 0 and UZL = 0, all
within the ranges of the claim, no inflow and the storages 10 and 0, the response
routine leaves the upper storage at 10 - 9 - 9 = -8. -/
theorem ResponseRoutine_nonneg_counterexample :
    (0 ≤ fastParameters.K0 ∧ fastParameters.K0 < 1) ∧
      (0 ≤ fastParameters.K1 ∧ fastParameters.K1 < 1) ∧
      (0 ≤ fastParameters.K2 ∧ fastParameters.K2 < 1) ∧
      0 ≤ fastParameters.PERC ∧ 0 ≤ fastParameters.UZL ∧
      ModelState.zero.Recharge_gwuz = 0 ∧
      0 ≤ (groundwaterState 10 0).S_gw_suz ∧ 0 ≤ (groundwaterState 10 0).S_gw_slz ∧
      ∃ st' r, ResponseRoutine [groundwaterState 10 0, ModelState.zero] fastParameters 1 =
          some st' ∧ st'[1]? = some r ∧ r.S_gw_suz = (-8 : ℚ) ∧ r.S_gw_suz < 0 := by
  refine ⟨by norm_num [fastParameters], by norm_num [fastParameters],
    by norm_num [fastParameters, exampleParameters], by norm_num [fastParameters],
    by norm_num [fastParameters], rfl, by norm_num [groundwaterState],
    by norm_num [groundwaterState], ?_⟩
  have hval : (responseStep fastParameters (groundwaterState 10 0) ModelState.zero).S_gw_suz
      = -8 := by
    rw [(responseStep_storages _ _ _).1]
    norm_num [fastParameters, groundwaterState, ModelState.zero]
  refine ⟨[groundwaterState 10 0, ModelState.zero].set 1
      (responseStep fastParameters (groundwaterState 10 0) ModelState.zero),
    responseStep fastParameters (groundwaterState 10 0) ModelState.zero,
    ResponseRoutine_eq (le_refl 1) rfl rfl, rfl, hval, ?_⟩
  rw [hval]
  norm_num

/-- C6 (as amended): for K0, K1, K2 each in [0, 1), PERC ≥ 0 and UZL ≥ 0, if
`Recharge_gwuz[i] = 0` and both storages of step `i - 1` are non-negative, then
`ResponseRoutine` returns, the upper storage does not increase, and the lower
storage exceeds its previous value by at most the percolation
`min PERC S_gw_suz[i-1]` that it receives from the upper one; in particular the
lower storage does not increase when that percolation is 0. -/
theorem ResponseRoutine_decay (mState : List ModelState) (mPars : Parameters) (i : ℕ)
    (prev cur : ModelState)
    (hi : 1 ≤ i) (hprev : mState[i - 1]? = some prev) (hcur : mState[i]? = some cur)
    (hK0 : 0 ≤ mPars.K0 ∧ mPars.K0 < 1) (hK1 : 0 ≤ mPars.K1 ∧ mPars.K1 < 1)
    (hK2 : 0 ≤ mPars.K2 ∧ mPars.K2 < 1)
    (hPERC : 0 ≤ mPars.PERC) (_hUZL : 0 ≤ mPars.UZL)
    (hR : cur.Recharge_gwuz = 0) (hsuz : 0 ≤ prev.S_gw_suz) (hslz : 0 ≤ prev.S_gw_slz) :
    ∃ st' r, ResponseRoutine mState mPars i = some st' ∧ st'[i]? = some r ∧
      r.S_gw_suz ≤ prev.S_gw_suz ∧
      r.S_gw_slz ≤ prev.S_gw_slz + min mPars.PERC prev.S_gw_suz ∧
      (min mPars.PERC prev.S_gw_suz = 0 → r.S_gw_slz ≤ prev.S_gw_slz) := by
  have hlt : i < mState.length := (List.getElem?_eq_some.mp hcur).1
  obtain ⟨e1, e2⟩ := responseStep_storages mPars prev cur
  rw [hR, add_zero] at e1 e2
  have hperc : 0 ≤ min mPars.PERC prev.S_gw_suz := le_min hPERC hsuz
  have hu : 0 ≤ prev.S_gw_suz - min mPars.PERC prev.S_gw_suz :=
    sub_nonneg.mpr (min_le_right _ _)
  have hq1 : 0 ≤ mPars.K1 * (prev.S_gw_suz - min mPars.PERC prev.S_gw_suz) :=
    mul_nonneg hK1.1 hu
  have hq0 : 0 ≤ mPars.K0 *
      max (prev.S_gw_suz - min mPars.PERC prev.S_gw_suz - mPars.UZL) 0 :=
    mul_nonneg hK0.1 (le_max_right _ _)
  have hq2 : 0 ≤ mPars.K2 * (prev.S_gw_slz + min mPars.PERC prev.S_gw_suz) :=
    mul_nonneg hK2.1 (by linarith)
  have hlow : (responseStep mPars prev cur).S_gw_slz ≤
      prev.S_gw_slz + min mPars.PERC prev.S_gw_suz := by rw [e2]; linarith
  refine ⟨_, _, ResponseRoutine_eq hi hprev hcur, List.getElem?_set_self hlt, ?_, hlow, ?_⟩
  · rw [e1]; linarith
  · intro h0
    rw [h0, add_zero] at hlow
    exact hlow

/-- C6, witness: with the golden parameters, no inflow and the storages 10 and 5,
the upper storage falls and the lower one gains at most the percolation. -/
theorem ResponseRoutine_decay_witness :
    ∃ st' r, ResponseRoutine [groundwaterState 10 5, ModelState.zero] (exampleParameters 2) 1 =
        some st' ∧ st'[1]? = some r ∧
      r.S_gw_suz ≤ (groundwaterState 10 5).S_gw_suz ∧
      r.S_gw_slz ≤ (groundwaterState 10 5).S_gw_slz +
        min (exampleParameters 2).PERC (groundwaterState 10 5).S_gw_suz ∧
      (min (exampleParameters 2).PERC (groundwaterState 10 5).S_gw_suz = 0 →
        r.S_gw_slz ≤ (groundwaterState 10 5).S_gw_slz) :=
  ResponseRoutine_decay [groundwaterState 10 5, ModelState.zero] (exampleParameters 2) 1
    (groundwaterState 10 5) ModelState.zero (le_refl 1) rfl rfl
    (by norm_num [exampleParameters]) (by norm_num [exampleParameters])
    (by norm_num [exampleParameters]) (by norm_num [exampleParameters])
    (by norm_num [exampleParameters])
    rfl (by norm_num [groundwaterState]) (by norm_num [groundwaterState])

/-- C6, counterexample: with the golden parameters (K0 = 3/10, K1 = 1/10,
K2 = 1/100, PERC = 1, UZL = 20), no inflow and the storages 10 and 0, the
percolation of 1 enters the lower storage, which rises from 0 to 99/100. -/
theorem ResponseRoutine_decay_counterexample :
    (0 ≤ (exampleParameters 2).K0 ∧ (exampleParameters 2).K0 < 1) ∧
      (0 ≤ (exampleParameters 2).K1 ∧ (exampleParameters 2).K1 < 1) ∧
      (0 ≤ (exampleParameters 2).K2 ∧ (exampleParameters 2).K2 < 1) ∧
      0 ≤ (exampleParameters 2).PERC ∧ 0 ≤ (exampleParameters 2).UZL ∧
      ModelState.zero.Recharge_gwuz = 0 ∧
      0 ≤ (groundwaterState 10 0).S_gw_suz ∧ 0 ≤ (groundwaterState 10 0).S_gw_slz ∧
      ∃ st' r, ResponseRoutine [groundwaterState 10 0, ModelState.zero] (exampleParameters 2) 1
          = some st' ∧ st'[1]? = some r ∧ r.S_gw_slz = (99 / 100 : ℚ) ∧
        ¬ r.S_gw_slz ≤ (groundwaterState 10 0).S_gw_slz := by
  refine ⟨by norm_num [exampleParameters], by norm_num [exampleParameters],
    by norm_num [exampleParameters], by norm_num [exampleParameters],
    by norm_num [exampleParameters], rfl, by norm_num [groundwaterState],
    by norm_num [groundwaterState], ?_⟩
  have hval : (responseStep (exampleParameters 2) (groundwaterState 10 0)
      ModelState.zero).S_gw_slz = 99 / 100 := by
    rw [(responseStep_storages _ _ _).2]
    norm_num [exampleParameters, groundwaterState, ModelState.zero]
  refine ⟨[groundwaterState 10 0, ModelState.zero].set 1
      (responseStep (exampleParameters 2) (groundwaterState 10 0) ModelState.zero),
    responseStep (exampleParameters 2) (groundwaterState 10 0) ModelState.zero,
    ResponseRoutine_eq (le_refl 1) rfl rfl, rfl, hval, ?_⟩
  rw [hval]
  norm_num [groundwaterState]

/-! ## Routing -/

/-- C7: for state and input sequences of equal length N and a step `i < N`,
`RoutingRoutine` returns a sequence of the same length, so it reads or writes no
index `≥ N`; record `k` of it is record `k` of the input state with
`Q_sim + Q_gw[i] * w[k - i]` for `Q_sim` exactly when `i ≤ k < i + len(w)`, and is
unchanged otherwise, every field other than `Q_sim` being unchanged throughout.
The contributions with `i + j ≥ N` are dropped. -/
theorem RoutingRoutine_frame (mState : List ModelState) (mPars : Parameters)
    (inData : List InputData) (i : ℕ) (maxbas : List ℚ)
    (hlen : mState.length = inData.length) (hi : i < mState.length) :
    ∃ st' si, RoutingRoutine mState mPars inData i maxbas = some st' ∧
      st'.length = mState.length ∧ mState[i]? = some si ∧
      ∀ k, k < mState.length → ∃ r r', mState[k]? = some r ∧ st'[k]? = some r' ∧
        r' = { r with Q_sim :=
          if i ≤ k ∧ k < i + maxbas.length then r.Q_sim + si.Q_gw * maxbas.getD (k - i) 0
          else r.Q_sim } := by
  have hsi : mState[i]? = some mState[i] := List.getElem?_eq_getElem hi
  generalize mState[i] = si at hsi
  obtain ⟨st', hst', hlen', hspec⟩ := routingLoop_spec inData i maxbas 0 mState si hlen hsi
  refine ⟨st', si, hst', hlen', hsi, fun k hk => ?_⟩
  have hr : mState[k]? = some mState[k] := List.getElem?_eq_getElem hk
  generalize mState[k] = r at hr
  refine ⟨r, _, hr, ?_, rfl⟩
  rw [hspec k, hr]
  simp only [Option.map_some', Nat.add_zero]
  split_ifs <;> rfl

/-- C7, witness: two records, the weights 1/2 and 1/2 and step 1, the last one:
record 0 is unchanged, `Q_sim[1]` grows by `Q_gw[1] / 2`, and the second
contribution, aimed at index 2, is dropped. -/
theorem RoutingRoutine_frame_witness :
    RoutingRoutine [dischargeState 4 3, dischargeState 6 1] (exampleParameters 2)
        [exampleInput 0 0 0, exampleInput 0 0 0] 1 [1 / 2, 1 / 2] =
      some [dischargeState 4 3, dischargeState 6 4] := by
  obtain ⟨st', si, hst', hlen', hsi, hspec⟩ :=
    RoutingRoutine_frame [dischargeState 4 3, dischargeState 6 1] (exampleParameters 2)
      [exampleInput 0 0 0, exampleInput 0 0 0] 1 [1 / 2, 1 / 2] rfl (by simp)
  simp only [List.getElem?_cons_succ, List.getElem?_cons_zero, Option.some.injEq] at hsi
  subst hsi
  rw [hst']
  obtain ⟨r0, r0', h0, h0', e0⟩ := hspec 0 (by simp)
  obtain ⟨r1, r1', h1, h1', e1⟩ := hspec 1 (by simp)
  simp only [List.getElem?_cons_succ, List.getElem?_cons_zero, Option.some.injEq] at h0 h1
  subst h0 h1
  have hlen2 : st'.length = 2 := by simpa using hlen'
  obtain ⟨a, b, hab⟩ := List.length_eq_two.mp hlen2
  subst hab
  simp only [List.getElem?_cons_succ, List.getElem?_cons_zero, Option.some.injEq] at h0' h1'
  rw [h0', h1', e0, e1]
  norm_num [dischargeState, ModelState.zero]

/-! ## Goodness of fit -/

theorem floor_two : ⌊(2 : ℚ)⌋ = 2 := by
  rw [Int.floor_eq_iff]; norm_num

/-- At exponent 2 `powIntegral` is the square. -/
theorem powIntegral_two (x : ℚ) : powIntegral x 2 = x ^ 2 := by
  simp only [powIntegral, floor_two]
  norm_cast

/-- C13, evaluation at the failing input: `PowArray([2, 3], 2)` has four entries,
two leading zeros followed by the squares. -/
theorem PowArray_two_three :
    PowArray powIntegral [2, 3] 2 = [0, 0, 4, 9] ∧
      (PowArray powIntegral [2, 3] 2).length = 2 * ([2, 3] : List ℚ).length ∧
      PowArray powIntegral [2, 3] 2 ≠ [2 ^ 2, 3 ^ 2] := by
  have h : PowArray powIntegral [2, 3] 2 = [0, 0, 4, 9] := by
    simp only [PowArray, List.length_cons, List.length_nil, List.foldl_cons, List.foldl_nil,
      powIntegral_two]
    norm_num [List.replicate]
  refine ⟨h, by rw [h]; rfl, ?_⟩
  rw [h]
  intro hne
  have := congrArg List.length hne
  simp at this

/-- C12, evaluation at the failing input: for `sim = obs = [1, 3]`, a perfect fit,
the formula of the claim gives 1, and `NashSutcliffeEfficiency` returns -3: the
observations are centred in place before the residuals are taken, so the
numerator is the sum of the squares of `(obs - mean) - sim`. -/
theorem NashSutcliffeEfficiency_one_three :
    NashSutcliffeEfficiency powIntegral [1, 3] [1, 3] = some (-3) ∧
      (1 - (((1 : ℚ) - 1) ^ 2 + (3 - 3) ^ 2) / ((1 - 2) ^ 2 + (3 - 2) ^ 2) = 1) ∧
      statMean [1, 3] = 2 := by
  refine ⟨?_, by norm_num, by norm_num [statMean]⟩
  have hmean : statMean [1, 3] = 2 := by norm_num [statMean]
  simp only [NashSutcliffeEfficiency, hmean, floatsAddConst, floatsSubTo, floatsSum, PowArray,
    List.map_cons, List.map_nil, List.length_cons, List.length_nil, List.length_replicate,
    List.zipWith_cons_cons, List.zipWith_nil_left, List.foldl_cons, List.foldl_nil,
    powIntegral_two]
  norm_num [List.replicate]

/-! ## Length of the kernel -/

theorem maxbasBins_length (mPars : Parameters) (len : ℕ) : (maxbasBins mPars len).length = len := by
  unfold maxbasBins
  rw [List.length_map]
  simp [Function.comp_def]

/-- C15: for every MAXBAS > 0, `RoutingMaxbasWeights` returns a vector with
exactly `⌈MAXBAS⌉` entries. -/
theorem RoutingMaxbasWeights_length (mPars : Parameters) (hpos : 0 < mPars.MAXBAS) :
    ∃ w, RoutingMaxbasWeights mPars = some w ∧ (w.length : ℤ) = ⌈mPars.MAXBAS⌉ := by
  have hc : 0 ≤ ⌈mPars.MAXBAS⌉ := Int.ceil_nonneg hpos.le
  refine ⟨_, RoutingMaxbasWeights_eq mPars hc, ?_⟩
  rw [List.length_map, maxbasBins_length]
  exact Int.toNat_of_nonneg hc

/-- C15, witness: at MAXBAS = 9/4 the vector has 3 entries. -/
theorem RoutingMaxbasWeights_length_witness :
    0 < (exampleParameters (9 / 4)).MAXBAS ∧ ⌈(exampleParameters (9 / 4)).MAXBAS⌉ = 3 ∧
      ∃ w, RoutingMaxbasWeights (exampleParameters (9 / 4)) = some w ∧
        (w.length : ℤ) = ⌈(exampleParameters (9 / 4)).MAXBAS⌉ :=
  ⟨by norm_num [exampleParameters], ceil_nine_quarters,
    RoutingMaxbasWeights_length (exampleParameters (9 / 4)) (by norm_num [exampleParameters])⟩

/-! ## Soil -/

/-- Each pass of the inner loop of `SoilRoutine` splits 1 mm between the soil
storage and the recharge total. -/
theorem soilLoop_sum (Pow : ℚ → ℚ → ℚ) (mPars : Parameters) :
    ∀ (n : ℕ) (acc : ℚ × ℚ),
      (soilLoop Pow mPars n acc).1 + (soilLoop Pow mPars n acc).2 = acc.1 + acc.2 + n := by
  intro n
  induction n with
  | zero => intro acc; simp [soilLoop]
  | succ k ih =>
    intro acc
    obtain ⟨s, t⟩ := acc
    simp only [soilLoop]
    rw [ih]
    push_cast
    ring

/-- The post-recharge storage is the previous storage plus `Recharge_sm`. -/
theorem soilRecharge_fst (Pow : ℚ → ℚ → ℚ) (mPars : Parameters) (prev_S_soil liquid_in : ℚ) :
    (soilRecharge Pow mPars prev_S_soil liquid_in).1 =
      prev_S_soil + (soilRecharge Pow mPars prev_S_soil liquid_in).2.1 := by
  unfold soilRecharge
  by_cases h : liquid_in > 0
  · simp only [if_pos h]; ring
  · simp only [if_neg h]; ring

/-- The two recharge totals add up to the infiltration input. -/
theorem soilRecharge_sum (Pow : ℚ → ℚ → ℚ) (mPars : Parameters) (prev_S_soil liquid_in : ℚ)
    (hL : 0 ≤ liquid_in) :
    (soilRecharge Pow mPars prev_S_soil liquid_in).2.1 +
      (soilRecharge Pow mPars prev_S_soil liquid_in).2.2 = liquid_in := by
  unfold soilRecharge
  by_cases h : liquid_in > 0
  · simp only [if_pos h]
    have hsum := soilLoop_sum Pow mPars ⌊liquid_in⌋.toNat (prev_S_soil, 0)
    have hfloor : ((⌊liquid_in⌋.toNat : ℕ) : ℚ) = (⌊liquid_in⌋ : ℚ) := by
      have h0 : 0 ≤ ⌊liquid_in⌋ := Int.floor_nonneg.mpr hL
      have h1 : ((⌊liquid_in⌋.toNat : ℕ) : ℤ) = ⌊liquid_in⌋ := Int.toNat_of_nonneg h0
      exact_mod_cast h1
    rw [hfloor] at hsum
    simp only [add_zero] at hsum
    linarith
  · simp only [if_neg h]
    have : liquid_in = 0 := le_antisymm (not_lt.mp h) hL
    rw [this]; ring

/-- C17: at a step `i ≥ 1` with `Liquid_in[i] ≥ 0`, `SoilRoutine` returns, and the
totals it writes satisfy `Recharge_sm[i] + Recharge_gwuz[i] = Liquid_in[i]`; both
are 0 when `Liquid_in[i] = 0`; and when `Liquid_in[i] > 0` they are the result of
`⌊Liquid_in[i]⌋` unit passes of the inner loop followed by one remainder increment
of `Liquid_in[i] - ⌊Liquid_in[i]⌋`. -/
theorem SoilRoutine_conserves (Pow : ℚ → ℚ → ℚ) (mState : List ModelState)
    (mPars : Parameters) (inData : List InputData) (i : ℕ) (prev cur : ModelState)
    (inp : InputData)
    (hi : 1 ≤ i) (hprev : mState[i - 1]? = some prev) (hcur : mState[i]? = some cur)
    (hinp : inData[i]? = some inp) (hL : 0 ≤ cur.Liquid_in) :
    ∃ st' r, SoilRoutine Pow mState mPars inData i = some st' ∧ st'[i]? = some r ∧
      r.Recharge_sm + r.Recharge_gwuz = cur.Liquid_in ∧
      (cur.Liquid_in = 0 → r.Recharge_sm = 0 ∧ r.Recharge_gwuz = 0) ∧
      (0 < cur.Liquid_in →
        r.Recharge_gwuz =
          (soilLoop Pow mPars ⌊cur.Liquid_in⌋.toNat (prev.S_soil, 0)).2 +
            (cur.Liquid_in - ⌊cur.Liquid_in⌋) *
              Pow ((soilLoop Pow mPars ⌊cur.Liquid_in⌋.toNat (prev.S_soil, 0)).1 / mPars.FC)
                mPars.BETA ∧
        r.Recharge_sm =
          (soilLoop Pow mPars ⌊cur.Liquid_in⌋.toNat (prev.S_soil, 0)).1 +
            ((cur.Liquid_in - ⌊cur.Liquid_in⌋) -
              (cur.Liquid_in - ⌊cur.Liquid_in⌋) *
                Pow ((soilLoop Pow mPars ⌊cur.Liquid_in⌋.toNat (prev.S_soil, 0)).1 / mPars.FC)
                  mPars.BETA) - prev.S_soil) := by
  have hlt : i < mState.length := (List.getElem?_eq_some.mp hcur).1
  have hs := soilStep_some Pow mPars prev cur inp
  refine ⟨_, _, SoilRoutine_eq hi hprev hcur (by rw [hinp]; exact hs),
    List.getElem?_set_self hlt, ?_, ?_, ?_⟩
  · exact soilRecharge_sum Pow mPars prev.S_soil cur.Liquid_in hL
  · intro h0
    have hn : ¬ cur.Liquid_in > 0 := by rw [h0]; exact lt_irrefl _
    show (soilRecharge Pow mPars prev.S_soil cur.Liquid_in).2.1 = 0 ∧
      (soilRecharge Pow mPars prev.S_soil cur.Liquid_in).2.2 = 0
    unfold soilRecharge
    simp only [if_neg hn, and_self]
  · intro hpos
    show (soilRecharge Pow mPars prev.S_soil cur.Liquid_in).2.2 = _ ∧
      (soilRecharge Pow mPars prev.S_soil cur.Liquid_in).2.1 = _
    unfold soilRecharge
    simp only [if_pos hpos, and_self]

/-- C16: at a step `i ≥ 1`, `SoilRoutine` returns and writes `AET[i] = 0` when
`Snow_cover[i] = 1`, and otherwise `AET[i] = PotentialET[i] * min 1 (m / (LP * FC))`
with `m = S_soil[i-1] + Recharge_sm[i] / 2`; and it writes
`S_soil[i] = S_soil[i-1] - AET[i] + Recharge_sm[i]`. -/
theorem SoilRoutine_AET (Pow : ℚ → ℚ → ℚ) (mState : List ModelState)
    (mPars : Parameters) (inData : List InputData) (i : ℕ) (prev cur : ModelState)
    (inp : InputData)
    (hi : 1 ≤ i) (hprev : mState[i - 1]? = some prev) (hcur : mState[i]? = some cur)
    (hinp : inData[i]? = some inp) :
    ∃ st' r, SoilRoutine Pow mState mPars inData i = some st' ∧ st'[i]? = some r ∧
      r.Snow_cover = cur.Snow_cover ∧
      r.AET = (if cur.Snow_cover = 1 then 0
        else inp.PotentialET *
          min 1 ((prev.S_soil + r.Recharge_sm / 2) / (mPars.LP * mPars.FC))) ∧
      r.S_soil = prev.S_soil - r.AET + r.Recharge_sm := by
  have hlt : i < mState.length := (List.getElem?_eq_some.mp hcur).1
  have hs := soilStep_some Pow mPars prev cur inp
  refine ⟨_, _, SoilRoutine_eq hi hprev hcur (by rw [hinp]; exact hs),
    List.getElem?_set_self hlt, ?_, ?_, ?_⟩
  · rfl
  · have hmid : ((soilRecharge Pow mPars prev.S_soil cur.Liquid_in).1 - prev.S_soil) / 2 +
        prev.S_soil =
        prev.S_soil + (soilRecharge Pow mPars prev.S_soil cur.Liquid_in).2.1 / 2 := by
      rw [soilRecharge_fst]; ring
    show (if cur.Snow_cover = 1 then (0 : ℚ) else _) = _
    rw [hmid, mul_one_div]
  · rfl

/-- C17, witness: an infiltration input of 1/2 mm on a soil storage of 140 mm: no
unit pass and one remainder increment, and the two recharges add up to 1/2. -/
theorem SoilRoutine_conserves_witness :
    ∃ st' r, SoilRoutine powIntegral [soilState 140, infiltrationState (1 / 2)]
        (exampleParameters 2) [exampleInput 0 0 0, exampleInput 0 5 2] 1 = some st' ∧
      st'[1]? = some r ∧ r.Recharge_sm + r.Recharge_gwuz = 1 / 2 := by
  obtain ⟨st', r, h, hr, hsum, _, _⟩ :=
    SoilRoutine_conserves powIntegral [soilState 140, infiltrationState (1 / 2)]
      (exampleParameters 2) [exampleInput 0 0 0, exampleInput 0 5 2] 1 (soilState 140)
      (infiltrationState (1 / 2)) (exampleInput 0 5 2) (le_refl 1) rfl rfl rfl
      (by norm_num [infiltrationState])
  exact ⟨st', r, h, hr, by rw [hsum]; rfl⟩

/-- C16, witness: no snow cover, a soil storage of 70 mm, no infiltration and a
potential evapotranspiration of 2 mm: with `LP * FC = 140` the actual
evapotranspiration is `2 * (70 / 140) = 1` and the soil storage becomes 69. -/
theorem SoilRoutine_AET_witness :
    ∃ st' r, SoilRoutine powIntegral [soilState 70, ModelState.zero]
        (exampleParameters 2) [exampleInput 0 0 0, exampleInput 0 5 2] 1 = some st' ∧
      st'[1]? = some r ∧ r.AET = 1 ∧ r.S_soil = 69 := by
  obtain ⟨st', r, h, hr, _, haet, hsoil⟩ :=
    SoilRoutine_AET powIntegral [soilState 70, ModelState.zero]
      (exampleParameters 2) [exampleInput 0 0 0, exampleInput 0 5 2] 1 (soilState 70)
      ModelState.zero (exampleInput 0 5 2) (le_refl 1) rfl rfl rfl
  have hs := soilStep_some powIntegral (exampleParameters 2) (soilState 70) ModelState.zero
    (exampleInput 0 5 2)
  have h2 : SoilRoutine powIntegral [soilState 70, ModelState.zero]
      (exampleParameters 2) [exampleInput 0 0 0, exampleInput 0 5 2] 1 = some _ :=
    SoilRoutine_eq (le_refl 1) rfl rfl hs
  rw [h] at h2
  cases h2
  have hr2 := Option.some.inj hr
  have hsr : soilRecharge powIntegral (exampleParameters 2) (soilState 70).S_soil
      ModelState.zero.Liquid_in = ((soilState 70).S_soil, 0, 0) := by
    unfold soilRecharge
    simp [ModelState.zero]
  have hrs : r.Recharge_sm = 0 := by
    rw [← hr2]
    show (soilRecharge powIntegral (exampleParameters 2) (soilState 70).S_soil
      ModelState.zero.Liquid_in).2.1 = 0
    rw [hsr]
  have haet1 : r.AET = 1 := by
    rw [haet, hrs]
    norm_num [ModelState.zero, exampleInput, exampleParameters, soilState]
  refine ⟨_, r, h, hr, haet1, ?_⟩
  rw [hsoil, haet1, hrs]
  norm_num [soilState]

/-! ## The loop of the driver over a range of steps -/

/-- The loop of `RunModel` over the steps `m + 1, ..., m + n` runs to its end and
carries an invariant `Inv` indexed by the number of steps done, provided each
pass carries it one step further. -/
theorem RunModel.loop_range (Pow : ℚ → ℚ → ℚ) (mPars : Parameters) (inData : List InputData)
    (maxbas : List ℚ) (Inv : ℕ → List ModelState → Prop)
    (hstep : ∀ m st st', st.length = inData.length → m + 1 < inData.length → Inv m st →
      RunModel.step Pow mPars inData maxbas st (m + 1) = some st' → Inv (m + 1) st') :
    ∀ (n m : ℕ) (mState : List ModelState), mState.length = inData.length →
      m + n < inData.length → Inv m mState →
      ∃ st', RunModel.loop Pow mPars inData maxbas (List.range' (m + 1) n) mState = some st' ∧
        st'.length = inData.length ∧ Inv (m + n) st' := by
  intro n
  induction n with
  | zero =>
    intro m mState hlen _ hinv
    exact ⟨mState, rfl, hlen, hinv⟩
  | succ n ih =>
    intro m mState hlen hmn hinv
    obtain ⟨_, _, _, _, st1, _, _, _, _, hst1, hlen1, _⟩ :=
      RunModel.step_spec Pow mPars inData maxbas mState (m + 1) (by omega) (by omega) hlen
    have hinv1 := hstep m mState st1 hlen (by omega) hinv hst1
    obtain ⟨st', hst', hlen', hinv'⟩ := ih (m + 1) st1 (by omega) (by omega) hinv1
    refine ⟨st', ?_, hlen', ?_⟩
    · rw [List.range'_succ]
      simp only [RunModel.loop, hst1, Option.some_bind]
      exact hst'
    · have : m + (n + 1) = m + 1 + n := by omega
      rw [this]
      exact hinv'

/-- Whatever `RunModel` returns satisfies, with the number `N - 1` of steps, every
invariant that holds of the seeded state and that each pass carries one step
further. -/
theorem RunModel_range_invariant (Pow : ℚ → ℚ → ℚ) (mPars : Parameters)
    (inData : List InputData) (w : List ℚ) (hw : RoutingMaxbasWeights mPars = some w)
    (Inv : ℕ → List ModelState → Prop)
    (h0 : Inv 0 ((List.replicate inData.length ModelState.zero).set 0
      { ModelState.zero with
        S_soil := mPars.FC * mPars.LP, S_gw_slz := mPars.PERC / mPars.K2 }))
    (hstep : ∀ m st st', st.length = inData.length → m + 1 < inData.length → Inv m st →
      RunModel.step Pow mPars inData w st (m + 1) = some st' → Inv (m + 1) st')
    (st : List ModelState) (err : Option GoError)
    (hrun : RunModel Pow mPars inData = some (st, err)) :
    st.length = inData.length ∧ Inv (inData.length - 1) st := by
  obtain ⟨hne, _⟩ := RunModel_some_cases hrun
  have hpos : 0 < inData.length := List.length_pos.mpr hne
  obtain ⟨st', hst', hlen', hinv'⟩ := RunModel.loop_range Pow mPars inData w Inv hstep
    (inData.length - 1) 0 _ (by simp) (by omega) h0
  simp only [RunModel, RunModel.seed_eq mPars inData hne, hw, Option.some_bind] at hrun
  rw [Nat.zero_add] at hst' hinv'
  rw [hst'] at hrun
  simp only [Option.some_bind, Option.some.injEq, Prod.mk.injEq] at hrun
  rw [← hrun.1]
  exact ⟨hlen', hinv'⟩

/-- The snow body does not write `Q_sim`. -/
theorem snowStep_Q_sim (mPars : Parameters) (prev cur : ModelState) (inp : InputData) :
    (snowStep mPars prev cur inp).Q_sim = cur.Q_sim := by
  by_cases hT : inp.Temperature ≤ mPars.TT
  · rw [snowStep_freezing mPars prev cur inp hT]
  · simp only [snowStep, if_neg hT]

/-- The records that one pass of the loop leaves and writes: the records before
step `i` are untouched, record `i` is the one the response body returns up to its
`Q_sim`, and the later records change in `Q_sim` only. -/
theorem RunModel.step_records (Pow : ℚ → ℚ → ℚ) (mPars : Parameters) (inData : List InputData)
    (maxbas : List ℚ) (mState : List ModelState) (i : ℕ)
    (h1 : 1 ≤ i) (hi : i < mState.length) (hlen : mState.length = inData.length) :
    ∃ prev cur inp s2 st', mState[i - 1]? = some prev ∧ mState[i]? = some cur ∧
      inData[i]? = some inp ∧
      soilStep Pow mPars prev (snowStep mPars prev cur inp) (some inp) = some s2 ∧
      RunModel.step Pow mPars inData maxbas mState i = some st' ∧
      st'.length = mState.length ∧
      (∀ k, k < i → st'[k]? = mState[k]?) ∧
      st'[i]? = some { responseStep mPars prev s2 with
        Q_sim := cur.Q_sim +
          (if 0 < maxbas.length then (responseStep mPars prev s2).Q_gw * maxbas.getD 0 0
           else 0) } ∧
      (∀ k r, i < k → mState[k]? = some r →
        st'[k]? = some { r with
          Q_sim := r.Q_sim +
            (if k < i + maxbas.length then
              (responseStep mPars prev s2).Q_gw * maxbas.getD (k - i) 0
             else 0) }) := by
  obtain ⟨prev, cur, inp, s2, st', hprev, hcur, hinp, hs2, hst', hlen', hspec⟩ :=
    RunModel.step_spec Pow mPars inData maxbas mState i h1 hi hlen
  refine ⟨prev, cur, inp, s2, st', hprev, hcur, hinp, hs2, hst', hlen', ?_, ?_, ?_⟩
  · intro k hk
    rw [hspec k, List.getElem?_set_ne (by omega)]
    have hfalse : ¬ (i ≤ k ∧ k < i + maxbas.length) := by omega
    simp only [if_neg hfalse]
    cases mState[k]? <;> rfl
  · rw [hspec i, List.getElem?_set_self hi]
    have hq : (responseStep mPars prev s2).Q_sim = cur.Q_sim := by
      rw [soilStep_some] at hs2
      cases hs2
      exact snowStep_Q_sim mPars prev cur inp
    simp only [Option.map_some', Nat.sub_self, le_refl, true_and, Option.some.injEq]
    by_cases hL : 0 < maxbas.length
    · have hL' : i < i + maxbas.length := by omega
      simp only [if_pos hL, if_pos hL', hq]
    · have hL' : ¬ i < i + maxbas.length := by omega
      simp only [if_neg hL, if_neg hL', add_zero, ← hq]
  · intro k r hk hr
    rw [hspec k, List.getElem?_set_ne (by omega), hr]
    simp only [Option.map_some', Option.some.injEq]
    by_cases hc : k < i + maxbas.length
    · have hc' : i ≤ k ∧ k < i + maxbas.length := ⟨by omega, hc⟩
      simp only [if_pos hc, if_pos hc']
    · have hc' : ¬ (i ≤ k ∧ k < i + maxbas.length) := fun h => hc h.2
      simp only [if_neg hc, if_neg hc', add_zero]

/-- The recurrence of the trajectory: in whatever `RunModel` returns, record `i`
for `1 ≤ i < N` is, up to its `Q_sim`, the record that the snow, soil and response
bodies compute from record `i - 1` of the same trajectory and from `inData[i]`. -/
theorem RunModel_recurrence (Pow : ℚ → ℚ → ℚ) (mPars : Parameters) (inData : List InputData)
    (st : List ModelState) (err : Option GoError)
    (hrun : RunModel Pow mPars inData = some (st, err)) :
    ∀ i, 1 ≤ i → i < inData.length →
      ∃ prev r cur inp s2, st[i - 1]? = some prev ∧ st[i]? = some r ∧
        inData[i]? = some inp ∧
        soilStep Pow mPars prev (snowStep mPars prev cur inp) (some inp) = some s2 ∧
        r = { responseStep mPars prev s2 with Q_sim := r.Q_sim } := by
  obtain ⟨_, hceil⟩ := RunModel_some_cases hrun
  obtain ⟨w, hw⟩ := RoutingMaxbasWeights_isSome mPars hceil
  have key := RunModel_range_invariant Pow mPars inData w hw
    (fun m s => ∀ i, 1 ≤ i → i ≤ m →
      ∃ prev r cur inp s2, s[i - 1]? = some prev ∧ s[i]? = some r ∧
        inData[i]? = some inp ∧
        soilStep Pow mPars prev (snowStep mPars prev cur inp) (some inp) = some s2 ∧
        r = { responseStep mPars prev s2 with Q_sim := r.Q_sim })
    (by intro i h1 h0; omega)
    (by
      intro m s s' hlen hm hinv hstep i h1 him
      obtain ⟨prev, cur, inp, s2, s'', hprev, hcur, hinp, hs2, hs'', _, hlt, hat, _⟩ :=
        RunModel.step_records Pow mPars inData w s (m + 1) (by omega) (by omega) hlen
      rw [hs''] at hstep
      cases hstep
      by_cases hi : i ≤ m
      · obtain ⟨prev', r', cur', inp', s2', a, b, c, d, e⟩ := hinv i h1 hi
        exact ⟨prev', r', cur', inp', s2', by rw [hlt _ (by omega)]; exact a,
          by rw [hlt _ (by omega)]; exact b, c, d, e⟩
      · have him1 : i = m + 1 := by omega
        subst him1
        refine ⟨prev, _, cur, inp, s2, ?_, hat, hinp, hs2, rfl⟩
        rw [hlt _ (by omega)]
        exact hprev)
    st err hrun
  intro i h1 hi
  exact key.2 i h1 (by omega)

/-! ## Water balance -/

/-- The snow body neither creates nor loses water: the new total storage plus
the infiltration input is the previous solid and liquid storage plus snowfall and
rainfall; and the infiltration input is never negative. -/
theorem snowStep_balance (mPars : Parameters) (prev cur : ModelState) (inp : InputData) :
    (snowStep mPars prev cur inp).S_snow + (snowStep mPars prev cur inp).Liquid_in =
        prev.Snow_solid + prev.Snow_liquid + (snowStep mPars prev cur inp).Snowfall +
          (snowStep mPars prev cur inp).Rainfall ∧
      0 ≤ (snowStep mPars prev cur inp).Liquid_in ∧
      (snowStep mPars prev cur inp).S_snow =
        (snowStep mPars prev cur inp).Snow_solid + (snowStep mPars prev cur inp).Snow_liquid := by
  by_cases hT : inp.Temperature ≤ mPars.TT
  · rw [snowStep_freezing mPars prev cur inp hT]
    refine ⟨?_, le_refl _, rfl⟩
    simp only
    ring
  · have hmelt : max (prev.Snow_solid -
        min (max (mPars.CFMAX * (inp.Temperature - mPars.TT)) 0) prev.Snow_solid) 0 =
        prev.Snow_solid -
          min (max (mPars.CFMAX * (inp.Temperature - mPars.TT)) 0) prev.Snow_solid :=
      max_eq_left (sub_nonneg.mpr (min_le_right _ _))
    simp only [snowStep, if_neg hT, hmelt]
    refine ⟨by ring, le_max_right _ _, trivial⟩

/-- The soil body neither creates nor loses water, given a non-negative
infiltration input; it keeps the fluxes that the snow body wrote. -/
theorem soilStep_balance {Pow : ℚ → ℚ → ℚ} {mPars : Parameters} {prev cur s2 : ModelState}
    {inp : InputData} (hs2 : soilStep Pow mPars prev cur (some inp) = some s2)
    (hL : 0 ≤ cur.Liquid_in) :
    s2.S_soil + s2.AET + s2.Recharge_gwuz = prev.S_soil + cur.Liquid_in ∧
      s2.S_snow = cur.S_snow ∧ s2.Snowfall = cur.Snowfall ∧ s2.Rainfall = cur.Rainfall := by
  rw [soilStep_some] at hs2
  cases hs2
  refine ⟨?_, rfl, rfl, rfl⟩
  have hsum := soilRecharge_sum Pow mPars prev.S_soil cur.Liquid_in hL
  simp only
  linarith

/-- The response body neither creates nor loses water; it keeps the fields that
the snow and soil bodies wrote. -/
theorem responseStep_balance (mPars : Parameters) (prev cur : ModelState) :
    (responseStep mPars prev cur).S_gw_suz + (responseStep mPars prev cur).S_gw_slz +
        (responseStep mPars prev cur).Q_gw =
        prev.S_gw_suz + prev.S_gw_slz + cur.Recharge_gwuz ∧
      (responseStep mPars prev cur).S_snow = cur.S_snow ∧
      (responseStep mPars prev cur).S_soil = cur.S_soil ∧
      (responseStep mPars prev cur).AET = cur.AET ∧
      (responseStep mPars prev cur).Snowfall = cur.Snowfall ∧
      (responseStep mPars prev cur).Rainfall = cur.Rainfall := by
  refine ⟨?_, rfl, rfl, rfl, rfl, rfl⟩
  simp only [responseStep]
  ring

/-- In whatever `RunModel` returns, the total snow storage of every record is the
sum of its solid and liquid parts. -/
theorem RunModel_snow_total (Pow : ℚ → ℚ → ℚ) (mPars : Parameters) (inData : List InputData)
    (st : List ModelState) (err : Option GoError)
    (hrun : RunModel Pow mPars inData = some (st, err)) :
    ∀ r ∈ st, r.S_snow = r.Snow_solid + r.Snow_liquid := by
  obtain ⟨hne, hceil⟩ := RunModel_some_cases hrun
  obtain ⟨st', hst', _, hall, _⟩ := RunModel_invariant Pow mPars inData
    (fun r => r.S_snow = r.Snow_solid + r.Snow_liquid)
    (fun _ _ h => h)
    (fun prev cur inp s2 _ _ hs2 => by
      obtain ⟨e1, e2, e3⟩ := pass_snow_fields hs2
      rw [e1, e2, e3]
      exact (snowStep_balance mPars prev cur inp).2.2)
    (by simp [ModelState.zero]) (by simp [ModelState.zero]) hne hceil
  rw [hst'] at hrun
  cases hrun
  exact hall

/-- C19: in whatever `RunModel` returns, for every step `1 ≤ i < N`, the storages
of record `i` plus `AET[i]` and `Q_gw[i]` equal the storages of record `i - 1` plus
`Snowfall[i]` and `Rainfall[i]`, for every parameter set and every input. -/
theorem RunModel_water_balance (Pow : ℚ → ℚ → ℚ) (mPars : Parameters)
    (inData : List InputData) (st : List ModelState) (err : Option GoError)
    (hrun : RunModel Pow mPars inData = some (st, err)) (i : ℕ) (h1 : 1 ≤ i)
    (hi : i < inData.length) :
    ∃ prev r, st[i - 1]? = some prev ∧ st[i]? = some r ∧
      r.S_snow + r.S_soil + r.S_gw_suz + r.S_gw_slz + r.AET + r.Q_gw =
        prev.S_snow + prev.S_soil + prev.S_gw_suz + prev.S_gw_slz + r.Snowfall + r.Rainfall := by
  obtain ⟨prev, r, cur, inp, s2, hprev, hr, _, hs2, hreq⟩ :=
    RunModel_recurrence Pow mPars inData st err hrun i h1 hi
  refine ⟨prev, r, hprev, hr, ?_⟩
  have hsnow : prev.S_snow = prev.Snow_solid + prev.Snow_liquid :=
    RunModel_snow_total Pow mPars inData st err hrun prev
      (List.mem_iff_getElem?.mpr ⟨_, hprev⟩)
  obtain ⟨b1, hL, _⟩ := snowStep_balance mPars prev cur inp
  obtain ⟨b2, c1, c2, c3⟩ := soilStep_balance hs2 hL
  obtain ⟨b3, d1, d2, d3, d4, d5⟩ := responseStep_balance mPars prev s2
  have f1 : r.S_snow = (responseStep mPars prev s2).S_snow := by rw [hreq]
  have f2 : r.S_soil = (responseStep mPars prev s2).S_soil := by rw [hreq]
  have f3 : r.S_gw_suz = (responseStep mPars prev s2).S_gw_suz := by rw [hreq]
  have f4 : r.S_gw_slz = (responseStep mPars prev s2).S_gw_slz := by rw [hreq]
  have f5 : r.AET = (responseStep mPars prev s2).AET := by rw [hreq]
  have f6 : r.Q_gw = (responseStep mPars prev s2).Q_gw := by rw [hreq]
  have f7 : r.Snowfall = (responseStep mPars prev s2).Snowfall := by rw [hreq]
  have f8 : r.Rainfall = (responseStep mPars prev s2).Rainfall := by rw [hreq]
  rw [f1, f2, f3, f4, f5, f6, f7, f8, d1, d2, d3, d4, d5, c1, c2, c3, hsnow]
  linarith

/-- C19, witness: on the golden scenario `RunModel` returns, and the balance
holds at step 1, the step with 10 mm of rain. -/
theorem RunModel_water_balance_witness :
    ∃ st prev r, RunModel powIntegral (exampleParameters 2) exampleSeries = some (st, none) ∧
      st[0]? = some prev ∧ st[1]? = some r ∧
      r.S_snow + r.S_soil + r.S_gw_suz + r.S_gw_slz + r.AET + r.Q_gw =
        prev.S_snow + prev.S_soil + prev.S_gw_suz + prev.S_gw_slz + r.Snowfall + r.Rainfall := by
  obtain ⟨st, hst, _⟩ := RunModel_returns powIntegral (exampleParameters 2) exampleSeries
    (by simp [exampleSeries]) (by rw [show (exampleParameters 2).MAXBAS = 2 from rfl, ceil_two]
                                  norm_num)
  obtain ⟨prev, r, hprev, hr, hbal⟩ :=
    RunModel_water_balance powIntegral (exampleParameters 2) exampleSeries st none hst 1
      (le_refl 1) (by simp [exampleSeries])
  exact ⟨st, prev, r, hst, hprev, hr, hbal⟩

/-! ## Groundwater storages along the run -/

/-- The discharge that `responseStep` writes. -/
theorem responseStep_Q_gw (mPars : Parameters) (prev cur : ModelState) :
    (responseStep mPars prev cur).Q_gw =
      mPars.K2 * (prev.S_gw_slz + min mPars.PERC (prev.S_gw_suz + cur.Recharge_gwuz)) +
        mPars.K1 * (prev.S_gw_suz + cur.Recharge_gwuz -
          min mPars.PERC (prev.S_gw_suz + cur.Recharge_gwuz)) +
        mPars.K0 * max (prev.S_gw_suz + cur.Recharge_gwuz -
          min mPars.PERC (prev.S_gw_suz + cur.Recharge_gwuz) - mPars.UZL) 0 :=
  rfl

/-- With a non-negative recharge and `K0 + K1 ≤ 1`, `K2 ≤ 1`, one pass of the
response body keeps both storages and the discharge non-negative. -/
theorem responseStep_nonneg_recharge (mPars : Parameters) (prev cur : ModelState)
    (hK0 : 0 ≤ mPars.K0) (hK1 : 0 ≤ mPars.K1) (hK01 : mPars.K0 + mPars.K1 ≤ 1)
    (hK2 : 0 ≤ mPars.K2 ∧ mPars.K2 ≤ 1) (hPERC : 0 ≤ mPars.PERC) (hUZL : 0 ≤ mPars.UZL)
    (hR : 0 ≤ cur.Recharge_gwuz) (hsuz : 0 ≤ prev.S_gw_suz) (hslz : 0 ≤ prev.S_gw_slz) :
    0 ≤ (responseStep mPars prev cur).S_gw_suz ∧ 0 ≤ (responseStep mPars prev cur).S_gw_slz ∧
      0 ≤ (responseStep mPars prev cur).Q_gw := by
  obtain ⟨e1, e2⟩ := responseStep_storages mPars prev cur
  rw [e1, e2, responseStep_Q_gw]
  have hin : 0 ≤ prev.S_gw_suz + cur.Recharge_gwuz := add_nonneg hsuz hR
  have hperc : 0 ≤ min mPars.PERC (prev.S_gw_suz + cur.Recharge_gwuz) := le_min hPERC hin
  have hu : 0 ≤ prev.S_gw_suz + cur.Recharge_gwuz -
      min mPars.PERC (prev.S_gw_suz + cur.Recharge_gwuz) := sub_nonneg.mpr (min_le_right _ _)
  have hmax0 : 0 ≤ max (prev.S_gw_suz + cur.Recharge_gwuz -
      min mPars.PERC (prev.S_gw_suz + cur.Recharge_gwuz) - mPars.UZL) 0 := le_max_right _ _
  have hmax : max (prev.S_gw_suz + cur.Recharge_gwuz -
      min mPars.PERC (prev.S_gw_suz + cur.Recharge_gwuz) - mPars.UZL) 0 ≤
      prev.S_gw_suz + cur.Recharge_gwuz -
        min mPars.PERC (prev.S_gw_suz + cur.Recharge_gwuz) := max_le (by linarith) hu
  have hfast : mPars.K0 * max (prev.S_gw_suz + cur.Recharge_gwuz -
      min mPars.PERC (prev.S_gw_suz + cur.Recharge_gwuz) - mPars.UZL) 0 ≤
      mPars.K0 * (prev.S_gw_suz + cur.Recharge_gwuz -
        min mPars.PERC (prev.S_gw_suz + cur.Recharge_gwuz)) :=
    mul_le_mul_of_nonneg_left hmax hK0
  have hlow : 0 ≤ prev.S_gw_slz + min mPars.PERC (prev.S_gw_suz + cur.Recharge_gwuz) :=
    add_nonneg hslz hperc
  refine ⟨?_, ?_, ?_⟩
  · have hprod : 0 ≤ (1 - mPars.K0 - mPars.K1) * (prev.S_gw_suz + cur.Recharge_gwuz -
        min mPars.PERC (prev.S_gw_suz + cur.Recharge_gwuz)) := mul_nonneg (by linarith) hu
    nlinarith
  · have hprod : 0 ≤ (1 - mPars.K2) *
        (prev.S_gw_slz + min mPars.PERC (prev.S_gw_suz + cur.Recharge_gwuz)) :=
      mul_nonneg (by linarith [hK2.2]) hlow
    nlinarith
  · exact add_nonneg (add_nonneg (mul_nonneg hK2.1 hlow) (mul_nonneg hK1 hu))
      (mul_nonneg hK0 hmax0)

/-- With a non-negative `Pow`, the unit passes of the inner loop of `SoilRoutine`
keep the recharge total non-negative. -/
theorem soilLoop_snd_nonneg (Pow : ℚ → ℚ → ℚ) (mPars : Parameters)
    (hPow : ∀ x, 0 ≤ Pow x mPars.BETA) :
    ∀ (n : ℕ) (s t : ℚ), 0 ≤ t → 0 ≤ (soilLoop Pow mPars n (s, t)).2 := by
  intro n
  induction n with
  | zero =>
    intro s t ht
    exact ht
  | succ k ih =>
    intro s t ht
    simp only [soilLoop, one_mul]
    exact ih _ _ (add_nonneg ht (hPow _))

/-- With a non-negative `Pow`, the recharge of the upper zone that `SoilRoutine`
computes is non-negative. -/
theorem soilRecharge_gwuz_nonneg (Pow : ℚ → ℚ → ℚ) (mPars : Parameters)
    (hPow : ∀ x, 0 ≤ Pow x mPars.BETA) (s liquid_in : ℚ) :
    0 ≤ (soilRecharge Pow mPars s liquid_in).2.2 := by
  unfold soilRecharge
  by_cases h : liquid_in > 0
  · simp only [if_pos h]
    exact add_nonneg (soilLoop_snd_nonneg Pow mPars hPow _ _ _ (le_refl _))
      (mul_nonneg (sub_nonneg.mpr (Int.floor_le _)) (hPow _))
  · simp only [if_neg h]
    exact le_refl _

/-- With a non-negative `Pow`, every record of the trajectory that `RunModel`
returns has a non-negative `Recharge_gwuz`. -/
theorem RunModel_recharge_nonneg (Pow : ℚ → ℚ → ℚ) (mPars : Parameters)
    (inData : List InputData) (hPow : ∀ x, 0 ≤ Pow x mPars.BETA)
    (st : List ModelState) (err : Option GoError)
    (hrun : RunModel Pow mPars inData = some (st, err)) :
    ∀ r ∈ st, 0 ≤ r.Recharge_gwuz := by
  obtain ⟨hne, hceil⟩ := RunModel_some_cases hrun
  obtain ⟨st', hst', _, hall, _⟩ := RunModel_invariant Pow mPars inData
    (fun r => 0 ≤ r.Recharge_gwuz)
    (fun _ _ h => h)
    (fun prev cur inp s2 _ _ hs2 => by
      rw [soilStep_some] at hs2
      cases hs2
      exact soilRecharge_gwuz_nonneg Pow mPars hPow _ _)
    (le_refl _) (le_refl _) hne hceil
  rw [hst'] at hrun
  cases hrun
  exact hall

/-- C20: for K0 ≥ 0, K1 ≥ 0, K0 + K1 ≤ 1, 0 ≤ K2 ≤ 1, PERC ≥ 0 and UZL ≥ 0, if
`Recharge_gwuz[i] ≥ 0` and both storages of step `i - 1` are non-negative then
`ResponseRoutine` returns and leaves both storages and `Q_gw[i]` non-negative; and
in whatever `RunModel` returns, both storages of every record are non-negative
whenever every record has a non-negative `Recharge_gwuz`.  The statement on
`RunModel` is for `K2 ≠ 0`: record 0 is seeded with the quotient `PERC / K2`. -/
theorem ResponseRoutine_nonneg_recharge (Pow : ℚ → ℚ → ℚ) (mPars : Parameters)
    (hK0 : 0 ≤ mPars.K0) (hK1 : 0 ≤ mPars.K1) (hK01 : mPars.K0 + mPars.K1 ≤ 1)
    (hK2 : 0 ≤ mPars.K2 ∧ mPars.K2 ≤ 1) (hPERC : 0 ≤ mPars.PERC) (hUZL : 0 ≤ mPars.UZL) :
    (∀ (mState : List ModelState) (i : ℕ) (prev cur : ModelState), 1 ≤ i →
        mState[i - 1]? = some prev → mState[i]? = some cur → 0 ≤ cur.Recharge_gwuz →
        0 ≤ prev.S_gw_suz → 0 ≤ prev.S_gw_slz →
        ∃ st' r, ResponseRoutine mState mPars i = some st' ∧ st'[i]? = some r ∧
          0 ≤ r.S_gw_suz ∧ 0 ≤ r.S_gw_slz ∧ 0 ≤ r.Q_gw) ∧
      (mPars.K2 ≠ 0 →
        ∀ (inData : List InputData) (st : List ModelState) (err : Option GoError),
        RunModel Pow mPars inData = some (st, err) → (∀ r ∈ st, 0 ≤ r.Recharge_gwuz) →
        ∀ r ∈ st, 0 ≤ r.S_gw_suz ∧ 0 ≤ r.S_gw_slz) := by
  constructor
  · intro mState i prev cur hi hprev hcur hR hsuz hslz
    have hlt : i < mState.length := (List.getElem?_eq_some.mp hcur).1
    exact ⟨_, _, ResponseRoutine_eq hi hprev hcur, List.getElem?_set_self hlt,
      responseStep_nonneg_recharge mPars prev cur hK0 hK1 hK01 hK2 hPERC hUZL hR hsuz hslz⟩
  · intro hK2ne inData st err hrun hR
    have hK2pos : 0 < mPars.K2 := lt_of_le_of_ne hK2.1 (Ne.symm hK2ne)
    obtain ⟨hne, hceil⟩ := RunModel_some_cases hrun
    obtain ⟨st', hst', hlen, _, h0⟩ := RunModel_invariant Pow mPars inData (fun _ => True)
      (fun _ _ _ => trivial) (fun _ _ _ _ _ _ _ => trivial) trivial trivial hne hceil
    rw [hst'] at hrun
    cases hrun
    have key : ∀ k, k < inData.length →
        ∃ r, st[k]? = some r ∧ 0 ≤ r.S_gw_suz ∧ 0 ≤ r.S_gw_slz := by
      intro k
      induction k with
      | zero =>
        intro _
        exact ⟨_, h0, le_refl _, div_nonneg hPERC hK2pos.le⟩
      | succ k ih =>
        intro hk
        obtain ⟨p0, hp0, hs, hl⟩ := ih (by omega)
        obtain ⟨prev, r, cur, inp, s2, hprev, hr, _, _, hreq⟩ :=
          RunModel_recurrence Pow mPars inData st none hst' (k + 1) (by omega) hk
        simp only [Nat.add_sub_cancel] at hprev
        rw [hp0] at hprev
        cases hprev
        have hRr : 0 ≤ r.Recharge_gwuz := hR r (List.mem_iff_getElem?.mpr ⟨_, hr⟩)
        have hR2 : 0 ≤ s2.Recharge_gwuz := by
          have : r.Recharge_gwuz = s2.Recharge_gwuz := by rw [hreq]; rfl
          rw [← this]; exact hRr
        obtain ⟨a, b, _⟩ := responseStep_nonneg_recharge mPars p0 s2 hK0 hK1 hK01 hK2 hPERC
          hUZL hR2 hs hl
        refine ⟨r, hr, ?_, ?_⟩
        · have : r.S_gw_suz = (responseStep mPars p0 s2).S_gw_suz := by rw [hreq]
          rw [this]; exact a
        · have : r.S_gw_slz = (responseStep mPars p0 s2).S_gw_slz := by rw [hreq]
          rw [this]; exact b
    intro r hr
    obtain ⟨k, hk⟩ := List.mem_iff_getElem?.mp hr
    have hklt : k < inData.length := by
      rw [← hlen]; exact (List.getElem?_eq_some.mp hk).1
    obtain ⟨r', hr', a, b⟩ := key k hklt
    rw [hk] at hr'
    cases hr'
    exact ⟨a, b⟩

/-- C20, witness: with the golden parameters (K2 = 1/100), a recharge of 3 mm on
the storages 10 and 5 leaves the storages and the discharge non-negative; and on
the golden scenario, with 10 mm of rain at step 1, `RunModel` returns, every
record has a non-negative `Recharge_gwuz`, and both storages of every record are
non-negative. -/
theorem ResponseRoutine_nonneg_recharge_witness :
    (∃ st' r, ResponseRoutine
        [groundwaterState 10 5, { ModelState.zero with Recharge_gwuz := 3 }]
        (exampleParameters 2) 1 = some st' ∧
        st'[1]? = some r ∧ 0 ≤ r.S_gw_suz ∧ 0 ≤ r.S_gw_slz ∧ 0 ≤ r.Q_gw) ∧
      (exampleParameters 2).K2 ≠ 0 ∧
      ∃ st, RunModel powIntegral (exampleParameters 2) exampleSeries = some (st, none) ∧
        (∀ r ∈ st, 0 ≤ r.Recharge_gwuz) ∧ ∀ r ∈ st, 0 ≤ r.S_gw_suz ∧ 0 ≤ r.S_gw_slz := by
  have hK2 : (exampleParameters 2).K2 ≠ 0 := by norm_num [exampleParameters]
  obtain ⟨st, hst, _⟩ := RunModel_returns powIntegral (exampleParameters 2) exampleSeries
    (by simp [exampleSeries]) (by rw [show (exampleParameters 2).MAXBAS = 2 from rfl, ceil_two]
                                  norm_num)
  have hR : ∀ r ∈ st, 0 ≤ r.Recharge_gwuz :=
    RunModel_recharge_nonneg powIntegral (exampleParameters 2) exampleSeries
      (fun x => by
        rw [show (exampleParameters 2).BETA = 2 from rfl, powIntegral_two]
        exact sq_nonneg x)
      st none hst
  have hthm := ResponseRoutine_nonneg_recharge powIntegral (exampleParameters 2)
    (by norm_num [exampleParameters]) (by norm_num [exampleParameters])
    (by norm_num [exampleParameters]) (by norm_num [exampleParameters])
    (by norm_num [exampleParameters]) (by norm_num [exampleParameters])
  exact ⟨hthm.1 [groundwaterState 10 5, { ModelState.zero with Recharge_gwuz := 3 }] 1
      (groundwaterState 10 5) { ModelState.zero with Recharge_gwuz := 3 }
      (le_refl 1) rfl rfl (by norm_num) (by norm_num [groundwaterState])
      (by norm_num [groundwaterState]),
    hK2, st, hst, hR, hthm.2 hK2 exampleSeries st none hst hR⟩

/-! ## Soil storage along the run -/

/-- One pass of the soil body keeps the soil storage non-negative when the
potential evapotranspiration is at most `LP * FC` and the storage gain is not
negative. -/
theorem soilStep_S_soil_nonneg {Pow : ℚ → ℚ → ℚ} {mPars : Parameters}
    {prev cur s2 : ModelState} {inp : InputData}
    (hs2 : soilStep Pow mPars prev cur (some inp) = some s2)
    (hFC : 0 < mPars.FC) (hLP : 0 < mPars.LP)
    (hPET : 0 ≤ inp.PotentialET ∧ inp.PotentialET ≤ mPars.LP * mPars.FC)
    (hS : 0 ≤ prev.S_soil) (hR : 0 ≤ s2.Recharge_sm) : 0 ≤ s2.S_soil := by
  rw [soilStep_some] at hs2
  cases hs2
  simp only at hR ⊢
  have hfst := soilRecharge_fst Pow mPars prev.S_soil cur.Liquid_in
  by_cases hc : cur.Snow_cover = 1
  · simp only [if_pos hc]
    linarith
  · simp only [if_neg hc]
    have hd : 0 < mPars.LP * mPars.FC := mul_pos hLP hFC
    have hm : 0 ≤ ((soilRecharge Pow mPars prev.S_soil cur.Liquid_in).1 - prev.S_soil) / 2 +
        prev.S_soil := by rw [hfst]; linarith
    have hle : inp.PotentialET * min 1
        ((((soilRecharge Pow mPars prev.S_soil cur.Liquid_in).1 - prev.S_soil) / 2 +
          prev.S_soil) * (1 / (mPars.LP * mPars.FC))) ≤
        ((soilRecharge Pow mPars prev.S_soil cur.Liquid_in).1 - prev.S_soil) / 2 +
          prev.S_soil := by
      calc inp.PotentialET * min 1
            ((((soilRecharge Pow mPars prev.S_soil cur.Liquid_in).1 - prev.S_soil) / 2 +
              prev.S_soil) * (1 / (mPars.LP * mPars.FC)))
          ≤ inp.PotentialET *
            ((((soilRecharge Pow mPars prev.S_soil cur.Liquid_in).1 - prev.S_soil) / 2 +
              prev.S_soil) * (1 / (mPars.LP * mPars.FC))) :=
            mul_le_mul_of_nonneg_left (min_le_right _ _) hPET.1
        _ ≤ (mPars.LP * mPars.FC) *
            ((((soilRecharge Pow mPars prev.S_soil cur.Liquid_in).1 - prev.S_soil) / 2 +
              prev.S_soil) * (1 / (mPars.LP * mPars.FC))) :=
            mul_le_mul_of_nonneg_right hPET.2
              (mul_nonneg hm (by positivity))
        _ = ((soilRecharge Pow mPars prev.S_soil cur.Liquid_in).1 - prev.S_soil) / 2 +
              prev.S_soil := by
            field_simp
            ring
    linarith

/-- The snow cover flag that the snow body writes. -/
theorem snowStep_Snow_cover (mPars : Parameters) (prev cur : ModelState) (inp : InputData) :
    (snowStep mPars prev cur inp).Snow_cover = if prev.Snow_solid > 0 then 1 else 0 := by
  by_cases hT : inp.Temperature ≤ mPars.TT
  · rw [snowStep_freezing mPars prev cur inp hT]
  · simp only [snowStep, if_neg hT]

/-- With no precipitation and no snow to melt, the snow body releases no
infiltration input. -/
theorem snowStep_zero_Liquid_in (mPars : Parameters) (prev cur : ModelState) (inp : InputData)
    (hP : inp.Precipitation = 0)
    (hs : prev.Snow_solid ≤ 0) (hl : prev.Snow_solid + prev.Snow_liquid = 0) :
    (snowStep mPars prev cur inp).Liquid_in = 0 := by
  by_cases hT : inp.Temperature ≤ mPars.TT
  · rw [snowStep_freezing mPars prev cur inp hT]
  · have hmelt : min (max (mPars.CFMAX * (inp.Temperature - mPars.TT)) 0) prev.Snow_solid =
        prev.Snow_solid := min_eq_right (le_trans hs (le_max_right _ _))
    have hliq : prev.Snow_liquid + prev.Snow_solid = 0 := by linarith
    simp only [snowStep, if_neg hT, hmelt, hP, add_zero, sub_self, max_self, zero_mul, hliq]

/-- Without infiltration input the soil body writes no recharge. -/
theorem soilStep_no_infiltration {Pow : ℚ → ℚ → ℚ} {mPars : Parameters}
    {prev cur s2 : ModelState} {inp : InputData}
    (hs2 : soilStep Pow mPars prev cur (some inp) = some s2) (hL : cur.Liquid_in = 0) :
    s2.Recharge_sm = 0 ∧ s2.Recharge_gwuz = 0 ∧
      s2.AET = (if cur.Snow_cover = 1 then 0
        else inp.PotentialET * min 1 (prev.S_soil * (1 / (mPars.LP * mPars.FC)))) ∧
      s2.S_soil = prev.S_soil - s2.AET := by
  rw [soilStep_some] at hs2
  cases hs2
  have hsr : soilRecharge Pow mPars prev.S_soil cur.Liquid_in = (prev.S_soil, 0, 0) := by
    unfold soilRecharge
    rw [hL]
    simp
  simp only [hsr, sub_self, zero_div, zero_add, add_zero, and_self]

/-- With zero precipitation at every step, every record of the trajectory has a
zero `Recharge_sm`. -/
theorem RunModel_dry_recharge (Pow : ℚ → ℚ → ℚ) (mPars : Parameters) (inData : List InputData)
    (hP : ∀ d ∈ inData, d.Precipitation = 0)
    (st : List ModelState) (err : Option GoError)
    (hrun : RunModel Pow mPars inData = some (st, err)) :
    ∀ r ∈ st, r.Recharge_sm = 0 := by
  obtain ⟨hne, hceil⟩ := RunModel_some_cases hrun
  obtain ⟨st', hst', _, hall, _⟩ := RunModel_invariant Pow mPars inData
    (fun r => r.Snow_solid ≤ 0 ∧ r.Snow_solid + r.Snow_liquid = 0 ∧ r.Recharge_sm = 0)
    (fun _ _ h => h)
    (fun prev cur inp s2 hprev hinp hs2 => by
      obtain ⟨e1, e2, _⟩ := pass_snow_fields hs2
      obtain ⟨z1, z2, _⟩ := snowStep_zero mPars prev cur inp (hP inp hinp) hprev.1 hprev.2.1
      have hL := snowStep_zero_Liquid_in mPars prev cur inp (hP inp hinp) hprev.1 hprev.2.1
      refine ⟨by rw [e1]; exact z1, by rw [e1, e2]; exact z2, ?_⟩
      exact (soilStep_no_infiltration hs2 hL).1)
    ⟨le_refl _, add_zero _, rfl⟩ ⟨le_refl _, add_zero _, rfl⟩ hne hceil
  rw [hst'] at hrun
  cases hrun
  exact fun r hr => (hall r hr).2.2

/-! ## Soil storage between zero and the field capacity -/

/-- The unit passes of the inner loop of `SoilRoutine` keep the soil storage
between its entry value and FC, when `Pow x BETA` lies between `1 - FC * (1 - x)`
and 1 for `x` in `[0, 1]`: one unit increment cannot take the storage past FC. -/
theorem soilLoop_bounds (Pow : ℚ → ℚ → ℚ) (mPars : Parameters) (hFC : 0 < mPars.FC)
    (hPow : ∀ x, 0 ≤ x → x ≤ 1 →
      1 - mPars.FC * (1 - x) ≤ Pow x mPars.BETA ∧ Pow x mPars.BETA ≤ 1) :
    ∀ (n : ℕ) (s t : ℚ), 0 ≤ s → s ≤ mPars.FC →
      s ≤ (soilLoop Pow mPars n (s, t)).1 ∧ (soilLoop Pow mPars n (s, t)).1 ≤ mPars.FC := by
  intro n
  induction n with
  | zero =>
    intro s t _ hs
    exact ⟨le_refl _, hs⟩
  | succ k ih =>
    intro s t hs0 hs
    obtain ⟨p1, p2⟩ := hPow (s / mPars.FC) (div_nonneg hs0 hFC.le) ((div_le_one hFC).mpr hs)
    have hx : mPars.FC * (1 - s / mPars.FC) = mPars.FC - s := by
      field_simp
    rw [hx] at p1
    simp only [soilLoop, one_mul]
    obtain ⟨a, b⟩ := ih (s + (1 - Pow (s / mPars.FC) mPars.BETA))
      (t + Pow (s / mPars.FC) mPars.BETA) (by linarith) (by linarith)
    exact ⟨by linarith, b⟩

/-- The first half of `SoilRoutine` keeps the soil storage between its entry value
and FC, under the same bounds on `Pow`. -/
theorem soilRecharge_bounds (Pow : ℚ → ℚ → ℚ) (mPars : Parameters) (hFC : 0 < mPars.FC)
    (hPow : ∀ x, 0 ≤ x → x ≤ 1 →
      1 - mPars.FC * (1 - x) ≤ Pow x mPars.BETA ∧ Pow x mPars.BETA ≤ 1)
    (s liquid_in : ℚ) (hs0 : 0 ≤ s) (hs : s ≤ mPars.FC) :
    s ≤ (soilRecharge Pow mPars s liquid_in).1 ∧
      (soilRecharge Pow mPars s liquid_in).1 ≤ mPars.FC := by
  unfold soilRecharge
  by_cases h : liquid_in > 0
  · simp only [if_pos h]
    obtain ⟨a, b⟩ := soilLoop_bounds Pow mPars hFC hPow ⌊liquid_in⌋.toNat s 0 hs0 hs
    have hd0 : 0 ≤ liquid_in - (⌊liquid_in⌋ : ℚ) := sub_nonneg.mpr (Int.floor_le _)
    have hd1 : liquid_in - (⌊liquid_in⌋ : ℚ) ≤ 1 := by
      have := (Int.lt_floor_add_one liquid_in).le
      linarith
    obtain ⟨p1, p2⟩ := hPow ((soilLoop Pow mPars ⌊liquid_in⌋.toNat (s, 0)).1 / mPars.FC)
      (div_nonneg (le_trans hs0 a) hFC.le) ((div_le_one hFC).mpr b)
    have hx : mPars.FC * (1 - (soilLoop Pow mPars ⌊liquid_in⌋.toNat (s, 0)).1 / mPars.FC) =
        mPars.FC - (soilLoop Pow mPars ⌊liquid_in⌋.toNat (s, 0)).1 := by
      field_simp
    rw [hx] at p1
    have hgain : 0 ≤ (liquid_in - (⌊liquid_in⌋ : ℚ)) *
        (1 - Pow ((soilLoop Pow mPars ⌊liquid_in⌋.toNat (s, 0)).1 / mPars.FC) mPars.BETA) :=
      mul_nonneg hd0 (by linarith)
    have hcap : (liquid_in - (⌊liquid_in⌋ : ℚ)) *
        (1 - Pow ((soilLoop Pow mPars ⌊liquid_in⌋.toNat (s, 0)).1 / mPars.FC) mPars.BETA) ≤
        1 - Pow ((soilLoop Pow mPars ⌊liquid_in⌋.toNat (s, 0)).1 / mPars.FC) mPars.BETA :=
      mul_le_of_le_one_left (by linarith) hd1
    constructor <;> nlinarith
  · simp only [if_neg h]
    exact ⟨le_refl _, hs⟩

/-- One pass of the soil body keeps the soil storage between 0 and FC, when the
potential evapotranspiration lies between 0 and `LP * FC`. -/
theorem soilStep_bounds {Pow : ℚ → ℚ → ℚ} {mPars : Parameters}
    {prev cur s2 : ModelState} {inp : InputData}
    (hs2 : soilStep Pow mPars prev cur (some inp) = some s2)
    (hFC : 0 < mPars.FC) (hLP : 0 < mPars.LP)
    (hPow : ∀ x, 0 ≤ x → x ≤ 1 →
      1 - mPars.FC * (1 - x) ≤ Pow x mPars.BETA ∧ Pow x mPars.BETA ≤ 1)
    (hPET : 0 ≤ inp.PotentialET ∧ inp.PotentialET ≤ mPars.LP * mPars.FC)
    (hS0 : 0 ≤ prev.S_soil) (hS : prev.S_soil ≤ mPars.FC) :
    0 ≤ s2.S_soil ∧ s2.S_soil ≤ mPars.FC := by
  obtain ⟨a, b⟩ := soilRecharge_bounds Pow mPars hFC hPow prev.S_soil cur.Liquid_in hS0 hS
  have hfst := soilRecharge_fst Pow mPars prev.S_soil cur.Liquid_in
  have hR : 0 ≤ s2.Recharge_sm := by
    have h := hs2
    rw [soilStep_some] at h
    rw [← Option.some.inj h]
    show 0 ≤ (soilRecharge Pow mPars prev.S_soil cur.Liquid_in).2.1
    linarith
  refine ⟨soilStep_S_soil_nonneg hs2 hFC hLP hPET hS0 hR, ?_⟩
  rw [soilStep_some] at hs2
  cases hs2
  show prev.S_soil - (if cur.Snow_cover = 1 then (0 : ℚ) else _) +
    (soilRecharge Pow mPars prev.S_soil cur.Liquid_in).2.1 ≤ mPars.FC
  by_cases hc : cur.Snow_cover = 1
  · rw [if_pos hc]
    linarith
  · rw [if_neg hc]
    have hd : 0 < mPars.LP * mPars.FC := mul_pos hLP hFC
    have hm : 0 ≤ ((soilRecharge Pow mPars prev.S_soil cur.Liquid_in).1 - prev.S_soil) / 2 +
        prev.S_soil := by linarith
    have haet : 0 ≤ inp.PotentialET * min 1
        ((((soilRecharge Pow mPars prev.S_soil cur.Liquid_in).1 - prev.S_soil) / 2 +
          prev.S_soil) * (1 / (mPars.LP * mPars.FC))) :=
      mul_nonneg hPET.1 (le_min zero_le_one (mul_nonneg hm (by positivity)))
    linarith

/-- Bernoulli: at a whole exponent `b ≤ FC`, `powIntegral x b` lies between
`1 - FC * (1 - x)` and 1 for `x` in `[0, 1]`. -/
theorem powIntegral_bounds (b : ℕ) (FC : ℚ) (hb : (b : ℚ) ≤ FC) (x : ℚ) (h0 : 0 ≤ x)
    (h1 : x ≤ 1) :
    1 - FC * (1 - x) ≤ powIntegral x b ∧ powIntegral x b ≤ 1 := by
  have hp : powIntegral x b = x ^ b := by
    simp only [powIntegral, Int.floor_natCast]
    norm_cast
  rw [hp]
  constructor
  · have hbern := one_add_mul_le_pow (show (-2 : ℚ) ≤ x - 1 by linarith) b
    rw [show 1 + (x - 1) = x by ring] at hbern
    have : (b : ℚ) * (1 - x) ≤ FC * (1 - x) := mul_le_mul_of_nonneg_right hb (by linarith)
    linarith
  · exact pow_le_one₀ h0 h1

/-- C14 (as amended): for parameters with FC > 0 and 0 < LP ≤ 1, a `Pow` with
`1 - FC * (1 - x) ≤ Pow x BETA ≤ 1` for `x` in `[0, 1]` (a unit increment cannot
take the soil past FC), and an input with `0 ≤ PotentialET ≤ LP * FC` at every
step, every record of the trajectory that `RunModel` returns has
`0 ≤ S_soil ≤ FC`. -/
theorem RunModel_soil_nonneg (Pow : ℚ → ℚ → ℚ) (mPars : Parameters) (inData : List InputData)
    (hFC : 0 < mPars.FC) (hLP : 0 < mPars.LP ∧ mPars.LP ≤ 1)
    (hPow : ∀ x, 0 ≤ x → x ≤ 1 →
      1 - mPars.FC * (1 - x) ≤ Pow x mPars.BETA ∧ Pow x mPars.BETA ≤ 1)
    (hPET : ∀ d ∈ inData, 0 ≤ d.PotentialET ∧ d.PotentialET ≤ mPars.LP * mPars.FC)
    (st : List ModelState) (err : Option GoError)
    (hrun : RunModel Pow mPars inData = some (st, err)) :
    ∀ r ∈ st, 0 ≤ r.S_soil ∧ r.S_soil ≤ mPars.FC := by
  obtain ⟨hne, hceil⟩ := RunModel_some_cases hrun
  obtain ⟨st', hst', _, hall, _⟩ := RunModel_invariant Pow mPars inData
    (fun r => 0 ≤ r.S_soil ∧ r.S_soil ≤ mPars.FC)
    (fun _ _ h => h)
    (fun prev cur inp s2 hprev hinp hs2 => by
      have h : 0 ≤ s2.S_soil ∧ s2.S_soil ≤ mPars.FC :=
        soilStep_bounds hs2 hFC hLP.1 hPow (hPET inp hinp) hprev.1 hprev.2
      exact h)
    ⟨le_refl _, hFC.le⟩
    ⟨mul_nonneg hFC.le hLP.1.le, by
      show mPars.FC * mPars.LP ≤ mPars.FC
      nlinarith [hLP.2]⟩
    hne hceil
  rw [hst'] at hrun
  cases hrun
  exact hall

/-- C14, witness: on the golden scenario, with 10 mm of rain at step 1, BETA = 2
and FC = 200, `RunModel` returns and every record has `0 ≤ S_soil ≤ 200`. -/
theorem RunModel_soil_nonneg_witness :
    ∃ st, RunModel powIntegral (exampleParameters 2) exampleSeries = some (st, none) ∧
      st.length = 3 ∧ ∀ r ∈ st, 0 ≤ r.S_soil ∧ r.S_soil ≤ 200 := by
  obtain ⟨st, hst, hlen⟩ := RunModel_returns powIntegral (exampleParameters 2) exampleSeries
    (by simp [exampleSeries]) (by rw [show (exampleParameters 2).MAXBAS = 2 from rfl, ceil_two]
                                  norm_num)
  refine ⟨st, hst, hlen, ?_⟩
  exact RunModel_soil_nonneg powIntegral (exampleParameters 2) exampleSeries
    (by norm_num [exampleParameters]) (by norm_num [exampleParameters])
    (fun x h0 h1 => powIntegral_bounds 2 200 (by norm_num) x h0 h1)
    (by
      intro d hd
      simp only [exampleSeries, exampleInput, List.mem_cons, List.mem_singleton,
        List.mem_nil_iff, or_false] at hd
      rcases hd with rfl | rfl | rfl <;> norm_num [exampleParameters])
    st none hst

/-- C14, counterexample: the golden parameters (FC = 200, LP = 7/10, BETA = 2) and
two records without precipitation, the second with a potential
evapotranspiration of 1000 mm: there is no snow cover, the mean soil moisture
140 equals `LP * FC`, so `AET[1] = 1000` and `S_soil[1] = 140 - 1000 = -860`. -/
theorem RunModel_soil_nonneg_counterexample :
    (∀ d ∈ thirstySeries, 0 ≤ d.Precipitation ∧ 0 ≤ d.PotentialET) ∧
      0 < (exampleParameters 2).FC ∧
      (0 < (exampleParameters 2).LP ∧ (exampleParameters 2).LP ≤ 1) ∧
      0 < (exampleParameters 2).BETA ∧
      (0 ≤ (exampleParameters 2).SFCF ∧ 0 ≤ (exampleParameters 2).CFMAX ∧
        0 ≤ (exampleParameters 2).CFR ∧ 0 ≤ (exampleParameters 2).CWH) ∧
      ∃ st r, RunModel powIntegral (exampleParameters 2) thirstySeries = some (st, none) ∧
        st[1]? = some r ∧ r.S_soil = (-860 : ℚ) ∧ r.S_soil < 0 := by
  refine ⟨?_, by norm_num [exampleParameters], by norm_num [exampleParameters],
    by norm_num [exampleParameters], by norm_num [exampleParameters], ?_⟩
  · intro d hd
    simp only [thirstySeries, exampleInput, List.mem_cons, List.mem_singleton,
      List.mem_nil_iff, or_false] at hd
    rcases hd with rfl | rfl <;> norm_num
  obtain ⟨st, hst, _, _, h0⟩ := RunModel_invariant powIntegral (exampleParameters 2)
    thirstySeries (fun _ => True) (fun _ _ _ => trivial) (fun _ _ _ _ _ _ _ => trivial)
    trivial trivial (by simp [thirstySeries])
    (by rw [show (exampleParameters 2).MAXBAS = 2 from rfl, ceil_two]; norm_num)
  obtain ⟨prev, r, cur, inp, s2, hprev, hr, hinp, hs2, hreq⟩ :=
    RunModel_recurrence powIntegral (exampleParameters 2) thirstySeries st none hst 1
      (le_refl 1) (by simp [thirstySeries])
  simp only [Nat.sub_self] at hprev
  rw [h0] at hprev
  cases hprev
  have hinp' : inp = exampleInput 0 5 1000 := by
    have : thirstySeries[1]? = some (exampleInput 0 5 1000) := rfl
    rw [this] at hinp
    exact (Option.some.inj hinp).symm
  subst hinp'
  have hL := snowStep_zero_Liquid_in (exampleParameters 2)
    { ModelState.zero with
      S_soil := (exampleParameters 2).FC * (exampleParameters 2).LP,
      S_gw_slz := (exampleParameters 2).PERC / (exampleParameters 2).K2 }
    cur (exampleInput 0 5 1000) rfl (le_refl _) (add_zero _)
  have hcover := snowStep_Snow_cover (exampleParameters 2)
    { ModelState.zero with
      S_soil := (exampleParameters 2).FC * (exampleParameters 2).LP,
      S_gw_slz := (exampleParameters 2).PERC / (exampleParameters 2).K2 }
    cur (exampleInput 0 5 1000)
  obtain ⟨_, _, haet, hsoil⟩ := soilStep_no_infiltration hs2 hL
  have hval : r.S_soil = -860 := by
    have : r.S_soil = s2.S_soil := by rw [hreq]; rfl
    rw [this, hsoil, haet, hcover]
    norm_num [ModelState.zero, exampleInput, exampleParameters]
  exact ⟨st, r, hst, hr, hval, by rw [hval]; norm_num⟩

/-! ## Simulated runoff as a convolution -/

/-- The sum over the source steps `i` of the contributions to slot `k` is the sum
over the weight indices `j = k - i`. -/
theorem routed_reindex (w : List ℚ) (q : ℕ → ℚ) (N k : ℕ) (hk : k < N) :
    (∑ i ∈ Finset.range N,
        if 1 ≤ i ∧ i ≤ k ∧ k - i < w.length then w.getD (k - i) 0 * q i else 0) =
      ∑ j ∈ Finset.range w.length, if j + 1 ≤ k then w.getD j 0 * q (k - j) else 0 := by
  rw [← Finset.sum_filter, ← Finset.sum_filter]
  refine Finset.sum_nbij' (fun i => k - i) (fun j => k - j) ?_ ?_ ?_ ?_ ?_
  · intro i hi
    simp only [Finset.mem_filter, Finset.mem_range] at hi ⊢
    omega
  · intro j hj
    simp only [Finset.mem_filter, Finset.mem_range] at hj ⊢
    omega
  · intro i hi
    simp only [Finset.mem_filter, Finset.mem_range] at hi
    show k - (k - i) = i
    omega
  · intro j hj
    simp only [Finset.mem_filter, Finset.mem_range] at hj
    show k - (k - j) = j
    omega
  · intro i hi
    simp only [Finset.mem_filter, Finset.mem_range] at hi
    have : k - (k - i) = i := by omega
    simp only [this]

/-- The weights with which step `i` reaches the slots `k < N` are the first
`min (len w) (N - i)` weights. -/
theorem routed_total_weight (w : List ℚ) (N i : ℕ) :
    (∑ k ∈ Finset.range N, if i ≤ k ∧ k - i < w.length then w.getD (k - i) 0 else 0) =
      ∑ j ∈ Finset.range (min w.length (N - i)), w.getD j 0 := by
  rw [← Finset.sum_filter]
  refine Finset.sum_nbij' (fun k => k - i) (fun j => i + j) ?_ ?_ ?_ ?_ ?_
  · intro k hk
    simp only [Finset.mem_filter, Finset.mem_range, lt_min_iff] at hk ⊢
    omega
  · intro j hj
    simp only [Finset.mem_filter, Finset.mem_range, lt_min_iff] at hj ⊢
    omega
  · intro k hk
    simp only [Finset.mem_filter, Finset.mem_range] at hk
    show i + (k - i) = k
    omega
  · intro j _
    show i + j - i = j
    omega
  · intro k _
    rfl

theorem getD_congr {l l' : List ModelState} {n : ℕ} (h : l'[n]? = l[n]?) (d : ModelState) :
    l'.getD n d = l.getD n d := by
  simp only [List.getD_eq_getElem?_getD, h]

/-- After `m` passes of the loop, `Q_sim[k]` is the sum of the contributions of
the steps `1, ..., m`. -/
theorem RunModel_runoff_steps (Pow : ℚ → ℚ → ℚ) (mPars : Parameters)
    (inData : List InputData) (w : List ℚ) (hw : RoutingMaxbasWeights mPars = some w)
    (st : List ModelState) (err : Option GoError)
    (hrun : RunModel Pow mPars inData = some (st, err)) :
    ∀ k, k < inData.length → ∃ r, st[k]? = some r ∧
      r.Q_sim = ∑ i ∈ Finset.range (inData.length - 1 + 1),
        if 1 ≤ i ∧ i ≤ k ∧ k - i < w.length then
          w.getD (k - i) 0 * (st.getD i ModelState.zero).Q_gw
        else 0 := by
  have key := RunModel_range_invariant Pow mPars inData w hw
    (fun m s => ∀ k, k < inData.length → ∃ r, s[k]? = some r ∧
      r.Q_sim = ∑ i ∈ Finset.range (m + 1),
        if 1 ≤ i ∧ i ≤ k ∧ k - i < w.length then
          w.getD (k - i) 0 * (s.getD i ModelState.zero).Q_gw
        else 0)
    (by
      intro k hk
      have hget : ∀ r0 : ModelState, r0.Q_sim = 0 →
          ((List.replicate inData.length ModelState.zero).set 0 r0)[k]? = some
            (if k = 0 then r0 else ModelState.zero) := by
        intro r0 _
        by_cases h0 : k = 0
        · subst h0
          rw [List.getElem?_set_self (by simpa using hk)]
          simp
        · rw [List.getElem?_set_ne (Ne.symm h0), List.getElem?_replicate_of_lt hk, if_neg h0]
      refine ⟨_, hget _ rfl, ?_⟩
      have hz : (if k = 0 then ({ ModelState.zero with
          S_soil := mPars.FC * mPars.LP, S_gw_slz := mPars.PERC / mPars.K2 } : ModelState)
          else ModelState.zero).Q_sim = 0 := by
        split_ifs <;> rfl
      rw [hz]
      symm
      apply Finset.sum_eq_zero
      intro i hi
      simp only [Finset.mem_range] at hi
      have : ¬ (1 ≤ i ∧ i ≤ k ∧ k - i < w.length) := by omega
      rw [if_neg this])
    (by
      intro m s s' hlen hm hinv hstep k hk
      obtain ⟨prev, cur, inp, s2, s'', hprev, hcur, hinp, hs2, hs'', _, hlt, hat, hgt⟩ :=
        RunModel.step_records Pow mPars inData w s (m + 1) (by omega) (by omega) hlen
      rw [hs''] at hstep
      cases hstep
      obtain ⟨r, hr, hrq⟩ := hinv k hk
      have hold : ∀ i ∈ Finset.range (m + 1),
          (if 1 ≤ i ∧ i ≤ k ∧ k - i < w.length then
            w.getD (k - i) 0 * (s'.getD i ModelState.zero).Q_gw else 0) =
          (if 1 ≤ i ∧ i ≤ k ∧ k - i < w.length then
            w.getD (k - i) 0 * (s.getD i ModelState.zero).Q_gw else 0) := by
        intro i hi
        simp only [Finset.mem_range] at hi
        rw [getD_congr (hlt i hi)]
      have hnew : (s'.getD (m + 1) ModelState.zero).Q_gw = (responseStep mPars prev s2).Q_gw := by
        simp only [List.getD_eq_getElem?_getD, hat, Option.getD_some]
      rw [Finset.sum_range_succ, Finset.sum_congr rfl hold, hnew]
      rcases Nat.lt_trichotomy k (m + 1) with hlt' | heq | hgt'
      · refine ⟨r, by rw [hlt k hlt']; exact hr, ?_⟩
        have : ¬ (1 ≤ m + 1 ∧ m + 1 ≤ k ∧ k - (m + 1) < w.length) := by omega
        rw [if_neg this, add_zero]
        exact hrq
      · subst heq
        rw [hcur] at hr
        cases hr
        refine ⟨_, hat, ?_⟩
        simp only [Nat.sub_self]
        by_cases hL : 0 < w.length
        · have : 1 ≤ m + 1 ∧ m + 1 ≤ m + 1 ∧ 0 < w.length := ⟨by omega, le_refl _, hL⟩
          rw [if_pos hL, if_pos this, hrq]
          ring
        · have : ¬ (1 ≤ m + 1 ∧ m + 1 ≤ m + 1 ∧ 0 < w.length) := fun h => hL h.2.2
          rw [if_neg hL, if_neg this, hrq]
      · refine ⟨_, hgt k r hgt' hr, ?_⟩
        simp only
        by_cases hc : k < m + 1 + w.length
        · have : 1 ≤ m + 1 ∧ m + 1 ≤ k ∧ k - (m + 1) < w.length := by omega
          rw [if_pos hc, if_pos this, hrq]
          ring
        · have : ¬ (1 ≤ m + 1 ∧ m + 1 ≤ k ∧ k - (m + 1) < w.length) := by omega
          rw [if_neg hc, if_neg this, hrq])
    st err hrun
  exact key.2

/-- C18: in whatever `RunModel` returns for N records, with `w` the weight vector
of length L, every `Q_sim[k]`, `k < N`, is the sum over `j < L` with `k - j ≥ 1`
(written `j + 1 ≤ k`) of `w[j] * Q_gw[k - j]`; `Q_sim[0] = 0`; and the `Q_sim` of
the whole trajectory add up to the sum over the steps `i ≥ 1` of `Q_gw[i]` times
the total of the first `min L (N - i)` weights. -/
theorem RunModel_runoff_convolution (Pow : ℚ → ℚ → ℚ) (mPars : Parameters)
    (inData : List InputData) (st : List ModelState) (err : Option GoError)
    (hrun : RunModel Pow mPars inData = some (st, err)) :
    ∃ w, RoutingMaxbasWeights mPars = some w ∧
      (∀ k, k < inData.length → ∃ r, st[k]? = some r ∧
        r.Q_sim = ∑ j ∈ Finset.range w.length,
          if j + 1 ≤ k then w.getD j 0 * (st.getD (k - j) ModelState.zero).Q_gw else 0) ∧
      (∃ r0, st[0]? = some r0 ∧ r0.Q_sim = 0) ∧
      (∑ k ∈ Finset.range inData.length, (st.getD k ModelState.zero).Q_sim =
        ∑ i ∈ Finset.range inData.length,
          if 1 ≤ i then
            (st.getD i ModelState.zero).Q_gw *
              ∑ j ∈ Finset.range (min w.length (inData.length - i)), w.getD j 0
          else 0) := by
  obtain ⟨hne, hceil⟩ := RunModel_some_cases hrun
  have hpos : 0 < inData.length := List.length_pos.mpr hne
  obtain ⟨w, hw⟩ := RoutingMaxbasWeights_isSome mPars hceil
  have hsteps := RunModel_runoff_steps Pow mPars inData w hw st err hrun
  have hN : inData.length - 1 + 1 = inData.length := by omega
  rw [hN] at hsteps
  have hconv : ∀ k, k < inData.length → ∃ r, st[k]? = some r ∧
      r.Q_sim = ∑ j ∈ Finset.range w.length,
        if j + 1 ≤ k then w.getD j 0 * (st.getD (k - j) ModelState.zero).Q_gw else 0 := by
    intro k hk
    obtain ⟨r, hr, hq⟩ := hsteps k hk
    refine ⟨r, hr, ?_⟩
    rw [hq]
    exact routed_reindex w (fun n => (st.getD n ModelState.zero).Q_gw) inData.length k hk
  refine ⟨w, hw, hconv, ?_, ?_⟩
  · obtain ⟨r0, hr0, hq0⟩ := hconv 0 hpos
    refine ⟨r0, hr0, ?_⟩
    rw [hq0]
    apply Finset.sum_eq_zero
    intro j _
    have : ¬ j + 1 ≤ 0 := by omega
    rw [if_neg this]
  · have hsum : ∀ k ∈ Finset.range inData.length, (st.getD k ModelState.zero).Q_sim =
        ∑ i ∈ Finset.range inData.length,
          if 1 ≤ i ∧ i ≤ k ∧ k - i < w.length then
            w.getD (k - i) 0 * (st.getD i ModelState.zero).Q_gw
          else 0 := by
      intro k hk
      simp only [Finset.mem_range] at hk
      obtain ⟨r, hr, hq⟩ := hsteps k hk
      simp only [List.getD_eq_getElem?_getD, hr, Option.getD_some] at hq ⊢
      exact hq
    rw [Finset.sum_congr rfl hsum, Finset.sum_comm]
    apply Finset.sum_congr rfl
    intro i _
    by_cases h1 : 1 ≤ i
    · rw [if_pos h1, ← routed_total_weight w inData.length i, Finset.mul_sum]
      apply Finset.sum_congr rfl
      intro k _
      by_cases hc : i ≤ k ∧ k - i < w.length
      · have : 1 ≤ i ∧ i ≤ k ∧ k - i < w.length := ⟨h1, hc⟩
        rw [if_pos hc, if_pos this]
        ring
      · have : ¬ (1 ≤ i ∧ i ≤ k ∧ k - i < w.length) := fun h => hc h.2
        rw [if_neg hc, if_neg this, mul_zero]
    · rw [if_neg h1]
      apply Finset.sum_eq_zero
      intro k _
      have : ¬ (1 ≤ i ∧ i ≤ k ∧ k - i < w.length) := fun h => h1 h.1
      rw [if_neg this]

/-- C18, witness: on the golden scenario `RunModel` returns, the weights are 1/2
and 1/2, and `Q_sim[2]` is the convolution sum over `j < 2`. -/
theorem RunModel_runoff_convolution_witness :
    ∃ st r, RunModel powIntegral (exampleParameters 2) exampleSeries = some (st, none) ∧
      st[2]? = some r ∧
      r.Q_sim = ∑ j ∈ Finset.range 2,
        if j + 1 ≤ 2 then
          ([1 / 2, 1 / 2] : List ℚ).getD j 0 * (st.getD (2 - j) ModelState.zero).Q_gw
        else 0 := by
  have hw2 : RoutingMaxbasWeights (exampleParameters 2) = some [1 / 2, 1 / 2] := by
    have hc : ⌈(exampleParameters 2).MAXBAS⌉ = 2 := ceil_two
    have h2 : (2 : ℤ).toNat = 2 := rfl
    rw [RoutingMaxbasWeights_eq _ (by rw [hc]; norm_num), hc, h2, maxbasBins_two]
    norm_num
  obtain ⟨st, hst, _⟩ := RunModel_returns powIntegral (exampleParameters 2) exampleSeries
    (by simp [exampleSeries]) (by rw [show (exampleParameters 2).MAXBAS = 2 from rfl, ceil_two]
                                  norm_num)
  obtain ⟨w, hw, hconv, _, _⟩ :=
    RunModel_runoff_convolution powIntegral (exampleParameters 2) exampleSeries st none hst
  rw [hw2] at hw
  cases hw
  obtain ⟨r, hr, hq⟩ := hconv 2 (by simp [exampleSeries])
  exact ⟨st, r, hst, hr, hq⟩

/-! ## The golden scenario -/

theorem RoutingMaxbasWeights_two :
    RoutingMaxbasWeights (exampleParameters 2) = some [1 / 2, 1 / 2] := by
  have hc : ⌈(exampleParameters 2).MAXBAS⌉ = 2 := ceil_two
  have h2 : (2 : ℤ).toNat = 2 := rfl
  rw [RoutingMaxbasWeights_eq _ (by rw [hc]; norm_num), hc, h2, maxbasBins_two]
  norm_num

/-- The melting branch on bare ground: with no snow in store, the precipitation
passes through as infiltration input. -/
theorem snowStep_bare (mPars : Parameters) (prev cur : ModelState) (inp : InputData)
    (hT : ¬ inp.Temperature ≤ mPars.TT) (hs : prev.Snow_solid = 0)
    (hl : prev.Snow_liquid = 0) (hP : 0 ≤ inp.Precipitation) :
    (snowStep mPars prev cur inp).Snow_solid = 0 ∧
      (snowStep mPars prev cur inp).Snow_liquid = 0 ∧
      (snowStep mPars prev cur inp).S_snow = 0 ∧
      (snowStep mPars prev cur inp).Liquid_in = inp.Precipitation ∧
      (snowStep mPars prev cur inp).Snow_cover = 0 := by
  have hmelt : min (max (mPars.CFMAX * (inp.Temperature - mPars.TT)) 0) (0 : ℚ) = 0 :=
    min_eq_right (le_max_right _ _)
  have hmax : max inp.Precipitation 0 = inp.Precipitation := max_eq_left hP
  simp only [snowStep, if_neg hT, hs, hl, hmelt, sub_self, max_self, zero_mul, zero_add,
    add_zero, sub_zero, hmax, gt_iff_lt, lt_irrefl, if_false, and_self]

/-- The inner soil loop of the golden scenario: while the storage stays between
140 and 150 mm of a field capacity of 200 mm, each unit pass sends between 0.49
and 0.5625 mm to the recharge total. -/
theorem soilLoop_golden (Pow : ℚ → ℚ → ℚ) (hPow : ∀ x, Pow x 2 = x ^ 2) :
    ∀ (n : ℕ) (s t : ℚ), 140 ≤ s → s + n ≤ 150 →
      t + 49 / 100 * n ≤ (soilLoop Pow (exampleParameters 2) n (s, t)).2 ∧
        (soilLoop Pow (exampleParameters 2) n (s, t)).2 ≤ t + 9 / 16 * n := by
  intro n
  induction n with
  | zero =>
    intro s t _ _
    simp [soilLoop]
  | succ k ih =>
    intro s t hs hsn
    push_cast at hsn ⊢
    have hk : (0 : ℚ) ≤ k := Nat.cast_nonneg k
    have hr : Pow (s / (exampleParameters 2).FC) (exampleParameters 2).BETA = (s / 200) ^ 2 := by
      rw [show (exampleParameters 2).FC = 200 from rfl,
        show (exampleParameters 2).BETA = 2 from rfl, hPow]
    have hlo : (49 : ℚ) / 100 ≤ (s / 200) ^ 2 := by nlinarith
    have hhi : (s / 200) ^ 2 ≤ (9 : ℚ) / 16 := by nlinarith
    simp only [soilLoop, hr, one_mul]
    obtain ⟨a, b⟩ := ih (s + (1 - (s / 200) ^ 2)) (t + (s / 200) ^ 2) (by linarith)
      (by linarith)
    constructor <;> linarith

/-- The recharge split of step 1 of the golden scenario: 10 mm of infiltration on
a soil storage of 140 mm. -/
theorem soilRecharge_golden (Pow : ℚ → ℚ → ℚ) (hPow : ∀ x, Pow x 2 = x ^ 2) :
    49 / 10 ≤ (soilRecharge Pow (exampleParameters 2) 140 10).2.2 ∧
      (soilRecharge Pow (exampleParameters 2) 140 10).2.2 ≤ 45 / 8 ∧
      (soilRecharge Pow (exampleParameters 2) 140 10).2.1 =
        10 - (soilRecharge Pow (exampleParameters 2) 140 10).2.2 := by
  have hsum := soilRecharge_sum Pow (exampleParameters 2) 140 10 (by norm_num)
  have hfl : ⌊(10 : ℚ)⌋ = 10 := by rw [Int.floor_eq_iff]; norm_num
  have hval : (soilRecharge Pow (exampleParameters 2) 140 10).2.2 =
      (soilLoop Pow (exampleParameters 2) 10 (140, 0)).2 := by
    unfold soilRecharge
    rw [if_pos (by norm_num)]
    simp only [hfl, toNat_ten]
    norm_num
  obtain ⟨a, b⟩ := soilLoop_golden Pow hPow 10 140 0 (le_refl _) (by norm_num)
  rw [hval]
  refine ⟨by linarith, by linarith, ?_⟩
  rw [← hval]
  linarith

/-- Step 1 of the golden scenario on records: 10 mm of rain at 5 degrees on bare
ground, from the seeded record. -/
theorem golden_step_one (Pow : ℚ → ℚ → ℚ) (hPow : ∀ x, Pow x 2 = x ^ 2)
    (prev cur s2 : ModelState)
    (hs : prev.Snow_solid = 0) (hl : prev.Snow_liquid = 0) (hsoil : prev.S_soil = 140)
    (hsuz : prev.S_gw_suz = 0) (hslz : prev.S_gw_slz = 100)
    (hs2 : soilStep Pow (exampleParameters 2) prev
      (snowStep (exampleParameters 2) prev cur (exampleInput 10 5 2))
      (some (exampleInput 10 5 2)) = some s2) :
    (responseStep (exampleParameters 2) prev s2).Snow_solid = 0 ∧
      (responseStep (exampleParameters 2) prev s2).Snow_liquid = 0 ∧
      (responseStep (exampleParameters 2) prev s2).S_snow = 0 ∧
      (responseStep (exampleParameters 2) prev s2).Liquid_in = 10 ∧
      (responseStep (exampleParameters 2) prev s2).AET = 2 ∧
      (1139 / 8 ≤ (responseStep (exampleParameters 2) prev s2).S_soil ∧
        (responseStep (exampleParameters 2) prev s2).S_soil ≤ 1431 / 10) ∧
      (responseStep (exampleParameters 2) prev s2).S_gw_slz = 9999 / 100 ∧
      (responseStep (exampleParameters 2) prev s2).S_gw_suz =
        9 / 10 * ((responseStep (exampleParameters 2) prev s2).Recharge_gwuz - 1) ∧
      (49 / 10 ≤ (responseStep (exampleParameters 2) prev s2).Recharge_gwuz ∧
        (responseStep (exampleParameters 2) prev s2).Recharge_gwuz ≤ 45 / 8) := by
  obtain ⟨b1, b2, b3, b4, b5⟩ := snowStep_bare (exampleParameters 2) prev cur
    (exampleInput 10 5 2) (by norm_num [exampleInput, exampleParameters]) hs hl
    (by norm_num [exampleInput])
  obtain ⟨f1, f2, f3⟩ := pass_snow_fields hs2
  obtain ⟨r1, r2, r3⟩ := soilRecharge_golden Pow hPow
  have rfst := soilRecharge_fst Pow (exampleParameters 2) 140 10
  rw [soilStep_some] at hs2
  have hL : (snowStep (exampleParameters 2) prev cur (exampleInput 10 5 2)).Liquid_in = 10 := by
    rw [b4]; rfl
  rw [hL, hsoil, b5] at hs2
  cases hs2
  have hmin : min (1 : ℚ)
      ((((soilRecharge Pow (exampleParameters 2) 140 10).1 - 140) / 2 + 140) *
        (1 / ((exampleParameters 2).LP * (exampleParameters 2).FC))) = 1 := by
    apply min_eq_left
    rw [rfst, show (exampleParameters 2).LP * (exampleParameters 2).FC = 140 by
      norm_num [exampleParameters]]
    linarith
  have hperc : min (exampleParameters 2).PERC
      (prev.S_gw_suz + (soilRecharge Pow (exampleParameters 2) 140 10).2.2) = 1 := by
    rw [hsuz, show (exampleParameters 2).PERC = 1 from rfl]
    exact min_eq_left (by linarith)
  have hfast : max (prev.S_gw_suz + (soilRecharge Pow (exampleParameters 2) 140 10).2.2 -
      1 - (exampleParameters 2).UZL) 0 = 0 := by
    rw [hsuz, show (exampleParameters 2).UZL = 20 from rfl]
    exact max_eq_right (by linarith)
  refine ⟨by rw [f1, b1], by rw [f2, b2], by rw [f3, b3], rfl, ?_, ?_, ?_, ?_, ⟨r1, r2⟩⟩
  · show (if (0 : ℤ) = 1 then (0 : ℚ) else (exampleInput 10 5 2).PotentialET * _) = 2
    rw [if_neg (by norm_num), hmin]
    norm_num [exampleInput]
  · show 1139 / 8 ≤ (140 : ℚ) - (if (0 : ℤ) = 1 then (0 : ℚ) else
        (exampleInput 10 5 2).PotentialET * _) + _ ∧
      (140 : ℚ) - (if (0 : ℤ) = 1 then (0 : ℚ) else
        (exampleInput 10 5 2).PotentialET * _) + _ ≤ 1431 / 10
    rw [if_neg (by norm_num), hmin, show (exampleInput 10 5 2).PotentialET = 2 from rfl]
    constructor <;> linarith
  · rw [(responseStep_storages _ _ _).2]
    dsimp only
    rw [hperc, hslz, show (exampleParameters 2).K2 = 1 / 100 from rfl]
    norm_num
  · rw [(responseStep_storages _ _ _).1]
    show _ = 9 / 10 * ((soilRecharge Pow (exampleParameters 2) 140 10).2.2 - 1)
    dsimp only
    rw [hperc, hfast, hsuz, show (exampleParameters 2).K1 = 1 / 10 from rfl,
      show (exampleParameters 2).K0 = 3 / 10 from rfl]
    ring

/-- Step 2 of the golden scenario on records: no precipitation at 5 degrees on
bare ground, from a record with a soil storage of at least `LP * FC` and at least
`PERC` of water in the upper zone. -/
theorem golden_step_two (Pow : ℚ → ℚ → ℚ) (prev cur s2 : ModelState)
    (hs : prev.Snow_solid = 0) (hl : prev.Snow_liquid = 0) (hsoil : 140 ≤ prev.S_soil)
    (hsuz : 1 ≤ prev.S_gw_suz) (hslz : prev.S_gw_slz = 9999 / 100)
    (hs2 : soilStep Pow (exampleParameters 2) prev
      (snowStep (exampleParameters 2) prev cur (exampleInput 0 5 2))
      (some (exampleInput 0 5 2)) = some s2) :
    (responseStep (exampleParameters 2) prev s2).S_snow = 0 ∧
      (responseStep (exampleParameters 2) prev s2).Liquid_in = 0 ∧
      (responseStep (exampleParameters 2) prev s2).AET = 2 ∧
      (responseStep (exampleParameters 2) prev s2).S_soil = prev.S_soil - 2 ∧
      (responseStep (exampleParameters 2) prev s2).S_gw_slz = 999801 / 10000 := by
  obtain ⟨_, _, b3, b4, b5⟩ := snowStep_bare (exampleParameters 2) prev cur
    (exampleInput 0 5 2) (by norm_num [exampleInput, exampleParameters]) hs hl
    (by norm_num [exampleInput])
  obtain ⟨_, _, f3⟩ := pass_snow_fields hs2
  have hL : (snowStep (exampleParameters 2) prev cur (exampleInput 0 5 2)).Liquid_in = 0 := by
    rw [b4]; rfl
  obtain ⟨_, g2, g3, g4⟩ := soilStep_no_infiltration hs2 hL
  have hmin : min (1 : ℚ)
      (prev.S_soil * (1 / ((exampleParameters 2).LP * (exampleParameters 2).FC))) = 1 := by
    apply min_eq_left
    rw [show (exampleParameters 2).LP * (exampleParameters 2).FC = 140 by
      norm_num [exampleParameters]]
    linarith
  have hAET : s2.AET = 2 := by
    rw [g3, b5, if_neg (by norm_num), hmin]
    norm_num [exampleInput]
  have hLi : s2.Liquid_in = 0 := by
    have h := hs2
    rw [soilStep_some] at h
    rw [← Option.some.inj h]
    exact hL
  have hperc : min (exampleParameters 2).PERC (prev.S_gw_suz + s2.Recharge_gwuz) = 1 := by
    rw [g2, add_zero, show (exampleParameters 2).PERC = 1 from rfl]
    exact min_eq_left hsuz
  refine ⟨by rw [f3, b3], hLi, hAET, ?_, ?_⟩
  · show s2.S_soil = prev.S_soil - 2
    rw [g4, hAET]
  · rw [(responseStep_storages _ _ _).2, hperc, hslz,
      show (exampleParameters 2).K2 = 1 / 100 from rfl]
    norm_num

/-- C11: on the golden scenario, with a `Pow` that squares at exponent 2, the
kernel weights are 1/2 and 1/2 and `RunModel` returns three records and no
error, with `S_snow = [0, 0, 0]`, `Liquid_in = [0, 10, 0]`, `AET = [0, 2, 2]`,
`S_soil[0] = 140`, `S_soil[2] = S_soil[1] - 2`, `142.375 ≤ S_soil[1] ≤ 143.1`,
`S_gw_slz = [100, 99.99, 99.9801]`, `S_gw_suz[1] = 0.9 * (Recharge_gwuz[1] - 1)`,
`Q_sim[0] = 0`, `Q_sim[1] = Q_gw[1] / 2` and `Q_sim[2] = (Q_gw[1] + Q_gw[2]) / 2`. -/
theorem RunModel_golden (Pow : ℚ → ℚ → ℚ) (hPow : ∀ x, Pow x 2 = x ^ 2) :
    RoutingMaxbasWeights (exampleParameters 2) = some [1 / 2, 1 / 2] ∧
      ∃ r0 r1 r2, RunModel Pow (exampleParameters 2) exampleSeries = some ([r0, r1, r2], none) ∧
        (r0.S_snow = 0 ∧ r1.S_snow = 0 ∧ r2.S_snow = 0) ∧
        (r0.Liquid_in = 0 ∧ r1.Liquid_in = 10 ∧ r2.Liquid_in = 0) ∧
        (r0.AET = 0 ∧ r1.AET = 2 ∧ r2.AET = 2) ∧
        (r0.S_soil = 140 ∧ r2.S_soil = r1.S_soil - 2 ∧
          142.375 ≤ r1.S_soil ∧ r1.S_soil ≤ 143.1) ∧
        (r0.S_gw_slz = 100 ∧ r1.S_gw_slz = 99.99 ∧ r2.S_gw_slz = 99.9801) ∧
        r1.S_gw_suz = 0.9 * (r1.Recharge_gwuz - 1) ∧
        (r0.Q_sim = 0 ∧ r1.Q_sim = r1.Q_gw / 2 ∧ r2.Q_sim = (r1.Q_gw + r2.Q_gw) / 2) := by
  refine ⟨RoutingMaxbasWeights_two, ?_⟩
  obtain ⟨st, hst, hlen, _, h0⟩ := RunModel_invariant Pow (exampleParameters 2) exampleSeries
    (fun _ => True) (fun _ _ _ => trivial) (fun _ _ _ _ _ _ _ => trivial) trivial trivial
    (by simp [exampleSeries])
    (by rw [show (exampleParameters 2).MAXBAS = 2 from rfl, ceil_two]; norm_num)
  have hlen3 : st.length = 3 := hlen
  obtain ⟨r0, r1, r2, rfl⟩ := List.length_eq_three.mp hlen3
  have hr0 : r0 = { ModelState.zero with
      S_soil := (exampleParameters 2).FC * (exampleParameters 2).LP,
      S_gw_slz := (exampleParameters 2).PERC / (exampleParameters 2).K2 } := by
    simpa using h0
  -- step 1
  obtain ⟨p1, q1, c1, i1, s1, hp1, hq1, hi1, hs1, he1⟩ :=
    RunModel_recurrence Pow (exampleParameters 2) exampleSeries _ _ hst 1 (le_refl _)
      (by simp [exampleSeries])
  have ep1 : p1 = r0 := by simpa using hp1.symm
  have eq1 : q1 = r1 := by simpa using hq1.symm
  have ei1 : i1 = exampleInput 10 5 2 := by simpa [exampleSeries] using hi1.symm
  subst ep1 eq1 ei1
  obtain ⟨a1, a2, a3, a4, a5, ⟨a6, a7⟩, a8, a9, a10, _⟩ :=
    golden_step_one Pow hPow p1 c1 s1 (by rw [hr0]; rfl) (by rw [hr0]; rfl)
      (by rw [hr0]; norm_num [exampleParameters]) (by rw [hr0]; rfl)
      (by rw [hr0]; norm_num [exampleParameters]) hs1
  have t1 : q1.Snow_solid = 0 := (congrArg ModelState.Snow_solid he1).trans a1
  have t2 : q1.Snow_liquid = 0 := (congrArg ModelState.Snow_liquid he1).trans a2
  have t3 : q1.S_snow = 0 := (congrArg ModelState.S_snow he1).trans a3
  have t4 : q1.Liquid_in = 10 := (congrArg ModelState.Liquid_in he1).trans a4
  have t5 : q1.AET = 2 := (congrArg ModelState.AET he1).trans a5
  have t6 : 1139 / 8 ≤ q1.S_soil := by
    rw [show q1.S_soil = _ from congrArg ModelState.S_soil he1]; exact a6
  have t7 : q1.S_soil ≤ 1431 / 10 := by
    rw [show q1.S_soil = _ from congrArg ModelState.S_soil he1]; exact a7
  have t8 : q1.S_gw_slz = 9999 / 100 := (congrArg ModelState.S_gw_slz he1).trans a8
  have t9 : q1.S_gw_suz = 9 / 10 * (q1.Recharge_gwuz - 1) := by
    rw [show q1.Recharge_gwuz = _ from congrArg ModelState.Recharge_gwuz he1]
    exact (congrArg ModelState.S_gw_suz he1).trans a9
  have t10 : 49 / 10 ≤ q1.Recharge_gwuz := by
    rw [show q1.Recharge_gwuz = _ from congrArg ModelState.Recharge_gwuz he1]; exact a10
  -- step 2
  obtain ⟨p2, q2, c2, i2, s2, hp2, hq2, hi2, hs2, he2⟩ :=
    RunModel_recurrence Pow (exampleParameters 2) exampleSeries _ _ hst 2 (by norm_num)
      (by simp [exampleSeries])
  have ep2 : p2 = q1 := by simpa using hp2.symm
  have eq2 : q2 = r2 := by simpa using hq2.symm
  have ei2 : i2 = exampleInput 0 5 2 := by simpa [exampleSeries] using hi2.symm
  subst ep2 eq2 ei2
  obtain ⟨u1, u2, u3, u4, u5⟩ :=
    golden_step_two Pow p2 c2 s2 t1 t2 (by linarith) (by rw [t9]; linarith) t8 hs2
  have v1 : q2.S_snow = 0 := (congrArg ModelState.S_snow he2).trans u1
  have v2 : q2.Liquid_in = 0 := (congrArg ModelState.Liquid_in he2).trans u2
  have v3 : q2.AET = 2 := (congrArg ModelState.AET he2).trans u3
  have v4 : q2.S_soil = p2.S_soil - 2 := (congrArg ModelState.S_soil he2).trans u4
  have v5 : q2.S_gw_slz = 999801 / 10000 := (congrArg ModelState.S_gw_slz he2).trans u5
  -- routing
  have hsteps := RunModel_runoff_steps Pow (exampleParameters 2) exampleSeries [1 / 2, 1 / 2]
    RoutingMaxbasWeights_two _ _ hst
  have hN : exampleSeries.length = 3 := rfl
  obtain ⟨x0, hx0, hq0⟩ := hsteps 0 (by rw [hN]; norm_num)
  obtain ⟨x1, hx1, hq1⟩ := hsteps 1 (by rw [hN]; norm_num)
  obtain ⟨x2, hx2, hq2⟩ := hsteps 2 (by rw [hN]; norm_num)
  have ex0 : x0 = p1 := by simpa using hx0.symm
  have ex1 : x1 = p2 := by simpa using hx1.symm
  have ex2 : x2 = q2 := by simpa using hx2.symm
  subst ex0 ex1 ex2
  rw [hN] at hq0 hq1 hq2
  simp [Finset.sum_range_succ] at hq0 hq1 hq2
  refine ⟨x0, x1, x2, hst, ⟨by rw [hr0]; rfl, t3, v1⟩, ⟨by rw [hr0]; rfl, t4, v2⟩,
    ⟨by rw [hr0]; rfl, t5, v3⟩, ⟨by rw [hr0]; norm_num [exampleParameters], v4, ?_, ?_⟩,
    ⟨by rw [hr0]; norm_num [exampleParameters], by rw [t8]; norm_num, by rw [v5]; norm_num⟩,
    by rw [t9]; norm_num, hq0, ?_, ?_⟩
  · norm_num; linarith
  · norm_num; linarith
  · rw [hq1]; ring
  · rw [hq2]; ring

/-- C11, witness: `powIntegral` squares at exponent 2, so the golden values hold
for the run with `powIntegral`. -/
theorem RunModel_golden_witness :
    (∀ x, powIntegral x 2 = x ^ 2) ∧
      RoutingMaxbasWeights (exampleParameters 2) = some [1 / 2, 1 / 2] ∧
      ∃ r0 r1 r2,
        RunModel powIntegral (exampleParameters 2) exampleSeries = some ([r0, r1, r2], none) ∧
        r1.Liquid_in = 10 ∧ r1.AET = 2 ∧ r2.S_soil = r1.S_soil - 2 ∧
        r2.S_gw_slz = 99.9801 ∧ r2.Q_sim = (r1.Q_gw + r2.Q_gw) / 2 := by
  obtain ⟨hw, r0, r1, r2, hrun, _, ⟨_, hL, _⟩, ⟨_, hA, _⟩, ⟨_, hS, _, _⟩, ⟨_, _, hZ⟩, _, _, _, hQ⟩ :=
    RunModel_golden powIntegral powIntegral_two
  exact ⟨powIntegral_two, hw, r0, r1, r2, hrun, hL, hA, hS, hZ, hQ⟩

/-! ## Soil storage past the field capacity -/

/-- One step of the shower scenario on records: 1 mm of rain at 5 degrees on bare
ground with a shallow soil (FC = 1/2, BETA = 2) and no potential
evapotranspiration; the single unit increment changes the soil storage `s` by
`1 - (2 * s) ^ 2`. -/
theorem shower_step (prev cur s2 : ModelState)
    (hs : prev.Snow_solid = 0) (hl : prev.Snow_liquid = 0)
    (hs2 : soilStep powIntegral shallowParameters prev
      (snowStep shallowParameters prev cur (exampleInput 1 5 0))
      (some (exampleInput 1 5 0)) = some s2) :
    (responseStep shallowParameters prev s2).Snow_solid = 0 ∧
      (responseStep shallowParameters prev s2).Snow_liquid = 0 ∧
      (responseStep shallowParameters prev s2).AET = 0 ∧
      (responseStep shallowParameters prev s2).S_soil =
        prev.S_soil + (1 - (2 * prev.S_soil) ^ 2) := by
  obtain ⟨b1, b2, _, b4, b5⟩ := snowStep_bare shallowParameters prev cur
    (exampleInput 1 5 0) (by norm_num [exampleInput, shallowParameters, exampleParameters]) hs hl
    (by norm_num [exampleInput])
  obtain ⟨f1, f2, _⟩ := pass_snow_fields hs2
  have hL : (snowStep shallowParameters prev cur (exampleInput 1 5 0)).Liquid_in = 1 := by
    rw [b4]; rfl
  have hsr : soilRecharge powIntegral shallowParameters prev.S_soil 1 =
      (prev.S_soil + (1 - (2 * prev.S_soil) ^ 2), 1 - (2 * prev.S_soil) ^ 2,
        (2 * prev.S_soil) ^ 2) := by
    have hB : shallowParameters.BETA = 2 := rfl
    have hF : shallowParameters.FC = 1 / 2 := rfl
    have h1 : ⌊(1 : ℚ)⌋.toNat = 1 := by rw [Int.floor_one]; rfl
    unfold soilRecharge
    rw [if_pos (by norm_num)]
    simp only [h1, soilLoop, hB, hF, powIntegral_two, Int.floor_one, Int.cast_one, sub_self,
      zero_mul, one_mul, add_zero, zero_add, sub_zero]
    refine Prod.ext ?_ (Prod.ext ?_ ?_) <;> simp only <;> ring
  rw [soilStep_some] at hs2
  rw [hL, b5, hsr] at hs2
  cases hs2
  refine ⟨by rw [f1, b1], by rw [f2, b2], ?_, ?_⟩
  · show (if (0 : ℤ) = 1 then (0 : ℚ) else (exampleInput 1 5 0).PotentialET * _) = 0
    rw [if_neg (by norm_num), show (exampleInput 1 5 0).PotentialET = 0 from rfl, zero_mul]
  · show prev.S_soil - (if (0 : ℤ) = 1 then (0 : ℚ) else
        (exampleInput 1 5 0).PotentialET * _) + _ = _
    rw [if_neg (by norm_num), show (exampleInput 1 5 0).PotentialET = 0 from rfl, zero_mul]
    ring

/-- The soil storage can become negative without any evapotranspiration, when a
unit increment takes it past FC: with FC = LP = 1/2 and BETA = 2, 1 mm of rain at
steps 1 and 2 and no potential evapotranspiration, the soil storage is 1/4, then 1
(twice FC), then `1 + (1 - 2 ^ 2) = -2`. -/
theorem RunModel_soil_overshoot :
    (∀ d ∈ showerSeries, 0 ≤ d.Precipitation ∧ 0 ≤ d.PotentialET) ∧
      0 < shallowParameters.FC ∧
      (0 < shallowParameters.LP ∧ shallowParameters.LP ≤ 1) ∧
      0 < shallowParameters.BETA ∧
      (0 ≤ shallowParameters.SFCF ∧ 0 ≤ shallowParameters.CFMAX ∧
        0 ≤ shallowParameters.CFR ∧ 0 ≤ shallowParameters.CWH) ∧
      ∃ st r1 r2, RunModel powIntegral shallowParameters showerSeries = some (st, none) ∧
        st[1]? = some r1 ∧ st[2]? = some r2 ∧ r1.S_soil = 1 ∧ r2.S_soil = (-2 : ℚ) := by
  refine ⟨?_, by norm_num [shallowParameters], by norm_num [shallowParameters],
    by norm_num [shallowParameters, exampleParameters],
    by norm_num [shallowParameters, exampleParameters], ?_⟩
  · intro d hd
    simp only [showerSeries, exampleInput, List.mem_cons, List.mem_singleton,
      List.mem_nil_iff, or_false] at hd
    rcases hd with rfl | rfl | rfl <;> norm_num
  obtain ⟨st, hst, _, _, h0⟩ := RunModel_invariant powIntegral shallowParameters
    showerSeries (fun _ => True) (fun _ _ _ => trivial) (fun _ _ _ _ _ _ _ => trivial)
    trivial trivial (by simp [showerSeries])
    (by rw [show shallowParameters.MAXBAS = 2 from rfl, ceil_two]; norm_num)
  obtain ⟨p1, q1, c1, i1, s1, hp1, hq1, hi1, hs1, he1⟩ :=
    RunModel_recurrence powIntegral shallowParameters showerSeries st none hst 1
      (le_refl 1) (by simp [showerSeries])
  simp only [Nat.sub_self] at hp1
  rw [h0] at hp1
  cases hp1
  have ei1 : i1 = exampleInput 1 5 0 := by
    have : showerSeries[1]? = some (exampleInput 1 5 0) := rfl
    rw [this] at hi1
    exact (Option.some.inj hi1).symm
  subst ei1
  obtain ⟨a1, a2, _, a4⟩ := shower_step _ c1 s1 rfl rfl hs1
  have t1 : q1.Snow_solid = 0 := (congrArg ModelState.Snow_solid he1).trans a1
  have t2 : q1.Snow_liquid = 0 := (congrArg ModelState.Snow_liquid he1).trans a2
  have t4 : q1.S_soil = 1 := by
    rw [show q1.S_soil = _ from congrArg ModelState.S_soil he1, a4]
    norm_num [ModelState.zero, shallowParameters]
  obtain ⟨p2, q2, c2, i2, s2, hp2, hq2, hi2, hs2, he2⟩ :=
    RunModel_recurrence powIntegral shallowParameters showerSeries st none hst 2
      (by norm_num) (by simp [showerSeries])
  have hp2' : st[1]? = some p2 := hp2
  rw [hq1] at hp2'
  cases hp2'
  have ei2 : i2 = exampleInput 1 5 0 := by
    have : showerSeries[2]? = some (exampleInput 1 5 0) := rfl
    rw [this] at hi2
    exact (Option.some.inj hi2).symm
  subst ei2
  obtain ⟨_, _, _, u4⟩ := shower_step _ c2 s2 t1 t2 hs2
  have v4 : q2.S_soil = -2 := by
    rw [show q2.S_soil = _ from congrArg ModelState.S_soil he2, u4, t4]
    norm_num
  exact ⟨st, _, q2, hst, hq1, hq2, t4, v4⟩

end Gohbv
